import Mathlib

/-!
LokSanskriti transcription backend: orchestration layer.

A shallow embedding of `backend-api/server.js`: the upload filter, the
adapter around the external transcription engine (`transcribePython`), the
batch handler and the single-file handler, the cleanup of staged files, the
two upload routes with the upload middleware in front of the handlers and the
error-handling middleware behind them, and the two static endpoints; and of
the function `transcribeAudio` of the client hook `useAudioTranscription`.
The definitions are followed by the properties proved about them.

JavaScript strings are embedded as Lean `String`s (sequences of characters);
every string operation used by the source is defined here on the character
list so that it can be evaluated on concrete inputs.
-/

namespace LokSanskriti

deriving instance DecidableEq for Except

/-! ## JavaScript and Node built-ins used by the server -/

/-- State of the backwards scan performed by Node's POSIX `path.extname`. -/
structure ExtnameState where
  startDot : Int
  startPart : Nat
  endIdx : Int
  matchedSlash : Bool
  preDotState : Int
  deriving DecidableEq, Repr

/-- Initial state of the scan of `path.extname`: `startDot = -1`,
`startPart = 0`, `end = -1`, `matchedSlash = true`, `preDotState = 0`. -/
def ExtnameState.init : ExtnameState :=
  { startDot := -1, startPart := 0, endIdx := -1, matchedSlash := true, preDotState := 0 }

/-- The loop `for (let i = path.length - 1; i >= 0; --i)` of Node's POSIX
`path.extname`; the first argument counts the indices still to visit, so the
index visited is `i`. -/
def extnameLoop (path : List Char) : Nat → ExtnameState → ExtnameState
  | 0, st => st
  | i + 1, st =>
    let code := path.getD i ' '
    if code = '/' then
      -- a separator that is not part of the trailing separators ends the scan
      if !st.matchedSlash then { st with startPart := i + 1 }
      else extnameLoop path i st
    else
      let st1 : ExtnameState :=
        if st.endIdx = -1 then { st with matchedSlash := false, endIdx := (i : Int) + 1 } else st
      let st2 : ExtnameState :=
        if code = '.' then
          if st1.startDot = -1 then { st1 with startDot := (i : Int) }
          else if st1.preDotState ≠ 1 then { st1 with preDotState := 1 }
          else st1
        else if st1.startDot ≠ -1 then { st1 with preDotState := -1 }
        else st1
      extnameLoop path i st2

/-- Node's `path.extname` (POSIX flavour) on a character list. -/
def extnameChars (path : List Char) : List Char :=
  let st := extnameLoop path path.length ExtnameState.init
  if st.startDot = -1 ∨ st.endIdx = -1 ∨ st.preDotState = 0 ∨
      (st.preDotState = 1 ∧ st.startDot = st.endIdx - 1 ∧ st.startDot = (st.startPart : Int) + 1) then
    []
  else
    (path.drop st.startDot.toNat).take (st.endIdx.toNat - st.startDot.toNat)

/-- Node's `path.extname(p)`: the extension of the last path component, from
its last `.` on, or the empty string. -/
def extname (p : String) : String :=
  String.mk (extnameChars p.data)

/-- Lower-case form of one character under `String.prototype.toLowerCase`.
The ASCII letters are mapped exactly.  Of the characters outside ASCII only
U+212A (KELVIN SIGN, to `k`) and U+0130 (to `i` followed by U+0307) have a
lower-case form containing an ASCII character, and they are mapped exactly;
the remaining characters outside ASCII are kept as they are (their lower-case
form has no ASCII character either). -/
def lowerChar (c : Char) : List Char :=
  if 'A'.toNat ≤ c.toNat ∧ c.toNat ≤ 'Z'.toNat then [Char.ofNat (c.toNat + 32)]
  else if c.toNat = 0x212A then ['k']
  else if c.toNat = 0x130 then ['i', Char.ofNat 0x307]
  else [c]

/-- The method `String.prototype.toLowerCase`. -/
def toLowerCase (s : String) : String :=
  String.mk (s.data.flatMap lowerChar)

/-- The method `Array.prototype.join` on an array of strings. -/
def join (xs : List String) (sep : String) : String :=
  match xs with
  | [] => ""
  | x :: rest => rest.foldl (fun acc y => acc ++ sep ++ y) x

/-- White space and line terminators removed by `String.prototype.trim`. -/
def isTrimSpace (c : Char) : Bool :=
  let n := c.toNat
  n = 0x09 || n = 0x0A || n = 0x0B || n = 0x0C || n = 0x0D || n = 0x20 || n = 0xA0 ||
  n = 0x1680 || (0x2000 ≤ n && n ≤ 0x200A) || n = 0x2028 || n = 0x2029 || n = 0x202F ||
  n = 0x205F || n = 0x3000 || n = 0xFEFF

/-- The method `String.prototype.trim`. -/
def trim (s : String) : String :=
  String.mk ((s.data.dropWhile isTrimSpace).reverse.dropWhile isTrimSpace).reverse

/-- A JavaScript value as far as the server meets one: `undefined` and the
values `JSON.parse` can return.  A number is kept as the text denoting it. -/
inductive JSValue where
  | undefined
  | null
  | bool (b : Bool)
  | number (lexeme : String)
  | string (s : String)
  | array (items : List JSValue)
  | object (props : List (String × JSValue))
  deriving Repr, Inhabited

/-- White space of the JSON grammar: space, tab, line feed, carriage return. -/
def isJsonSpace (c : Char) : Bool :=
  c = ' ' || c = '\t' || c = '\n' || c = '\r'

/-- Skip JSON white space. -/
def skipWs (cs : List Char) : List Char :=
  cs.dropWhile isJsonSpace

/-- Value of a hexadecimal digit. -/
def hexVal (c : Char) : Option Nat :=
  if '0'.toNat ≤ c.toNat ∧ c.toNat ≤ '9'.toNat then some (c.toNat - '0'.toNat)
  else if 'a'.toNat ≤ c.toNat ∧ c.toNat ≤ 'f'.toNat then some (c.toNat - 'a'.toNat + 10)
  else if 'A'.toNat ≤ c.toNat ∧ c.toNat ≤ 'F'.toNat then some (c.toNat - 'A'.toNat + 10)
  else none

/-- UTF-16 code units of one character. -/
def charUnits (c : Char) : List Nat :=
  if c.toNat < 0x10000 then [c.toNat]
  else [0xD800 + (c.toNat - 0x10000) / 0x400, 0xDC00 + (c.toNat - 0x10000) % 0x400]

/-- Characters of a sequence of UTF-16 code units; a surrogate without its
partner, which a Lean string cannot hold, becomes U+FFFD. -/
def unitsToChars : List Nat → List Char
  | [] => []
  | [u] => [if 0xD800 ≤ u ∧ u ≤ 0xDFFF then Char.ofNat 0xFFFD else Char.ofNat u]
  | u :: v :: rest =>
    if 0xD800 ≤ u ∧ u ≤ 0xDBFF ∧ 0xDC00 ≤ v ∧ v ≤ 0xDFFF then
      Char.ofNat (0x10000 + (u - 0xD800) * 0x400 + (v - 0xDC00)) :: unitsToChars rest
    else if 0xD800 ≤ u ∧ u ≤ 0xDFFF then Char.ofNat 0xFFFD :: unitsToChars (v :: rest)
    else Char.ofNat u :: unitsToChars (v :: rest)

/-- Code unit denoted by a one-character escape `\"`, `\\`, `\/`, `\b`, `\f`,
`\n`, `\r` or `\t` of a JSON string. -/
def simpleEscape (e : Char) : Option Nat :=
  if e = '"' then some 0x22
  else if e = '\\' then some 0x5C
  else if e = '/' then some 0x2F
  else if e = 'b' then some 0x08
  else if e = 'f' then some 0x0C
  else if e = 'n' then some 0x0A
  else if e = 'r' then some 0x0D
  else if e = 't' then some 0x09
  else none

/-- Code unit denoted by the four hexadecimal digits of a `\u` escape. -/
def hex4 (h1 h2 h3 h4 : Char) : Option Nat :=
  match hexVal h1, hexVal h2, hexVal h3, hexVal h4 with
  | some a, some b, some c, some d => some (a * 4096 + b * 256 + c * 16 + d)
  | _, _, _, _ => none

/-- Body of a JSON string, after the opening quote: the code units read so far
(in reverse) are accumulated until the closing quote. -/
def parseStringBody : List Char → List Nat → Option (String × List Char)
  | [], _ => none
  | c :: rest, acc =>
    if c = '"' then some (String.mk (unitsToChars acc.reverse), rest)
    else if c = '\\' then
      match rest with
      | [] => none
      | e :: rest1 =>
        if e = 'u' then
          match rest1 with
          | h1 :: h2 :: h3 :: h4 :: rest2 =>
            match hex4 h1 h2 h3 h4 with
            | some u => parseStringBody rest2 (u :: acc)
            | none => none
          | _ => none
        else
          match simpleEscape e with
          | some u => parseStringBody rest1 (u :: acc)
          | none => none
    else if c.toNat < 0x20 then none
    else parseStringBody rest ((charUnits c).reverse ++ acc)

/-- Split off the leading decimal digits. -/
def spanDigits (cs : List Char) : List Char × List Char :=
  cs.span Char.isDigit

/-- The optional `-` of a JSON number: the sign read and the rest. -/
def takeSign : List Char → List Char × List Char
  | [] => ([], [])
  | c :: r => if c = '-' then ([c], r) else ([], c :: r)

/-- The integer part `0 | [1-9][0-9]*` of a JSON number. -/
def intPart : List Char → Option (List Char × List Char)
  | [] => none
  | c :: r =>
    if c = '0' then some ([c], r)
    else if (spanDigits (c :: r)).1 = [] then none
    else some (spanDigits (c :: r))

/-- The optional fraction `. [0-9]+` of a JSON number. -/
def fracPart : List Char → Option (List Char × List Char)
  | [] => some ([], [])
  | c :: r =>
    if c = '.' then
      if (spanDigits r).1 = [] then none
      else some (c :: (spanDigits r).1, (spanDigits r).2)
    else some ([], c :: r)

/-- The optional sign `+` or `-` of an exponent. -/
def takeExpSign : List Char → List Char × List Char
  | [] => ([], [])
  | c :: r => if c = '+' ∨ c = '-' then ([c], r) else ([], c :: r)

/-- The optional exponent `[eE] [+-]? [0-9]+` of a JSON number. -/
def expPart : List Char → Option (List Char × List Char)
  | [] => some ([], [])
  | c :: r =>
    if c = 'e' ∨ c = 'E' then
      if (spanDigits (takeExpSign r).2).1 = [] then none
      else some (c :: (takeExpSign r).1 ++ (spanDigits (takeExpSign r).2).1,
                 (spanDigits (takeExpSign r).2).2)
    else some ([], c :: r)

/-- A JSON number at the head of the input: `-? (0 | [1-9][0-9]*) (. [0-9]+)?
([eE] [+-]? [0-9]+)?`; the result is its text and the rest of the input. -/
def parseNumber (cs : List Char) : Option (String × List Char) :=
  match intPart (takeSign cs).2 with
  | none => none
  | some (ip, cs2) =>
    match fracPart cs2 with
    | none => none
    | some (fp, cs3) =>
      match expPart cs3 with
      | none => none
      | some (ep, cs4) => some (String.mk ((takeSign cs).1 ++ ip ++ fp ++ ep), cs4)

/-- What the recursive descent is reading: a value, the rest of an array
after `[`, or the rest of an object after `{`. -/
inductive ParseMode where
  | value
  | elements (acc : List JSValue)
  | members (acc : List (String × JSValue))

/-- Recursive descent over the JSON grammar; the first argument bounds the
number of nested calls. -/
def parseJson : Nat → ParseMode → List Char → Option (JSValue × List Char)
  | 0, _, _ => none
  | fuel + 1, .value, cs =>
    match skipWs cs with
    | [] => none
    | c :: rest =>
      if c = '{' then
        match skipWs rest with
        | '}' :: rest1 => some (.object [], rest1)
        | _ => parseJson fuel (.members []) rest
      else if c = '[' then
        match skipWs rest with
        | ']' :: rest1 => some (.array [], rest1)
        | _ => parseJson fuel (.elements []) rest
      else if c = '"' then
        match parseStringBody rest [] with
        | some (s, rest1) => some (.string s, rest1)
        | none => none
      else if (c :: rest).take 4 = ['t', 'r', 'u', 'e'] then some (.bool true, rest.drop 3)
      else if (c :: rest).take 5 = ['f', 'a', 'l', 's', 'e'] then some (.bool false, rest.drop 4)
      else if (c :: rest).take 4 = ['n', 'u', 'l', 'l'] then some (.null, rest.drop 3)
      else
        match parseNumber (c :: rest) with
        | some (n, rest1) => some (.number n, rest1)
        | none => none
  | fuel + 1, .elements acc, cs =>
    match parseJson fuel .value cs with
    | none => none
    | some (v, rest) =>
      match skipWs rest with
      | ',' :: rest1 => parseJson fuel (.elements (v :: acc)) rest1
      | ']' :: rest1 => some (.array (v :: acc).reverse, rest1)
      | _ => none
  | fuel + 1, .members acc, cs =>
    match skipWs cs with
    | '"' :: rest =>
      match parseStringBody rest [] with
      | none => none
      | some (key, rest1) =>
        match skipWs rest1 with
        | ':' :: rest2 =>
          match parseJson fuel .value rest2 with
          | none => none
          | some (v, rest3) =>
            match skipWs rest3 with
            | ',' :: rest4 => parseJson fuel (.members ((key, v) :: acc)) rest4
            | '}' :: rest4 => some (.object ((key, v) :: acc).reverse, rest4)
            | _ => none
        | _ => none
    | _ => none

/-- The function `JSON.parse(text)`: `none` stands for a thrown `SyntaxError`.
The text must be one JSON value surrounded by JSON white space only. -/
def JSONparse (text : String) : Option JSValue :=
  match parseJson (2 * text.data.length + 2) .value text.data with
  | some (v, rest) => if skipWs rest = [] then some v else none
  | none => none

/-- Reading property `key` of a value, as in `result.transcription`: reading a
property of `null` or `undefined` throws a `TypeError` (`.error` carries its
message); a missing property reads as `undefined`; of duplicate keys of a
parsed object the last one counts. -/
def getProp (v : JSValue) (key : String) : Except String JSValue :=
  match v with
  | .null => .error ("Cannot read properties of null (reading '" ++ key ++ "')")
  | .undefined => .error ("Cannot read properties of undefined (reading '" ++ key ++ "')")
  | .object props =>
    match props.reverse.find? (fun kv => kv.1 = key) with
    | some kv => .ok kv.2
    | none => .ok .undefined
  | _ => .ok .undefined

/-! ## Upload filter -/

/-- The file object multer hands to `fileFilter` and to the handlers. -/
structure MulterFile where
  fieldname : String
  originalname : String
  encoding : String
  mimetype : String
  size : Nat
  path : String
  deriving DecidableEq, Repr

/-- The constant `allowedTypes` of `fileFilter`. -/
def allowedTypes : List String :=
  [".wav", ".mp3", ".flac", ".m4a", ".ogg", ".aac"]

/-- `fileFilter(req, file, cb)`: `.ok true` stands for `cb(null, true)` and
`.error m` for `cb(new Error(m), false)`.  The request is not read. -/
def fileFilter (file : MulterFile) : Except String Bool :=
  let ext := toLowerCase (extname file.originalname)
  if allowedTypes.contains ext then
    .ok true
  else
    .error ("Invalid file type. Allowed: " ++ join allowedTypes ", ")

/-! ## Transcription engine adapter -/

/-- An event delivered by the spawned engine process to the listeners that
`transcribePython` registers. -/
inductive ProcEvent where
  /-- A `data` event of `stdout`; the chunk is `data.toString()`. -/
  | stdoutData (chunk : String)
  /-- A `data` event of `stderr`; the chunk is `data.toString()`. -/
  | stderrData (chunk : String)
  /-- The `close` event; the code is `none` (JavaScript `null`) when the
  process was ended by a signal, and negative when the process could not be
  started. -/
  | close (code : Option Int)
  /-- The `error` event; the argument is `err.message`. -/
  | error (message : String)
  deriving DecidableEq, Repr

/-- Whether an event is one of the two `data` events. -/
def ProcEvent.isData : ProcEvent → Bool
  | .stdoutData _ => true
  | .stderrData _ => true
  | _ => false

/-- State of the promise returned by `transcribePython`.  An `Error` object
is represented by its `message`. -/
inductive PromiseState where
  | pending
  | resolved (value : JSValue)
  | rejected (message : String)
  deriving Repr

/-- The variables captured by the listeners of `transcribePython`, and the
state of its promise. -/
structure AdapterState where
  outputData : String
  errorData : String
  outcome : PromiseState

/-- A call of `resolve` or `reject`: only the first one settles the promise. -/
def AdapterState.settle (st : AdapterState) (r : PromiseState) : AdapterState :=
  match st.outcome with
  | .pending => { st with outcome := r }
  | _ => st

/-- What the `close` listener passes to `resolve` or `reject`. -/
def closeResult (st : AdapterState) (code : Option Int) : PromiseState :=
  if code = some 0 then
    match JSONparse (trim st.outputData) with
    | some result => .resolved result
    | none => .rejected ("Failed to parse Python output: " ++ st.outputData)
  else
    .rejected ("Python process failed: " ++ st.errorData)

/-- One event handled by the listeners of `transcribePython`. -/
def AdapterState.step (st : AdapterState) : ProcEvent → AdapterState
  | .stdoutData data => { st with outputData := st.outputData ++ data }
  | .stderrData data => { st with errorData := st.errorData ++ data }
  | .close code => st.settle (closeResult st code)
  | .error message => st.settle (.rejected ("Failed to start Python process: " ++ message))

/-- State right after `spawn`: `outputData = ''`, `errorData = ''`. -/
def AdapterState.init : AdapterState :=
  { outputData := "", errorData := "", outcome := .pending }

/-- The listeners of `transcribePython` run over the events of one process. -/
def runAdapter (events : List ProcEvent) : AdapterState :=
  events.foldl AdapterState.step AdapterState.init

/-- What the server does not determine: the path of the engine script,
`path.join(__dirname, 'python', 'transcribe.py')`, and the events each
spawned process delivers.  `spawn n args` is the process started by the call
`spawn('python', args)` that follows `n` earlier calls of the same request. -/
structure Env where
  pythonScript : String
  spawn : Nat → List String → List ProcEvent

/-- The array `args` that `transcribePython(audioPath, language)` passes to
`spawn`; `language = none` is an omitted (`undefined`) argument, replaced by
the default `'en'`, and an empty string is not pushed. -/
def pythonArgs (env : Env) (audioPath : String) (language : Option String) : List String :=
  let language := language.getD "en"
  let args := [env.pythonScript, audioPath]
  if language ≠ "" then args ++ [language] else args

/-- The function `transcribePython(audioPath, language)` as the `n`-th engine
call of a request: the final state of the promise it returns. -/
def transcribePython (env : Env) (n : Nat) (audioPath : String) (language : Option String) :
    PromiseState :=
  (runAdapter (env.spawn n (pythonArgs env audioPath language))).outcome

/-! ## Batch handler -/

/-- A text field of the multipart body as multer stores it in `req.body`:
missing, a string, or an array of strings when the field is repeated (the
nested forms that bracketed field names produce are left out). -/
inductive FormField where
  | absent
  | text (value : String)
  | list (values : List String)
  deriving DecidableEq, Repr

/-- What the batch handler reads from the request: `req.files` (`none` when
multer did not set it) and `req.body.languages`. -/
structure BatchRequest where
  files : Option (List MulterFile)
  languages : FormField

/-- An element of `results`; a property the object literal does not have is
`none`. -/
structure BatchEntry where
  filename : String
  success : Bool
  transcription : Option JSValue
  language : Option String
  error : Option String

/-- The object `summary` of the batch response. -/
structure BatchSummary where
  total : Nat
  successful : Nat
  failed : Int
  deriving DecidableEq, Repr

/-- The object `data` of the single-mode response.  The number
`processingTime` is kept as the exact quotient, which JavaScript rounds to the
nearest double. -/
structure SingleData where
  transcription : JSValue
  language : String
  originalFilename : String
  fileSize : Nat
  processingTime : ℚ

/-- A JSON body sent by a handler or by the error-handling middleware. -/
inductive ResponseBody where
  /-- The object `{ success, error }`. -/
  | failure (success : Bool) (error : String)
  /-- The object `{ success, summary, results }`. -/
  | batch (success : Bool) (summary : BatchSummary) (results : List BatchEntry)
  /-- The object `{ success, data }`. -/
  | single (success : Bool) (data : SingleData)
  /-- The object `{ success, service, version, status, supportedFormats,
  maxFileSize }`. -/
  | health (success : Bool) (service version status : String)
      (supportedFormats : List String) (maxFileSize : String)
  /-- The object `{ success, languages }`, with the properties of `languages`
  in their order. -/
  | languages (success : Bool) (languages : List (String × String))

/-- An HTTP response: status code and JSON body. -/
structure Response where
  status : Nat
  body : ResponseBody

/-- A call `setTimeout(() => filePaths.forEach(cleanupFile), delay)`, or
`setTimeout(() => cleanupFile(filePath), delay)` with `paths = [filePath]`. -/
structure CleanupTimer where
  delay : Nat
  paths : List String
  deriving DecidableEq, Repr

/-- An action of a request that is visible outside it. -/
inductive Effect where
  /-- A call `spawn('python', args)`. -/
  | spawn (args : List String)
  /-- The call of `res.json` that sends the response. -/
  | respond (response : Response)
  /-- A call of `setTimeout`. -/
  | setTimeout (timer : CleanupTimer)

/-- What running a handler to its end leaves behind: the response sent, the
argument arrays of the `spawn` calls made, in order, the timers set, and all
these actions in the order in which they happen. -/
structure HandlerResult where
  response : Response
  spawned : List (List String)
  timers : List CleanupTimer
  effects : List Effect

/-- The expression `x || d` for `x` a string or `undefined`. -/
def orDefault (x : Option String) (d : String) : String :=
  match x with
  | some s => if s = "" then d else s
  | none => d

/-- The constant `languages` of the batch handler:
`req.body.languages ? (Array.isArray(..) ? .. : [..]) : []`. -/
def batchLanguages : FormField → List String
  | .absent => []
  | .text value => if value = "" then [] else [value]
  | .list values => values

/-- The variables of the batch handler that its `for` loop updates, with the
`spawn` calls made so far. -/
structure BatchLoopState where
  filePaths : List String
  results : List BatchEntry
  spawned : List (List String)

/-- The body of the `try` inside the loop, once the awaited promise has
settled: the entry pushed to `results`. -/
def batchEntry (file : MulterFile) (language : String) : PromiseState → Option BatchEntry
  | .pending => none
  | .resolved result =>
    match getProp result "transcription" with
    | .ok transcription =>
      some { filename := file.originalname, success := true,
             transcription := some transcription, language := some language, error := none }
    | .error message =>
      some { filename := file.originalname, success := false,
             transcription := none, language := none, error := some message }
  | .rejected message =>
    some { filename := file.originalname, success := false,
           transcription := none, language := none, error := some message }

/-- The loop `for (let i = 0; i < req.files.length; i++)` of the batch
handler from index `i` on, `files` being `req.files` from that index; `none`
when an awaited promise never settles. -/
def batchLoop (env : Env) (languages : List String) :
    Nat → List MulterFile → BatchLoopState → Option BatchLoopState
  | _, [], st => some st
  | i, file :: rest, st =>
    let language := orDefault languages[i]? "en"
    let filePaths := st.filePaths ++ [file.path]
    let spawned := st.spawned ++ [pythonArgs env file.path (some language)]
    match batchEntry file language (transcribePython env i file.path (some language)) with
    | none => none
    | some entry =>
      batchLoop env languages (i + 1) rest
        { filePaths := filePaths, results := st.results ++ [entry], spawned := spawned }

/-- The handler of `POST /api/transcribe/batch`, after multer has run; `none`
when the handler never completes because an engine call never settles.  The
response is the object passed to `res.json`, with the status set before it
(200 when none is set).  No statement of the outer `try` throws outside the
inner `try`, so the outer `catch` is never entered; the `finally` block sets
the timer on each path that ends. -/
def batchHandler (env : Env) (req : BatchRequest) : Option HandlerResult :=
  match req.files with
  | none =>
    some { response := { status := 400, body := .failure false "No audio files provided" },
           spawned := [], timers := [{ delay := 1000, paths := [] }],
           effects :=
             [.respond { status := 400, body := .failure false "No audio files provided" },
              .setTimeout { delay := 1000, paths := [] }] }
  | some files =>
    if files.length = 0 then
      some { response := { status := 400, body := .failure false "No audio files provided" },
             spawned := [], timers := [{ delay := 1000, paths := [] }],
             effects :=
               [.respond { status := 400, body := .failure false "No audio files provided" },
                .setTimeout { delay := 1000, paths := [] }] }
    else
      let languages := batchLanguages req.languages
      match batchLoop env languages 0 files { filePaths := [], results := [], spawned := [] } with
      | none => none
      | some st =>
        let successful := (st.results.filter (fun r => r.success)).length
        let response : Response :=
          { status := 200,
            body := .batch true
              { total := files.length, successful := successful,
                failed := (files.length : Int) - (successful : Int) }
              st.results }
        some { response := response,
               spawned := st.spawned,
               timers := [{ delay := 1000, paths := st.filePaths }],
               effects := st.spawned.map Effect.spawn ++
                 [.respond response, .setTimeout { delay := 1000, paths := st.filePaths }] }

/-! ## Single-file handler -/

/-- What the single-file handler reads from the request: `req.file` (`none`
when multer did not set it) and `req.body.language` (`none` when the field is
missing; a repeated field, which multer stores as an array, is left out). -/
structure SingleRequest where
  file : Option MulterFile
  language : Option String

/-- The handler of `POST /api/transcribe`, after multer has run; `now k` is
the value of the `k`-th call of `Date.now()` in the handler, and the result is
`none` when the engine call never settles.  An exception thrown in the `try`
block, the rejection of the awaited promise or the `TypeError` of
`result.transcription`, is answered by the `catch` block with status 500; the
`finally` block sets the timer when `filePath` is truthy. -/
def singleHandler (env : Env) (now : Nat → Int) (req : SingleRequest) : Option HandlerResult :=
  match req.file with
  | none =>
    some { response := { status := 400, body := .failure false "No audio file provided" },
           spawned := [], timers := [],
           effects :=
             [.respond { status := 400, body := .failure false "No audio file provided" }] }
  | some file =>
    let filePath := file.path
    let language := orDefault req.language "en"
    let startTime := now 0
    let args := pythonArgs env filePath (some language)
    let timers : List CleanupTimer :=
      if filePath ≠ "" then [{ delay := 1000, paths := [filePath] }] else []
    let finish (response : Response) : Option HandlerResult :=
      some { response := response, spawned := [args], timers := timers,
             effects := [.spawn args, .respond response] ++ timers.map Effect.setTimeout }
    match transcribePython env 0 filePath (some language) with
    | .pending => none
    | .resolved result =>
      let processingTime : ℚ := ((now 1 - startTime : Int) : ℚ) / 1000
      match getProp result "transcription" with
      | .ok transcription =>
        finish { status := 200,
                 body := .single true
                   { transcription := transcription, language := language,
                     originalFilename := file.originalname, fileSize := file.size,
                     processingTime := processingTime } }
      | .error message => finish { status := 500, body := .failure false message }
    | .rejected message => finish { status := 500, body := .failure false message }

/-! ## Cleanup of staged files -/

/-- The file system as `cleanupFile` meets it: the paths for which
`fs.existsSync` answers `true`, and for each path the message of the error
that `fs.unlinkSync` throws on it, if removing it fails (a permission error,
a busy file). -/
structure FileSystem where
  present : List String
  unlinkError : String → Option String

/-- The file system together with what the cleanup has done so far: the paths
removed by `fs.unlinkSync`, in order, and the lines written by
`console.error`. -/
structure CleanupState where
  fs : FileSystem
  unlinked : List String
  logged : List String

/-- The function `fs.existsSync(path)`; it never throws. -/
def existsSync (fs : FileSystem) (path : String) : Bool :=
  decide (path ∈ fs.present)

/-- The function `fs.unlinkSync(path)`: `.error m` is a thrown error with
message `m`. -/
def unlinkSync (fs : FileSystem) (path : String) : Except String FileSystem :=
  match fs.unlinkError path with
  | some message => .error message
  | none =>
    if path ∈ fs.present then .ok { fs with present := fs.present.filter (fun p => p ≠ path) }
    else .error ("ENOENT: no such file or directory, unlink '" ++ path ++ "'")

/-- The statement `try { body } catch (err) { handler(err) }`. -/
def tryCatch {α : Type} (body : Except String α) (handler : String → Except String α) :
    Except String α :=
  match body with
  | .ok a => .ok a
  | .error err => handler err

/-- The function `cleanupFile(filePath)`; `.error m` would be an error raised
to the caller. -/
def cleanupFile (st : CleanupState) (filePath : String) : Except String CleanupState :=
  tryCatch
    (if existsSync st.fs filePath then
      match unlinkSync st.fs filePath with
      | .ok fs => .ok { st with fs := fs, unlinked := st.unlinked ++ [filePath] }
      | .error err => .error err
    else .ok st)
    (fun err => .ok { st with logged := st.logged ++ ["Error cleaning up file: " ++ err] })

/-- The call `filePaths.forEach(cleanupFile)`: an error raised by one call
would end the loop. -/
def forEachCleanup : List String → CleanupState → Except String CleanupState
  | [], st => .ok st
  | filePath :: rest, st =>
    match cleanupFile st filePath with
    | .ok st1 => forEachCleanup rest st1
    | .error err => .error err

/-- The callback of a cleanup timer, run when the timer fires. -/
def CleanupTimer.fire (timer : CleanupTimer) (st : CleanupState) : Except String CleanupState :=
  forEachCleanup timer.paths st

/-! ## Upload middleware and error-handling middleware -/

/-- The value `err` handed to the error-handling middleware: an instance of
`multer.MulterError`, with its `code`, or another `Error`. -/
inductive RequestError where
  | multerError (code : String) (message : String)
  | error (message : String)
  deriving DecidableEq, Repr

/-- The property `err.message`. -/
def RequestError.message : RequestError → String
  | .multerError _ message => message
  | .error message => message

/-- The error-handling middleware `app.use((err, req, res, next) => ...)`. -/
def errorMiddleware (err : RequestError) : Response :=
  let fallback : Response := { status := 500, body := .failure false err.message }
  match err with
  | .multerError code _ =>
    if code = "LIMIT_FILE_SIZE" then
      { status := 400, body := .failure false "File too large. Maximum size is 50MB." }
    else fallback
  | .error _ => fallback

/-- The option `limits.fileSize` given to multer. -/
def fileSizeLimit : Nat := 50 * 1024 * 1024

/-- A file part of an incoming multipart body. -/
structure FilePart where
  fieldname : String
  originalname : String
  encoding : String
  mimetype : String
  size : Nat
  deriving DecidableEq, Repr

/-- What the disk storage does not determine by itself: for the `k`-th file
stored for a request, the value of `Date.now()` and the value of
`Math.round(Math.random() * 1E9)` when the file is named. -/
structure Staging where
  now : Nat → Nat
  rounded : Nat → Nat

/-- The function `filename` of the disk storage: `uniqueSuffix` is
`Date.now() + '-' + Math.round(Math.random() * 1E9)`. -/
def storageFilename (now rounded : Nat) (fieldname originalname : String) : String :=
  let uniqueSuffix := toString now ++ "-" ++ toString rounded
  fieldname ++ "-" ++ uniqueSuffix ++ extname originalname

/-- The file object that multer shows to `fileFilter`, before the part is
stored: size and path are not known yet. -/
def FilePart.toFile (part : FilePart) : MulterFile :=
  { fieldname := part.fieldname, originalname := part.originalname,
    encoding := part.encoding, mimetype := part.mimetype, size := 0, path := "" }

/-- The multer library handling the file parts of a body one after the other,
as far as the server depends on it: a part without a filename is skipped; a
part in a field other than `fieldName`, or beyond `filesLeft` parts, is
refused with `LIMIT_UNEXPECTED_FILE`; an error of `fileFilter` is passed on; a
part larger than `limits.fileSize` is refused with `LIMIT_FILE_SIZE`; any
other part is stored in `uploads/` under the name that `filename` gives it.
The first error ends the upload.  The arguments count the parts still allowed
and the files stored so far. -/
def multerParts (staging : Staging) (fieldName : String) :
    Nat → List FilePart → List MulterFile → Except RequestError (List MulterFile)
  | _, [], stored => .ok stored
  | filesLeft, part :: rest, stored =>
    if part.originalname = "" then multerParts staging fieldName filesLeft rest stored
    else if part.fieldname ≠ fieldName ∨ filesLeft = 0 then
      .error (.multerError "LIMIT_UNEXPECTED_FILE" "Unexpected field")
    else
      match fileFilter part.toFile with
      | .error message => .error (.error message)
      | .ok false => multerParts staging fieldName (filesLeft - 1) rest stored
      | .ok true =>
        if fileSizeLimit < part.size then
          .error (.multerError "LIMIT_FILE_SIZE" "File too large")
        else
          let k := stored.length
          let file : MulterFile :=
            { fieldname := part.fieldname, originalname := part.originalname,
              encoding := part.encoding, mimetype := part.mimetype, size := part.size,
              path := "uploads/" ++
                storageFilename (staging.now k) (staging.rounded k)
                  part.fieldname part.originalname }
          multerParts staging fieldName (filesLeft - 1) rest (stored ++ [file])

/-- An incoming request to one of the two upload routes: whether its body is
multipart, the file parts of the body in their order, and the text fields
`language` and `languages`. -/
structure UploadRequest where
  multipart : Bool
  parts : List FilePart
  language : Option String
  languages : FormField

/-- The middleware `upload.single('audio')` or `upload.array('audio',
maxCount)`: `.error err` is the call `next(err)`, `.ok none` the call
`next()` for a body that is not multipart, which multer does not touch, and
`.ok (some files)` the call `next()` after the files have been stored. -/
def multerMiddleware (staging : Staging) (maxCount : Nat) (req : UploadRequest) :
    Except RequestError (Option (List MulterFile)) :=
  if req.multipart then
    match multerParts staging "audio" maxCount req.parts [] with
    | .ok files => .ok (some files)
    | .error err => .error err
  else .ok none

/-- What a request leaves behind when a middleware ends it with `next(err)`:
Express skips the handler and the error-handling middleware answers. -/
def errorResult (err : RequestError) : HandlerResult :=
  { response := errorMiddleware err, spawned := [], timers := [],
    effects := [.respond (errorMiddleware err)] }

/-- The route `POST /api/transcribe`: `upload.single('audio')`, then the
handler with `req.file` the stored file, if there is one. -/
def postTranscribe (env : Env) (staging : Staging) (now : Nat → Int) (req : UploadRequest) :
    Option HandlerResult :=
  match multerMiddleware staging 1 req with
  | .error err => some (errorResult err)
  | .ok none => singleHandler env now { file := none, language := req.language }
  | .ok (some files) => singleHandler env now { file := files.head?, language := req.language }

/-- The route `POST /api/transcribe/batch`: `upload.array('audio', 10)`, then
the handler with `req.files` the stored files. -/
def postTranscribeBatch (env : Env) (staging : Staging) (req : UploadRequest) :
    Option HandlerResult :=
  match multerMiddleware staging 10 req with
  | .error err => some (errorResult err)
  | .ok files => batchHandler env { files := files, languages := req.languages }

/-! ## Static endpoints -/

/-- What a `GET` request carries: its URL, with the query string, and its
headers.  The two static handlers read none of it. -/
structure HttpRequest where
  url : String
  headers : List (String × String)

/-- The handler of `GET /api/health`. -/
def healthHandler (_req : HttpRequest) : HandlerResult :=
  let response : Response :=
    { status := 200,
      body := .health true "Audio Transcription Backend" "1.0.0" "healthy"
        [".wav", ".mp3", ".flac", ".m4a", ".ogg", ".aac"] "50MB" }
  { response := response, spawned := [], timers := [], effects := [.respond response] }

/-- The handler of `GET /api/languages`. -/
def languagesHandler (_req : HttpRequest) : HandlerResult :=
  let response : Response :=
    { status := 200,
      body := .languages true
        [("en", "English"), ("hi", "Hindi"), ("mr", "Marathi"), ("es", "Spanish"),
         ("fr", "French"), ("de", "German"), ("zh", "Chinese"), ("ja", "Japanese"),
         ("ko", "Korean"), ("ar", "Arabic"), ("ru", "Russian"), ("pt", "Portuguese")] }
  { response := response, spawned := [], timers := [], effects := [.respond response] }

/-! ## Vocabulary of the properties -/

/-- Concatenation of chunks in their order. -/
def concatChunks : List String → String
  | [] => ""
  | x :: xs => x ++ concatChunks xs

/-- The standard-output chunks among the events, in arrival order. -/
def stdoutChunks : List ProcEvent → List String
  | [] => []
  | .stdoutData c :: es => c :: stdoutChunks es
  | _ :: es => stdoutChunks es

/-- The standard-error chunks among the events, in arrival order. -/
def stderrChunks : List ProcEvent → List String
  | [] => []
  | .stderrData c :: es => c :: stderrChunks es
  | _ :: es => stderrChunks es

/-- The language the batch handler uses for item `i`: `languages[i] || 'en'`. -/
def itemLanguage (req : BatchRequest) (i : Nat) : String :=
  orDefault (batchLanguages req.languages)[i]? "en"

/-- The promise of the engine call that the batch handler awaits for item `i`,
`file` being `req.files[i]`. -/
def engineOutcome (env : Env) (req : BatchRequest) (i : Nat) (file : MulterFile) :
    PromiseState :=
  transcribePython env i file.path (some (itemLanguage req i))

/-- The entry of `results` for the indexed file `p = (i, req.files[i])`. -/
def batchItem (env : Env) (req : BatchRequest) (p : Nat × MulterFile) : Option BatchEntry :=
  batchEntry p.2 (itemLanguage req p.1) (engineOutcome env req p.1 p.2)

/-- An engine call that fails: its promise is rejected. -/
def PromiseState.isRejected : PromiseState → Bool
  | .rejected _ => true
  | _ => false

/-- An engine call that fails or resolves with JSON `null`. -/
def PromiseState.isRejectedOrNull : PromiseState → Bool
  | .rejected _ => true
  | .resolved .null => true
  | _ => false

/-- The files of a request, none when `req.files` is not set. -/
def BatchRequest.fileList (req : BatchRequest) : List MulterFile :=
  req.files.getD []

/-- Number `K` of items of the batch whose engine call fails. -/
def failedCalls (env : Env) (req : BatchRequest) : Nat :=
  req.fileList.enum.countP (fun p => (engineOutcome env req p.1 p.2).isRejected)

/-- Number of items of the batch whose engine call fails or resolves with
JSON `null`. -/
def failedOrNullCalls (env : Env) (req : BatchRequest) : Nat :=
  req.fileList.enum.countP (fun p => (engineOutcome env req p.1 p.2).isRejectedOrNull)

/-- The language codes the caller supplied: a single value counts as a
one-element list, none as the empty list. -/
def suppliedCodes : FormField → List String
  | .absent => []
  | .text value => [value]
  | .list values => values

/-! ## Example engines and requests -/

/-- An uploaded audio file with the given original name and staged path. -/
def sampleFile (originalname path : String) : MulterFile :=
  { fieldname := "audio", originalname := originalname, encoding := "7bit",
    mimetype := "audio/wav", size := 1024, path := path }

/-- An engine whose second process of a request writes `decode error` to
standard error and exits with code 1, while its other processes print a
transcription and exit with code 0. -/
def decodeErrorEnv : Env :=
  { pythonScript := "/srv/backend-api/python/transcribe.py",
    spawn := fun n _ =>
      if n = 1 then [.stderrData "decode ", .stderrData "error", .close (some 1)]
      else [.stdoutData "\x7b\"transcription\": ", .stderrData "loading model\n",
            .stdoutData "\"namaste\"\x7d\n", .close (some 0)] }

/-- An engine whose processes print `null` and exit with code 0. -/
def nullOutputEnv : Env :=
  { pythonScript := "/srv/backend-api/python/transcribe.py",
    spawn := fun _ _ => [.stdoutData "null\n", .close (some 0)] }

/-- An engine that cannot be started: `python` is not installed. -/
def unavailableEnv : Env :=
  { pythonScript := "/srv/backend-api/python/transcribe.py",
    spawn := fun _ _ => [.error "spawn python ENOENT"] }

/-- A batch of three files with two language codes. -/
def threeFiles : BatchRequest :=
  { files := some [sampleFile "one.wav" "uploads/audio-1700000000000-11.wav",
                   sampleFile "two.mp3" "uploads/audio-1700000000000-22.mp3",
                   sampleFile "three.ogg" "uploads/audio-1700000000001-33.ogg"],
    languages := .list ["hi", "mr"] }

/-- A batch of one file without language codes. -/
def oneFile : BatchRequest :=
  { files := some [sampleFile "one.wav" "uploads/audio-1700000000000-11.wav"],
    languages := .absent }

/-- A batch of two files whose first language code is the empty string. -/
def emptyCodeRequest : BatchRequest :=
  { files := some [sampleFile "one.wav" "uploads/audio-1700000000000-11.wav",
                   sampleFile "two.mp3" "uploads/audio-1700000000000-22.mp3"],
    languages := .list ["", "hi"] }

/-- The field `success` of a JSON body. -/
def ResponseBody.success : ResponseBody → Bool
  | .failure success _ => success
  | .batch success _ _ => success
  | .single success _ => success
  | .health success _ _ _ _ _ => success
  | .languages success _ => success

/-- An engine whose processes print a Hindi transcription and exit with
code 0. -/
def hindiEnv : Env :=
  { pythonScript := "/srv/backend-api/python/transcribe.py",
    spawn := fun _ _ => [.stdoutData "\x7b\"transcription\":\"नमस्ते\"\x7d", .close (some 0)] }

/-- An engine whose processes print the empty JSON object and exit with
code 0. -/
def emptyObjectEnv : Env :=
  { pythonScript := "/srv/backend-api/python/transcribe.py",
    spawn := fun _ _ => [.stdoutData "\x7b\x7d\n", .close (some 0)] }

/-- Readings of `Date.now()` that are 1500 ms apart. -/
def sampleClock : Nat → Int :=
  fun k => 1700000000000 + 1500 * (k : Int)

/-- A stored `.wav` file of 10 MB. -/
def hindiFile : MulterFile :=
  { fieldname := "audio", originalname := "namaste.wav", encoding := "7bit",
    mimetype := "audio/wav", size := 10485760,
    path := "uploads/audio-1700000000000-123456789.wav" }

/-- A single upload of a `.wav` file of 10 MB with language `hi`. -/
def hindiRequest : SingleRequest :=
  { file := some hindiFile, language := some "hi" }

/-- A single upload with an empty `language` field. -/
def emptyLanguageRequest : SingleRequest :=
  { file := hindiRequest.file, language := some "" }

/-- Names for stored files: one clock reading, successive random numbers. -/
def sampleStaging : Staging :=
  { now := fun _ => 1700000000000, rounded := fun k => 123456789 + k }

/-- A multipart request carrying one text file. -/
def textUpload : UploadRequest :=
  { multipart := true,
    parts := [{ fieldname := "audio", originalname := "notes.txt", encoding := "7bit",
                mimetype := "text/plain", size := 2048 }],
    language := some "en", languages := .text "en" }

/-- A multipart request carrying one `.mp3` file of 60 MB. -/
def largeUpload : UploadRequest :=
  { multipart := true,
    parts := [{ fieldname := "audio", originalname := "concert.mp3", encoding := "7bit",
                mimetype := "audio/mpeg", size := 62914560 }],
    language := none, languages := .absent }

/-- A request to one of the four routes of the server; an upload carries
what names its stored files and, on the single-file route, the readings of
the clock. -/
inductive ServerRequest where
  | transcribe (staging : Staging) (now : Nat → Int) (req : UploadRequest)
  | batch (staging : Staging) (req : UploadRequest)
  | health (req : HttpRequest)
  | languages (req : HttpRequest)

/-- The routes `app.post('/api/transcribe', ...)`,
`app.post('/api/transcribe/batch', ...)`, `app.get('/api/health', ...)` and
`app.get('/api/languages', ...)`. -/
def serve (env : Env) : ServerRequest → Option HandlerResult
  | .transcribe staging now req => postTranscribe env staging now req
  | .batch staging req => postTranscribeBatch env staging req
  | .health req => some (healthHandler req)
  | .languages req => some (languagesHandler req)

/-- The requests of a list served one after the other; the server keeps no
variable from one request to the next. -/
def serveAll (env : Env) (reqs : List ServerRequest) : List (Option HandlerResult) :=
  reqs.map (serve env)

/-- The statement `res.status(500).json({ success: false, error:
error.message })` of the `catch` block of either handler. -/
def catchResponse (message : String) : Response :=
  { status := 500, body := .failure false message }

/-- A response whose status and `success` field agree: the status is 200, 400
or 500, and `success` is `false` exactly for 400 and 500, `true` exactly for
200. -/
def Response.statusMatchesSuccess (r : Response) : Prop :=
  (r.status = 200 ∨ r.status = 400 ∨ r.status = 500) ∧
  (r.body.success = false ↔ (r.status = 400 ∨ r.status = 500)) ∧
  (r.body.success = true ↔ r.status = 200)

/-- An engine whose process cannot be started and then closes with the
negative code of the failure. -/
def errorThenCloseEnv : Env :=
  { pythonScript := "/srv/backend-api/python/transcribe.py",
    spawn := fun _ _ => [.error "spawn python ENOENT", .close (some (-2))] }

/-- A request for the health endpoint. -/
def healthRequest : HttpRequest :=
  { url := "/api/health", headers := [("accept", "application/json")] }

/-- The calls of `spawn` that the loop of the batch handler makes from index
`i` on, also when it is left waiting for a promise that never settles: the
call for an item is made, and the calls for the later items follow only once
its promise has settled. -/
def batchSpawnTrace (env : Env) (languages : List String) :
    Nat → List MulterFile → List (List String)
  | _, [] => []
  | i, file :: rest =>
    let language := orDefault languages[i]? "en"
    pythonArgs env file.path (some language) ::
      (match transcribePython env i file.path (some language) with
       | .pending => []
       | _ => batchSpawnTrace env languages (i + 1) rest)

/-- The language codes of the catalog served by `GET /api/languages`. -/
def catalogCodes : List String :=
  match (languagesHandler { url := "/api/languages", headers := [] }).response.body with
  | .languages _ languages => languages.map Prod.fst
  | _ => []

/-- A single upload asking for a language that the catalog does not list. -/
def klingonRequest : SingleRequest :=
  { file := some hindiFile, language := some "tlh" }

/-- A multipart request carrying one `.wav` file of 10 MB, with language
`hi`. -/
def wavUpload : UploadRequest :=
  { multipart := true,
    parts := [{ fieldname := "audio", originalname := "namaste.wav", encoding := "7bit",
                mimetype := "audio/wav", size := 10485760 }],
    language := some "hi", languages := .text "hi" }

/-- A disk holding the staged file of `wavUpload` and one other file, on which
every removal succeeds. -/
def sampleDisk : CleanupState :=
  { fs := { present := ["uploads/audio-1700000000000-123456789.wav", "uploads/keep.wav"],
            unlinkError := fun _ => none },
    unlinked := [], logged := [] }

/-- Names for stored files when every file is named within the same
millisecond and `Math.round(Math.random() * 1E9)` gives the same integer
each time. -/
def sameInstantStaging : Staging :=
  { now := fun _ => 1700000000000, rounded := fun _ => 123456789 }

/-- A multipart batch carrying two different `.wav` files. -/
def twoWavUpload : UploadRequest :=
  { multipart := true,
    parts := [{ fieldname := "audio", originalname := "namaste.wav", encoding := "7bit",
                mimetype := "audio/wav", size := 10485760 },
              { fieldname := "audio", originalname := "dhanyavaad.wav", encoding := "7bit",
                mimetype := "audio/wav", size := 7340032 }],
    language := none, languages := .text "hi,hi" }

/-- The file object of `namaste.wav` once stored under the name made from
the time stamp 1700000000000 and the random integer 123456789. -/
def namasteStored : MulterFile :=
  { fieldname := "audio", originalname := "namaste.wav", encoding := "7bit",
    mimetype := "audio/wav", size := 10485760,
    path := "uploads/audio-1700000000000-123456789.wav" }

/-- The file object of `dhanyavaad.wav` once stored under the name made from
the same time stamp and the same random integer. -/
def dhanyavaadStored : MulterFile :=
  { fieldname := "audio", originalname := "dhanyavaad.wav", encoding := "7bit",
    mimetype := "audio/wav", size := 7340032,
    path := "uploads/audio-1700000000000-123456789.wav" }

/-! ## The client hook `useAudioTranscription` -/

/-- The property `message` of an error thrown in the hook: a string, or the
string form `String(v)` of a value `v` that is not a string, which is kept
unevaluated. -/
inductive ErrorMessage where
  | text (s : String)
  | stringOf (v : JSValue)
  deriving Repr

/-- The number denoted by a run of decimal digits. -/
def digitsValue (cs : List Char) : Nat :=
  cs.foldl (fun acc c => acc * 10 + (c.toNat - '0'.toNat)) 0

/-- Whether the text of a JSON number denotes a Number that is `0` or `-0`:
the digits are all zero, or the value is at most `2 ^ (-1075)`, half of the
smallest positive Number, and is rounded to zero. -/
def numberIsZero (lexeme : String) : Bool :=
  let unsigned := lexeme.data.dropWhile (fun c => c = '-')
  let mantissa := unsigned.takeWhile (fun c => c ≠ 'e' ∧ c ≠ 'E')
  let exponent := (unsigned.dropWhile (fun c => c ≠ 'e' ∧ c ≠ 'E')).drop 1
  let fraction := (mantissa.dropWhile (fun c => c ≠ '.')).drop 1
  let m := digitsValue (mantissa.takeWhile (fun c => c ≠ '.') ++ fraction)
  let e : Int :=
    if exponent.head? = some '-' then -(digitsValue (exponent.drop 1) : Int)
    else if exponent.head? = some '+' then (digitsValue (exponent.drop 1) : Int)
    else (digitsValue exponent : Int)
  let scale : Int := e - (fraction.length : Int)
  m = 0 || (scale < 0 && m * 2 ^ 1075 ≤ 10 ^ scale.natAbs)

/-- The conversion `ToBoolean` made by `if (result.success)`. -/
def truthy : JSValue → Bool
  | .undefined => false
  | .null => false
  | .bool b => b
  | .number lexeme => !numberIsZero lexeme
  | .string s => decide (s ≠ "")
  | .array _ => true
  | .object _ => true

/-- The message of `new Error(v)`: `v` itself for a string, the empty string
of `Error.prototype.message` for `undefined`, and `String(v)` otherwise. -/
def newError : JSValue → ErrorMessage
  | .string s => .text s
  | .undefined => .text ""
  | v => .stringOf v

/-- Outcome of the promise of `response.json()`, should it be called. -/
inductive JsonOutcome where
  | pending
  | rejected (message : String)
  | resolved (result : JSValue)

/-- A `Response` of `fetch` as far as the hook reads it. -/
structure FetchResponse where
  status : Nat
  json : JsonOutcome

/-- The property `response.ok`: the status is in the range 200 to 299. -/
def FetchResponse.ok (response : FetchResponse) : Bool :=
  decide (200 ≤ response.status ∧ response.status ≤ 299)

/-- Outcome of the promise of `fetch`. -/
inductive FetchOutcome where
  | pending
  | rejected (message : String)
  | resolved (response : FetchResponse)

/-- A value appended to the `FormData`: a file, given by its name, or a
string. -/
inductive FormValue where
  | file (name : String)
  | text (value : String)
  deriving DecidableEq, Repr

/-- The arguments of a call of `fetch`: the URL, the method and the entries of
the body. -/
structure FetchCall where
  url : String
  method : String
  body : List (String × FormValue)
  deriving DecidableEq, Repr

/-- The calls that `transcribeAudio` makes, in their order. -/
inductive HookCall where
  | setIsLoading (value : Bool)
  | setError (value : Option ErrorMessage)
  | fetch (request : FetchCall)
  /-- The call `response.json()`. -/
  | json

/-- The state of the hook: `isLoading` and `error`. -/
structure HookState where
  isLoading : Bool
  error : Option ErrorMessage

/-- The state after one call: only the two setters change it. -/
def HookState.apply (s : HookState) : HookCall → HookState
  | .setIsLoading value => { s with isLoading := value }
  | .setError value => { s with error := value }
  | .fetch _ => s
  | .json => s

/-- The state after a list of calls. -/
def HookState.after (s : HookState) (calls : List HookCall) : HookState :=
  calls.foldl HookState.apply s

/-- How a call of `transcribeAudio` ends: `.ok` with the value returned or
`.error` with the message of the error thrown, and the calls made. -/
structure HookRun where
  outcome : Except ErrorMessage JSValue
  calls : List HookCall

/-- The constant `API_URL`. -/
def API_URL : String := "http://localhost:3001"

/-- The request that `transcribeAudio` sends: the parameter `language` has
the default `'en'`, which replaces `undefined` only. -/
def transcribeRequest (audioFile : String) (language : Option String) : FetchCall :=
  { url := API_URL ++ "/api/transcribe", method := "POST",
    body := [("audio", .file audioFile), ("language", .text (language.getD "en"))] }

/-- The `try` block of `transcribeAudio`: `none` when a promise awaited never
settles, else the value returned or the message of the error thrown, with the
calls made. -/
def tryBlock (fetch : FetchCall → FetchOutcome) (request : FetchCall) :
    Option (Except ErrorMessage JSValue × List HookCall) :=
  match fetch request with
  | .pending => none
  | .rejected message => some (.error (.text message), [.fetch request])
  | .resolved response =>
    if !response.ok then
      some (.error (.text ("HTTP error! status: " ++ toString response.status)),
        [.fetch request])
    else
      match response.json with
      | .pending => none
      | .rejected message => some (.error (.text message), [.fetch request, .json])
      | .resolved result =>
        match getProp result "success" with
        | .error message => some (.error (.text message), [.fetch request, .json])
        | .ok success =>
          if truthy success then
            match getProp result "data" with
            | .error message => some (.error (.text message), [.fetch request, .json])
            | .ok data => some (.ok data, [.fetch request, .json])
          else
            match getProp result "error" with
            | .error message => some (.error (.text message), [.fetch request, .json])
            | .ok error => some (.error (newError error), [.fetch request, .json])

/-- The function `transcribeAudio(audioFile, language = 'en')` of the hook:
the two setters are called, then the `try` block runs; the `catch` block
calls `setError(err.message)` and throws the error again, and the `finally`
block calls `setIsLoading(false)`. -/
def transcribeAudio (fetch : FetchCall → FetchOutcome) (audioFile : String)
    (language : Option String) : Option HookRun :=
  match tryBlock fetch (transcribeRequest audioFile language) with
  | none => none
  | some (.ok data, calls) =>
    some { outcome := .ok data,
           calls := [.setIsLoading true, .setError none] ++ calls ++ [.setIsLoading false] }
  | some (.error message, calls) =>
    some { outcome := .error message,
           calls := [.setIsLoading true, .setError none] ++ calls ++
             [.setError (some message), .setIsLoading false] }

/-- The envelope of a failed transcription, as the server sends it with
status 500. -/
def failureEnvelope : JSValue :=
  .object [("success", .bool false),
           ("error", .string "Transcription failed: Python process failed with code 1: ")]

/-- The response with status 500 whose body is the failure envelope. -/
def serverErrorResponse : FetchResponse :=
  { status := 500, json := .resolved failureEnvelope }

/-- A `fetch` that is answered with status 500 and the failure envelope. -/
def serverErrorFetch : FetchCall → FetchOutcome :=
  fun _ => .resolved serverErrorResponse

/-- State of the hook while an earlier call has left an error. -/
def staleState : HookState :=
  { isLoading := false, error := some (.text "HTTP error! status: 400") }

/-- A multipart request whose only file part, a `.wav` file of 10 MB, is in
the field `file`: it carries no part in the field `audio`. -/
def wrongFieldUpload : UploadRequest :=
  { multipart := true,
    parts := [{ fieldname := "file", originalname := "namaste.wav", encoding := "7bit",
                mimetype := "audio/wav", size := 10485760 }],
    language := some "hi", languages := .text "hi" }

end LokSanskriti

namespace LokSanskriti

/-! ## The upload filter -/

theorem extnameLoop_startDot_of_no_dot (path : List Char) (hdot : '.' ∉ path) :
    ∀ (i : Nat) (st : ExtnameState), st.startDot = -1 →
      (extnameLoop path i st).startDot = -1 := by
  intro i
  induction i with
  | zero => intro st h; simpa [extnameLoop] using h
  | succ i ih =>
    intro st h
    have hcode : path.getD i ' ' ≠ '.' := by
      intro hc
      by_cases hi : i < path.length
      · rw [List.getD_eq_getElem _ _ hi] at hc
        exact hdot (hc ▸ List.getElem_mem hi)
      · rw [List.getD_eq_default _ _ (Nat.le_of_not_lt hi)] at hc
        exact absurd hc (by decide)
    unfold extnameLoop
    simp only []
    split_ifs <;> first | exact h | (apply ih; simp_all)

theorem extname_of_no_dot (name : String) (hdot : '.' ∉ name.data) : extname name = "" := by
  have h := extnameLoop_startDot_of_no_dot name.data hdot name.data.length ExtnameState.init rfl
  unfold extname extnameChars
  simp only []
  rw [if_pos (Or.inl h)]

theorem allowedTypes_message :
    "Invalid file type. Allowed: " ++ join allowedTypes ", " =
      "Invalid file type. Allowed: .wav, .mp3, .flac, .m4a, .ogg, .aac" := by
  decide

/-- C1: `fileFilter` accepts a part exactly when the lower-cased
`path.extname` of its original filename is one of `.wav .mp3 .flac .m4a .ogg
.aac`; every other filename is rejected with the `Invalid file type` error,
among them each name with an empty extension and each name without a dot; and
two parts whose original filenames have the same extension get the same
decision, whatever their MIME type, size or other properties. -/
theorem fileFilter_accepts_iff_extension_allowed (file : MulterFile) :
    (fileFilter file = .ok true ↔
        toLowerCase (extname file.originalname) ∈
          [".wav", ".mp3", ".flac", ".m4a", ".ogg", ".aac"]) ∧
    (toLowerCase (extname file.originalname) ∉
          [".wav", ".mp3", ".flac", ".m4a", ".ogg", ".aac"] →
        fileFilter file =
          .error "Invalid file type. Allowed: .wav, .mp3, .flac, .m4a, .ogg, .aac") ∧
    (extname file.originalname = "" →
        fileFilter file =
          .error "Invalid file type. Allowed: .wav, .mp3, .flac, .m4a, .ogg, .aac") ∧
    ('.' ∉ file.originalname.data →
        fileFilter file =
          .error "Invalid file type. Allowed: .wav, .mp3, .flac, .m4a, .ogg, .aac") ∧
    (∀ other : MulterFile, extname other.originalname = extname file.originalname →
        fileFilter other = fileFilter file) := by
  have hmem : ∀ e : String, allowedTypes.contains e = true ↔
      e ∈ [".wav", ".mp3", ".flac", ".m4a", ".ogg", ".aac"] := by
    intro e
    simp [allowedTypes]
  have hempty : ∀ f : MulterFile, extname f.originalname = "" →
      fileFilter f =
        .error "Invalid file type. Allowed: .wav, .mp3, .flac, .m4a, .ogg, .aac" := by
    intro f h
    unfold fileFilter
    rw [h, ← allowedTypes_message]
    rfl
  refine ⟨?_, ?_, hempty file, ?_, ?_⟩
  · unfold fileFilter
    by_cases h : allowedTypes.contains (toLowerCase (extname file.originalname)) = true
    · simp only [h, if_true, true_iff]
      exact (hmem _).1 h
    · simp only [h]
      simp only [Bool.false_eq_true, if_false, false_iff, reduceCtorEq]
      exact fun hin => h ((hmem _).2 hin)
  · intro hnot
    have h : ¬ allowedTypes.contains (toLowerCase (extname file.originalname)) = true :=
      fun hc => hnot ((hmem _).1 hc)
    unfold fileFilter
    simp only [h]
    rw [← allowedTypes_message]
    rfl
  · intro hdot
    exact hempty file (extname_of_no_dot _ hdot)
  · intro other h
    unfold fileFilter
    rw [h]

/-! ## The model of `JSON.parse` -/

theorem skipWs_length_le (cs : List Char) : (skipWs cs).length ≤ cs.length := by
  unfold skipWs
  exact (List.dropWhile_sublist _).length_le

theorem spanDigits_length (cs : List Char) :
    (spanDigits cs).1.length + (spanDigits cs).2.length = cs.length := by
  unfold spanDigits
  rw [List.span_eq_take_drop]
  simp only []
  rw [← List.length_append, List.takeWhile_append_dropWhile]

theorem parseStringBody_length : ∀ (n : Nat) (cs : List Char) (acc : List Nat) (s : String)
    (rest : List Char), cs.length ≤ n → parseStringBody cs acc = some (s, rest) →
    rest.length < cs.length := by
  intro n
  induction n using Nat.strong_induction_on with
  | _ n ih =>
    intro cs acc s rest hn h
    cases cs with
    | nil => simp [parseStringBody] at h
    | cons c tl =>
      unfold parseStringBody at h
      by_cases hq : c = '"'
      · rw [if_pos hq] at h
        have h2 := (Prod.mk.inj (Option.some.inj h)).2
        rw [← h2]
        exact Nat.lt_succ_self _
      · rw [if_neg hq] at h
        by_cases hb : c = '\\'
        · rw [if_pos hb] at h
          cases tl with
          | nil => exact absurd h (by simp)
          | cons e rest1 =>
            simp only [] at h
            by_cases hu : e = 'u'
            · rw [if_pos hu] at h
              split at h
              · rename_i h1 h2 h3 h4 rest2
                split at h
                · have hlen2 : rest2.length < n := by
                    simp only [List.length_cons] at hn
                    omega
                  have := ih rest2.length hlen2 rest2 _ s rest (Nat.le_refl _) h
                  simp only [List.length_cons]
                  omega
                · exact absurd h (by simp)
              · exact absurd h (by simp)
            · rw [if_neg hu] at h
              split at h
              · have hlen : rest1.length < n := by
                  simp only [List.length_cons] at hn
                  omega
                have := ih rest1.length hlen rest1 _ s rest (Nat.le_refl _) h
                simp only [List.length_cons]
                omega
              · exact absurd h (by simp)
        · rw [if_neg hb] at h
          by_cases hctl : c.toNat < 0x20
          · rw [if_pos hctl] at h
            exact absurd h (by simp)
          · rw [if_neg hctl] at h
            have hlen : tl.length < n := by
              simp only [List.length_cons] at hn
              omega
            have := ih tl.length hlen tl _ s rest (Nat.le_refl _) h
            simp only [List.length_cons]
            omega


theorem takeSign_length (cs : List Char) : (takeSign cs).2.length ≤ cs.length := by
  cases cs with
  | nil => simp [takeSign]
  | cons c r =>
    simp only [takeSign]
    split_ifs <;> simp

theorem takeExpSign_length (cs : List Char) : (takeExpSign cs).2.length ≤ cs.length := by
  cases cs with
  | nil => simp [takeExpSign]
  | cons c r =>
    simp only [takeExpSign]
    split_ifs <;> simp

theorem spanDigits_snd_length_le (cs : List Char) : (spanDigits cs).2.length ≤ cs.length := by
  have := spanDigits_length cs
  omega

theorem spanDigits_snd_length_lt (cs : List Char) (h : (spanDigits cs).1 ≠ []) :
    (spanDigits cs).2.length < cs.length := by
  have := spanDigits_length cs
  have : 0 < (spanDigits cs).1.length := List.length_pos.2 h
  omega

theorem intPart_length (cs ip rest : List Char) (h : intPart cs = some (ip, rest)) :
    rest.length < cs.length := by
  cases cs with
  | nil => simp [intPart] at h
  | cons c r =>
    simp only [intPart] at h
    split_ifs at h with h0 hd
    · have h2 := (Prod.mk.inj (Option.some.inj h)).2
      rw [← h2]
      exact Nat.lt_succ_self _
    · have h2 := congrArg Prod.snd (Option.some.inj h)
      simp only [] at h2
      rw [← h2]
      exact spanDigits_snd_length_lt _ hd

theorem fracPart_length (cs fp rest : List Char) (h : fracPart cs = some (fp, rest)) :
    rest.length ≤ cs.length := by
  cases cs with
  | nil =>
    simp only [fracPart] at h
    have h2 := (Prod.mk.inj (Option.some.inj h)).2
    rw [← h2]
  | cons c r =>
    simp only [fracPart] at h
    split_ifs at h
    · have h2 := (Prod.mk.inj (Option.some.inj h)).2
      rw [← h2]
      have := spanDigits_snd_length_le r
      simp only [List.length_cons]
      omega
    · have h2 := (Prod.mk.inj (Option.some.inj h)).2
      rw [← h2]

theorem expPart_length (cs ep rest : List Char) (h : expPart cs = some (ep, rest)) :
    rest.length ≤ cs.length := by
  cases cs with
  | nil =>
    simp only [expPart] at h
    have h2 := (Prod.mk.inj (Option.some.inj h)).2
    rw [← h2]
  | cons c r =>
    simp only [expPart] at h
    split_ifs at h
    · have h2 := (Prod.mk.inj (Option.some.inj h)).2
      rw [← h2]
      have h3 := spanDigits_snd_length_le (takeExpSign r).2
      have h4 := takeExpSign_length r
      simp only [List.length_cons]
      omega
    · have h2 := (Prod.mk.inj (Option.some.inj h)).2
      rw [← h2]

theorem parseNumber_length (cs : List Char) (s : String) (rest : List Char)
    (h : parseNumber cs = some (s, rest)) : rest.length < cs.length := by
  unfold parseNumber at h
  split at h
  · exact absurd h (by simp)
  · rename_i ip cs2 hip
    split at h
    · exact absurd h (by simp)
    · rename_i fp cs3 hfp
      split at h
      · exact absurd h (by simp)
      · rename_i ep cs4 hep
        have h2 := (Prod.mk.inj (Option.some.inj h)).2
        rw [← h2]
        have h3 := intPart_length _ _ _ hip
        have h4 := fracPart_length _ _ _ hfp
        have h5 := expPart_length _ _ _ hep
        have h6 := takeSign_length cs
        omega

theorem length_lt_of_skipWs_eq_cons (cs rest : List Char) (c : Char)
    (h : skipWs cs = c :: rest) : rest.length < cs.length := by
  have := skipWs_length_le cs
  rw [h] at this
  simp only [List.length_cons] at this
  omega

/-- Every successful call of the recursive descent consumes input. -/
theorem parseJson_length : ∀ (fuel : Nat) (mode : ParseMode) (cs : List Char)
    (v : JSValue) (rest : List Char),
    parseJson fuel mode cs = some (v, rest) → rest.length < cs.length := by
  intro fuel
  induction fuel with
  | zero => intro mode cs v rest h; simp [parseJson] at h
  | succ fuel ih =>
    intro mode cs v rest h
    cases mode with
    | value =>
      unfold parseJson at h
      split at h
      · exact absurd h (by simp)
      · rename_i c tl hws
        have htl := length_lt_of_skipWs_eq_cons cs tl c hws
        split_ifs at h
        · split at h
          · rename_i rest1 hws1
            have h2 := (Prod.mk.inj (Option.some.inj h)).2
            rw [← h2]
            have := length_lt_of_skipWs_eq_cons tl rest1 _ hws1
            omega
          · have := ih _ _ _ _ h
            omega
        · split at h
          · rename_i rest1 hws1
            have h2 := (Prod.mk.inj (Option.some.inj h)).2
            rw [← h2]
            have := length_lt_of_skipWs_eq_cons tl rest1 _ hws1
            omega
          · have := ih _ _ _ _ h
            omega
        · split at h
          · rename_i s rest1 hs
            have h2 := (Prod.mk.inj (Option.some.inj h)).2
            rw [← h2]
            have := parseStringBody_length _ _ _ _ _ (Nat.le_refl _) hs
            omega
          · exact absurd h (by simp)
        · have h2 := (Prod.mk.inj (Option.some.inj h)).2
          rw [← h2]
          have := List.length_drop 3 tl
          omega
        · have h2 := (Prod.mk.inj (Option.some.inj h)).2
          rw [← h2]
          have := List.length_drop 4 tl
          omega
        · have h2 := (Prod.mk.inj (Option.some.inj h)).2
          rw [← h2]
          have := List.length_drop 3 tl
          omega
        · split at h
          · rename_i n rest1 hn
            have h2 := (Prod.mk.inj (Option.some.inj h)).2
            rw [← h2]
            have := parseNumber_length _ _ _ hn
            simp only [List.length_cons] at this
            omega
          · exact absurd h (by simp)
    | elements acc =>
      unfold parseJson at h
      split at h
      · exact absurd h (by simp)
      · rename_i v1 rest0 hv
        have h0 := ih _ _ _ _ hv
        split at h
        · rename_i rest1 hws1
          have := ih _ _ _ _ h
          have := length_lt_of_skipWs_eq_cons rest0 rest1 _ hws1
          omega
        · rename_i rest1 hws1
          have h2 := (Prod.mk.inj (Option.some.inj h)).2
          rw [← h2]
          have := length_lt_of_skipWs_eq_cons rest0 rest1 _ hws1
          omega
        · exact absurd h (by simp)
    | members acc =>
      unfold parseJson at h
      split at h
      · rename_i rest0 hws0
        have h0 := length_lt_of_skipWs_eq_cons cs rest0 _ hws0
        split at h
        · exact absurd h (by simp)
        · rename_i key rest1 hkey
          have h1 := parseStringBody_length _ _ _ _ _ (Nat.le_refl _) hkey
          split at h
          · rename_i rest2 hws2
            have h2 := length_lt_of_skipWs_eq_cons rest1 rest2 _ hws2
            split at h
            · exact absurd h (by simp)
            · rename_i v1 rest3 hv
              have h3 := ih _ _ _ _ hv
              split at h
              · rename_i rest4 hws4
                have := ih _ _ _ _ h
                have := length_lt_of_skipWs_eq_cons rest3 rest4 _ hws4
                omega
              · rename_i rest4 hws4
                have h5 := (Prod.mk.inj (Option.some.inj h)).2
                rw [← h5]
                have := length_lt_of_skipWs_eq_cons rest3 rest4 _ hws4
                omega
              · exact absurd h (by simp)
          · exact absurd h (by simp)
      · exact absurd h (by simp)

/-- One more unit of fuel does not change the result once the fuel covers the
input: a value needs `2 * length + 1`, the rest of an array or object
`2 * length + 2`. -/
theorem parseJson_fuel_stable : ∀ (fuel : Nat) (mode : ParseMode) (cs : List Char),
    (match mode with
      | .value => 2 * cs.length + 1
      | .elements _ => 2 * cs.length + 2
      | .members _ => 2 * cs.length + 2) ≤ fuel →
    parseJson (fuel + 1) mode cs = parseJson fuel mode cs := by
  intro fuel
  induction fuel with
  | zero =>
    intro mode cs h
    cases mode <;> simp at h
  | succ fuel ih =>
    intro mode cs h
    cases mode with
    | value =>
      simp only [] at h
      conv_lhs => rw [parseJson]
      conv_rhs => rw [parseJson]
      rcases hws : skipWs cs with _ | ⟨c, tl⟩
      · rfl
      · have htl := length_lt_of_skipWs_eq_cons cs tl c hws
        simp only []
        have hm : parseJson (fuel + 1) (.members []) tl = parseJson fuel (.members []) tl :=
          ih _ _ (by simp only []; omega)
        have he : parseJson (fuel + 1) (.elements []) tl = parseJson fuel (.elements []) tl :=
          ih _ _ (by simp only []; omega)
        rw [hm, he]
    | elements acc =>
      simp only [] at h
      conv_lhs => rw [parseJson]
      conv_rhs => rw [parseJson]
      have hv : parseJson (fuel + 1) .value cs = parseJson fuel .value cs :=
        ih _ _ (by simp only []; omega)
      rw [hv]
      rcases hp : parseJson fuel .value cs with _ | ⟨v, rest⟩
      · rfl
      · have h0 := parseJson_length _ _ _ _ _ hp
        simp only []
        split
        · rename_i rest1 hws1
          have := length_lt_of_skipWs_eq_cons rest rest1 _ hws1
          exact ih _ _ (by simp only []; omega)
        · rfl
        · rfl
    | members acc =>
      simp only [] at h
      conv_lhs => rw [parseJson]
      conv_rhs => rw [parseJson]
      split
      · rename_i rest0 hws0
        have h0 := length_lt_of_skipWs_eq_cons cs rest0 _ hws0
        split
        · rfl
        · rename_i key rest1 hkey
          have h1 := parseStringBody_length _ _ _ _ _ (Nat.le_refl _) hkey
          split
          · rename_i rest2 hws2
            have h2 := length_lt_of_skipWs_eq_cons rest1 rest2 _ hws2
            have hv : parseJson (fuel + 1) .value rest2 = parseJson fuel .value rest2 :=
              ih _ _ (by simp only []; omega)
            rw [hv]
            rcases hp : parseJson fuel .value rest2 with _ | ⟨v, rest3⟩
            · rfl
            · have h3 := parseJson_length _ _ _ _ _ hp
              simp only []
              split
              · rename_i rest4 hws4
                have := length_lt_of_skipWs_eq_cons rest3 rest4 _ hws4
                exact ih _ _ (by simp only []; omega)
              · rfl
              · rfl
          · rfl
      · rfl

/-- The fuel `2 * length + 2` that `JSONparse` passes is enough: more fuel
gives the same result, so no text is rejected for lack of fuel. -/
theorem parseJson_fuel_irrelevant (cs : List Char) (k : Nat) :
    parseJson (2 * cs.length + 2 + k) .value cs = parseJson (2 * cs.length + 2) .value cs := by
  induction k with
  | zero => rfl
  | succ k ih =>
    rw [← ih]
    exact parseJson_fuel_stable (2 * cs.length + 2 + k) .value cs (by simp only []; omega)

/-! ## The engine adapter -/

theorem parseJson_ne_undefined : ∀ (fuel : Nat) (mode : ParseMode) (cs : List Char)
    (v : JSValue) (rest : List Char),
    parseJson fuel mode cs = some (v, rest) → v ≠ .undefined := by
  intro fuel
  induction fuel with
  | zero => intro mode cs v rest h; simp [parseJson] at h
  | succ fuel ih =>
    intro mode cs v rest h
    cases mode with
    | value =>
      unfold parseJson at h
      split at h
      · simp at h
      · split_ifs at h
        · split at h
          · simp at h; rw [← h.1]; simp
          · exact ih _ _ _ _ h
        · split at h
          · simp at h; rw [← h.1]; simp
          · exact ih _ _ _ _ h
        · split at h
          · simp at h; rw [← h.1]; simp
          · simp at h
        · simp at h; rw [← h.1]; simp
        · simp at h; rw [← h.1]; simp
        · simp at h; rw [← h.1]; simp
        · split at h
          · simp at h; rw [← h.1]; simp
          · simp at h
    | elements acc =>
      unfold parseJson at h
      split at h
      · simp at h
      · split at h
        · exact ih _ _ _ _ h
        · simp at h; rw [← h.1]; simp
        · simp at h
    | members acc =>
      unfold parseJson at h
      split at h
      · split at h
        · simp at h
        · split at h
          · split at h
            · simp at h
            · split at h
              · exact ih _ _ _ _ h
              · simp at h; rw [← h.1]; simp
              · simp at h
          · simp at h
      · simp at h

theorem JSONparse_ne_undefined (text : String) : JSONparse text ≠ some .undefined := by
  intro h
  unfold JSONparse at h
  split at h
  · rename_i v rest hp
    split_ifs at h
    simp at h
    exact parseJson_ne_undefined _ _ _ _ _ hp h
  · simp at h


theorem foldl_step_data (pre : List ProcEvent) (hpre : ∀ e ∈ pre, e.isData = true) :
    ∀ st : AdapterState, pre.foldl AdapterState.step st =
      { outputData := st.outputData ++ concatChunks (stdoutChunks pre),
        errorData := st.errorData ++ concatChunks (stderrChunks pre),
        outcome := st.outcome } := by
  induction pre with
  | nil => intro st; simp [stdoutChunks, stderrChunks, concatChunks]
  | cons e es ih =>
    intro st
    have hes : ∀ x ∈ es, x.isData = true := fun x hx => hpre x (List.mem_cons_of_mem _ hx)
    have he : e.isData = true := hpre e (List.mem_cons_self _ _)
    cases e with
    | stdoutData c =>
      simp [List.foldl_cons, AdapterState.step, ih hes, stdoutChunks, stderrChunks,
        concatChunks, String.append_assoc]
    | stderrData c =>
      simp [List.foldl_cons, AdapterState.step, ih hes, stdoutChunks, stderrChunks,
        concatChunks, String.append_assoc]
    | close code => simp [ProcEvent.isData] at he
    | error m => simp [ProcEvent.isData] at he

theorem step_outcome_of_resolved (st : AdapterState) (e : ProcEvent) (v : JSValue)
    (h : st.outcome = .resolved v) : (st.step e).outcome = .resolved v := by
  cases e <;> simp [AdapterState.step, AdapterState.settle, h]

theorem step_outcome_of_rejected (st : AdapterState) (e : ProcEvent) (m : String)
    (h : st.outcome = .rejected m) : (st.step e).outcome = .rejected m := by
  cases e <;> simp [AdapterState.step, AdapterState.settle, h]

theorem foldl_step_outcome_of_settled (post : List ProcEvent) :
    ∀ st : AdapterState, st.outcome ≠ .pending →
      (post.foldl AdapterState.step st).outcome = st.outcome := by
  induction post with
  | nil => intro st _; rfl
  | cons e es ih =>
    intro st h
    rw [List.foldl_cons]
    cases hst : st.outcome with
    | pending => exact absurd hst h
    | resolved v =>
      have h1 := step_outcome_of_resolved st e v hst
      rw [ih (st.step e) (by rw [h1]; simp), h1]
    | rejected m =>
      have h1 := step_outcome_of_rejected st e m hst
      rw [ih (st.step e) (by rw [h1]; simp), h1]

theorem closeResult_ne_pending (st : AdapterState) (code : Option Int) :
    closeResult st code ≠ .pending := by
  unfold closeResult
  split_ifs
  · split <;> simp
  · simp

/-- Outcome of a run whose first event other than `data` is `close`. -/
theorem runAdapter_close (pre post : List ProcEvent) (code : Option Int)
    (hpre : ∀ e ∈ pre, e.isData = true) :
    (runAdapter (pre ++ ProcEvent.close code :: post)).outcome =
      closeResult
        { outputData := concatChunks (stdoutChunks pre),
          errorData := concatChunks (stderrChunks pre),
          outcome := .pending } code := by
  unfold runAdapter
  rw [List.foldl_append, List.foldl_cons, foldl_step_data pre hpre]
  rw [foldl_step_outcome_of_settled]
  · simp [AdapterState.step, AdapterState.settle, AdapterState.init, closeResult]
  · simp only [AdapterState.step, AdapterState.settle, AdapterState.init]
    exact closeResult_ne_pending _ _

/-- Outcome of a run whose first event other than `data` is `error`. -/
theorem runAdapter_error (pre post : List ProcEvent) (message : String)
    (hpre : ∀ e ∈ pre, e.isData = true) :
    (runAdapter (pre ++ ProcEvent.error message :: post)).outcome =
      .rejected ("Failed to start Python process: " ++ message) := by
  unfold runAdapter
  rw [List.foldl_append, List.foldl_cons, foldl_step_data pre hpre]
  rw [foldl_step_outcome_of_settled]
  · simp [AdapterState.step, AdapterState.settle, AdapterState.init]
  · simp [AdapterState.step, AdapterState.settle, AdapterState.init]

/-- C8: when the engine process closes with exit code 0, `transcribePython`
parses the trimmed concatenation, in arrival order, of all standard-output
chunks; it resolves with the parsed value when that text is valid JSON and
otherwise rejects with `Failed to parse Python output: ` followed by the whole
untrimmed output.  Another run that closes with code 0 after the same
standard-output chunks has the same outcome, whatever both write to standard
error. -/
theorem transcribePython_exit_zero (env : Env) (n : Nat) (audioPath : String)
    (language : Option String) (pre post : List ProcEvent)
    (hpre : ∀ e ∈ pre, e.isData = true)
    (hrun : env.spawn n (pythonArgs env audioPath language) =
      pre ++ ProcEvent.close (some 0) :: post) :
    (∀ result, JSONparse (trim (concatChunks (stdoutChunks pre))) = some result →
        transcribePython env n audioPath language = .resolved result) ∧
    (JSONparse (trim (concatChunks (stdoutChunks pre))) = none →
        transcribePython env n audioPath language =
          .rejected ("Failed to parse Python output: " ++ concatChunks (stdoutChunks pre))) ∧
    (∀ pre' post' : List ProcEvent, (∀ e ∈ pre', e.isData = true) →
        stdoutChunks pre' = stdoutChunks pre →
        (runAdapter (pre' ++ ProcEvent.close (some 0) :: post')).outcome =
          transcribePython env n audioPath language) := by
  unfold transcribePython
  rw [hrun, runAdapter_close pre post (some 0) hpre]
  unfold closeResult
  refine ⟨?_, ?_, ?_⟩
  · intro result h
    simp [h]
  · intro h
    simp [h]
  · intro pre' post' hpre' hsame
    rw [runAdapter_close pre' post' (some 0) hpre']
    simp [closeResult, hsame]

/-- C9: when the engine process closes with a code other than 0, a `null`
code included, `transcribePython` rejects with `Python process failed: `
followed by all standard-error chunks concatenated in order, whatever was
written to standard output. -/
theorem transcribePython_exit_nonzero (env : Env) (n : Nat) (audioPath : String)
    (language : Option String) (pre post : List ProcEvent) (code : Option Int)
    (hcode : code ≠ some 0)
    (hpre : ∀ e ∈ pre, e.isData = true)
    (hrun : env.spawn n (pythonArgs env audioPath language) =
      pre ++ ProcEvent.close code :: post) :
    transcribePython env n audioPath language =
      .rejected ("Python process failed: " ++ concatChunks (stderrChunks pre)) := by
  unfold transcribePython
  rw [hrun, runAdapter_close pre post code hpre]
  unfold closeResult
  simp [hcode]

/-- C10: when the process emits `error` before any `close`, `transcribePython`
rejects with `Failed to start Python process: ` followed by the message of
the underlying error; no such message is the message of a nonzero-exit failure
or of a malformed-output failure, whatever texts these carry. -/
theorem transcribePython_spawn_error (env : Env) (n : Nat) (audioPath : String)
    (language : Option String) (pre post : List ProcEvent) (message : String)
    (hpre : ∀ e ∈ pre, e.isData = true)
    (hrun : env.spawn n (pythonArgs env audioPath language) =
      pre ++ ProcEvent.error message :: post) :
    transcribePython env n audioPath language =
        .rejected ("Failed to start Python process: " ++ message) ∧
    (∀ errorData : String,
        "Failed to start Python process: " ++ message ≠ "Python process failed: " ++ errorData) ∧
    (∀ outputData : String,
        "Failed to start Python process: " ++ message ≠
          "Failed to parse Python output: " ++ outputData) := by
  refine ⟨?_, ?_, ?_⟩
  · unfold transcribePython
    rw [hrun, runAdapter_error pre post message hpre]
  · intro errorData heq
    have := congrArg String.data heq
    simp only [String.data_append] at this
    have h0 := congrArg (fun l => l.head?) this
    simp at h0
  · intro outputData heq
    have := congrArg String.data heq
    simp only [String.data_append] at this
    have h0 := congrArg (fun l => l.get? 10) this
    simp at h0

/-! ## The batch handler -/

theorem getElem?_filterMap_of_ne_none {α β : Type} (f : α → Option β) :
    ∀ (l : List α) (k : Nat), (∀ p ∈ l, f p ≠ none) →
      (l.filterMap f)[k]? = l[k]?.bind f := by
  intro l
  induction l with
  | nil => intro k _; simp
  | cons a l ih =>
    intro k h
    have ha : f a ≠ none := h a (List.mem_cons_self _ _)
    have hl : ∀ p ∈ l, f p ≠ none := fun p hp => h p (List.mem_cons_of_mem _ hp)
    obtain ⟨b, hb⟩ := Option.ne_none_iff_exists'.1 ha
    rw [List.filterMap_cons_some hb]
    cases k with
    | zero => simp [hb]
    | succ k => simp [ih k hl]

theorem length_filterMap_of_ne_none {α β : Type} (f : α → Option β) :
    ∀ (l : List α), (∀ p ∈ l, f p ≠ none) → (l.filterMap f).length = l.length := by
  intro l
  induction l with
  | nil => intro _; simp
  | cons a l ih =>
    intro h
    have ha : f a ≠ none := h a (List.mem_cons_self _ _)
    have hl : ∀ p ∈ l, f p ≠ none := fun p hp => h p (List.mem_cons_of_mem _ hp)
    obtain ⟨b, hb⟩ := Option.ne_none_iff_exists'.1 ha
    rw [List.filterMap_cons_some hb]
    simp [ih hl]

/-- The loop of the batch handler, when every awaited promise settles. -/
theorem batchLoop_eq (env : Env) (req : BatchRequest) :
    ∀ (files : List MulterFile) (i : Nat) (st : BatchLoopState),
      (∀ p ∈ List.enumFrom i files, batchItem env req p ≠ none) →
      batchLoop env (batchLanguages req.languages) i files st =
        some { filePaths := st.filePaths ++ files.map (fun f => f.path),
               results := st.results ++ (List.enumFrom i files).filterMap (batchItem env req),
               spawned := st.spawned ++ (List.enumFrom i files).map
                 (fun p => pythonArgs env p.2.path (some (itemLanguage req p.1))) } := by
  intro files
  induction files with
  | nil => intro i st _; simp [batchLoop]
  | cons file rest ih =>
    intro i st h
    have h0 : batchItem env req (i, file) ≠ none := h _ (by simp [List.enumFrom_cons])
    have hrest : ∀ p ∈ List.enumFrom (i + 1) rest, batchItem env req p ≠ none :=
      fun p hp => h p (by simp [List.enumFrom_cons, hp])
    obtain ⟨entry, hentry⟩ := Option.ne_none_iff_exists'.1 h0
    have hentry' : batchEntry file (orDefault (batchLanguages req.languages)[i]? "en")
        (transcribePython env i file.path
          (some (orDefault (batchLanguages req.languages)[i]? "en"))) = some entry := hentry
    unfold batchLoop
    simp only [hentry']
    rw [ih (i + 1) _ hrest]
    simp [List.enumFrom_cons, List.filterMap_cons_some hentry, itemLanguage]

theorem batchEntry_ne_none (file : MulterFile) (language : String) (o : PromiseState)
    (h : o ≠ .pending) : batchEntry file language o ≠ none := by
  cases o with
  | pending => exact absurd rfl h
  | resolved v =>
    simp only [batchEntry]
    cases getProp v "transcription" <;> simp
  | rejected m => simp [batchEntry]

theorem batchItem_ne_none_of_settles (env : Env) (req : BatchRequest) (files : List MulterFile)
    (hsettle : ∀ i file, files[i]? = some file → engineOutcome env req i file ≠ .pending) :
    ∀ p ∈ files.enum, batchItem env req p ≠ none := by
  intro p hp
  rw [List.mem_enum_iff_getElem?] at hp
  exact batchEntry_ne_none _ _ _ (hsettle p.1 p.2 hp)

/-- The batch handler on a request with at least one file, when every engine
call settles. -/
theorem batchHandler_eq (env : Env) (req : BatchRequest) (files : List MulterFile)
    (hfiles : req.files = some files) (hne : files ≠ [])
    (hsettle : ∀ i file, files[i]? = some file → engineOutcome env req i file ≠ .pending) :
    batchHandler env req =
      some { response :=
               { status := 200,
                 body := .batch true
                   { total := files.length,
                     successful :=
                       ((files.enum.filterMap (batchItem env req)).filter
                         (fun r => r.success)).length,
                     failed := (files.length : Int) -
                       ((((files.enum.filterMap (batchItem env req)).filter
                         (fun r => r.success)).length : Nat) : Int) }
                   (files.enum.filterMap (batchItem env req)) },
             spawned := files.enum.map
               (fun p => pythonArgs env p.2.path (some (itemLanguage req p.1))),
             timers := [{ delay := 1000, paths := files.map (fun f => f.path) }],
             effects :=
               (files.enum.map
                 (fun p => pythonArgs env p.2.path (some (itemLanguage req p.1)))).map
                   Effect.spawn ++
               [.respond
                  { status := 200,
                    body := .batch true
                      { total := files.length,
                        successful :=
                          ((files.enum.filterMap (batchItem env req)).filter
                            (fun r => r.success)).length,
                        failed := (files.length : Int) -
                          ((((files.enum.filterMap (batchItem env req)).filter
                            (fun r => r.success)).length : Nat) : Int) }
                      (files.enum.filterMap (batchItem env req)) },
                .setTimeout { delay := 1000, paths := files.map (fun f => f.path) }] } := by
  have hlen : ¬ files.length = 0 := fun h => hne (List.length_eq_zero.1 h)
  unfold batchHandler
  simp only [hfiles, hlen, if_false]
  rw [batchLoop_eq env req files 0 _ (batchItem_ne_none_of_settles env req files hsettle)]
  simp [List.enum]

theorem getElem?_results (env : Env) (req : BatchRequest) (files : List MulterFile)
    (hsettle : ∀ i file, files[i]? = some file → engineOutcome env req i file ≠ .pending)
    (i : Nat) (file : MulterFile) (hi : files[i]? = some file) :
    (files.enum.filterMap (batchItem env req))[i]? =
      batchEntry file (itemLanguage req i) (engineOutcome env req i file) := by
  rw [getElem?_filterMap_of_ne_none _ _ _ (batchItem_ne_none_of_settles env req files hsettle)]
  rw [List.getElem?_enum, hi]
  rfl

theorem length_results (env : Env) (req : BatchRequest) (files : List MulterFile)
    (hsettle : ∀ i file, files[i]? = some file → engineOutcome env req i file ≠ .pending) :
    (files.enum.filterMap (batchItem env req)).length = files.length := by
  rw [length_filterMap_of_ne_none _ _ (batchItem_ne_none_of_settles env req files hsettle)]
  simp [List.enum]

theorem step_outcome_ne_undefined (st : AdapterState) (e : ProcEvent)
    (h : st.outcome ≠ .resolved .undefined) : (st.step e).outcome ≠ .resolved .undefined := by
  cases e with
  | stdoutData c => simpa [AdapterState.step] using h
  | stderrData c => simpa [AdapterState.step] using h
  | close code =>
    simp only [AdapterState.step, AdapterState.settle]
    split
    · simp only [closeResult]
      split_ifs
      · split
        · rename_i result hres
          intro hc
          simp at hc
          exact JSONparse_ne_undefined _ (hc ▸ hres)
        · simp
      · simp
    · exact h
  | error m =>
    simp only [AdapterState.step, AdapterState.settle]
    split
    · simp
    · exact h

theorem transcribePython_ne_undefined (env : Env) (n : Nat) (audioPath : String)
    (language : Option String) :
    transcribePython env n audioPath language ≠ .resolved .undefined := by
  unfold transcribePython runAdapter
  generalize env.spawn n (pythonArgs env audioPath language) = events
  have key : ∀ (es : List ProcEvent) (st : AdapterState),
      st.outcome ≠ .resolved .undefined →
      (es.foldl AdapterState.step st).outcome ≠ .resolved .undefined := by
    intro es
    induction es with
    | nil => intro st h; exact h
    | cons e es ih =>
      intro st h
      rw [List.foldl_cons]
      exact ih _ (step_outcome_ne_undefined st e h)
  exact key events _ (by simp [AdapterState.init])

/-- An item is tagged as failed exactly when its engine call is rejected or
resolves with `null`. -/
theorem batchItem_success (env : Env) (req : BatchRequest) (p : Nat × MulterFile)
    (hp : engineOutcome env req p.1 p.2 ≠ .pending) :
    ∃ entry, batchItem env req p = some entry ∧
      entry.success = !(engineOutcome env req p.1 p.2).isRejectedOrNull := by
  have hu : engineOutcome env req p.1 p.2 ≠ .resolved .undefined :=
    transcribePython_ne_undefined _ _ _ _
  unfold batchItem
  cases ho : engineOutcome env req p.1 p.2 with
  | pending => exact absurd ho hp
  | rejected m => exact ⟨_, rfl, rfl⟩
  | resolved v =>
    cases v with
    | undefined => exact absurd ho hu
    | null => exact ⟨_, rfl, rfl⟩
    | bool b => exact ⟨_, rfl, rfl⟩
    | number x => exact ⟨_, rfl, rfl⟩
    | string x => exact ⟨_, rfl, rfl⟩
    | array xs => exact ⟨_, rfl, rfl⟩
    | object props =>
      have hget : ∃ t, getProp (.object props) "transcription" = .ok t := by
        simp only [getProp]
        cases List.find? (fun kv => decide (kv.1 = "transcription")) props.reverse <;>
          exact ⟨_, rfl⟩
      obtain ⟨t, ht⟩ := hget
      simp only [batchEntry, ht]
      exact ⟨_, rfl, rfl⟩

theorem count_success_add_count_failed {α : Type} (f : α → Option BatchEntry) (g : α → Bool) :
    ∀ l : List α, (∀ p ∈ l, ∃ entry, f p = some entry ∧ entry.success = !(g p)) →
      ((l.filterMap f).filter (fun r => r.success)).length + l.countP g = l.length := by
  intro l
  induction l with
  | nil => intro _; simp
  | cons a l ih =>
    intro h
    obtain ⟨entry, he, hs⟩ := h a (List.mem_cons_self _ _)
    have hl := ih (fun p hp => h p (List.mem_cons_of_mem _ hp))
    rw [List.filterMap_cons_some he]
    cases hg : g a with
    | true =>
      have hs' : entry.success = false := by simp [hs, hg]
      rw [List.filter_cons_of_neg (by simp [hs']), List.countP_cons_of_pos _ _ hg]
      simp only [List.length_cons]
      omega
    | false =>
      have hs' : entry.success = true := by simp [hs, hg]
      rw [List.filter_cons_of_pos (by simp [hs']), List.countP_cons_of_neg _ _ (by simp [hg])]
      simp only [List.length_cons]
      omega

theorem failedOrNullCalls_add_successful (env : Env) (req : BatchRequest)
    (files : List MulterFile) (hfiles : req.files = some files)
    (hsettle : ∀ i file, files[i]? = some file → engineOutcome env req i file ≠ .pending) :
    ((files.enum.filterMap (batchItem env req)).filter (fun r => r.success)).length +
      failedOrNullCalls env req = files.length := by
  have h := count_success_add_count_failed (batchItem env req)
    (fun p => (engineOutcome env req p.1 p.2).isRejectedOrNull) files.enum
    (fun p hp => batchItem_success env req p
      (hsettle p.1 p.2 (List.mem_enum_iff_getElem?.1 hp)))
  have hlen : files.enum.length = files.length := by simp [List.enum]
  rw [hlen] at h
  simpa [failedOrNullCalls, BatchRequest.fileList, hfiles] using h

/-- C2 (amended): for every batch of `N ≥ 1` files whose engine calls all
settle, with `K` the number of items whose engine call fails or resolves with
JSON `null`, the summary has `total = N`, `successful = N - K` and
`failed = K`; `successful + failed = total`, and `successful` is the number of
success-tagged entries of `results`. -/
theorem batch_summary_counts (env : Env) (req : BatchRequest) (files : List MulterFile)
    (hfiles : req.files = some files) (hne : files ≠ [])
    (hsettle : ∀ (i : Nat) (file : MulterFile), files[i]? = some file → engineOutcome env req i file ≠ .pending) :
    ∃ r summary results, batchHandler env req = some r ∧
      r.response.body = .batch true summary results ∧
      summary.total = files.length ∧
      summary.successful = files.length - failedOrNullCalls env req ∧
      summary.failed = (failedOrNullCalls env req : Int) ∧
      (summary.successful : Int) + summary.failed = (summary.total : Int) ∧
      summary.successful = (results.filter (fun e => e.success)).length := by
  have hcount := failedOrNullCalls_add_successful env req files hfiles hsettle
  refine ⟨_, _, _, batchHandler_eq env req files hfiles hne hsettle, rfl, rfl, ?_, ?_, ?_, rfl⟩
  · simp only []
    omega
  · simp only []
    omega
  · simp only []
    omega

/-- C3: in every batch whose engine calls all settle, the entry of item `i`
is the entry that the body of the loop builds from file `i`, the language of
item `i` and the outcome of the engine call of item `i` alone; an engine call
that fails with message `m` leaves `{filename, success: false, error: m}` at
its position, and every item, before or after a failed one, has its entry
and its engine call. -/
theorem batch_item_isolation (env : Env) (req : BatchRequest) (files : List MulterFile)
    (hfiles : req.files = some files) (hne : files ≠ [])
    (hsettle : ∀ (i : Nat) (file : MulterFile), files[i]? = some file → engineOutcome env req i file ≠ .pending) :
    ∃ r summary results, batchHandler env req = some r ∧
      r.response.body = .batch true summary results ∧
      results.length = files.length ∧
      r.spawned.length = files.length ∧
      (∀ (i : Nat) (file : MulterFile), files[i]? = some file →
        results[i]? = batchEntry file (itemLanguage req i) (engineOutcome env req i file) ∧
        r.spawned[i]? = some (pythonArgs env file.path (some (itemLanguage req i)))) ∧
      (∀ (i : Nat) (file : MulterFile) (m : String), files[i]? = some file → engineOutcome env req i file = .rejected m →
        results[i]? = some { filename := file.originalname, success := false,
                             transcription := none, language := none, error := some m }) := by
  refine ⟨_, _, _, batchHandler_eq env req files hfiles hne hsettle, rfl,
    length_results env req files hsettle, ?_, ?_, ?_⟩
  · simp [List.enum]
  · intro i file hi
    refine ⟨getElem?_results env req files hsettle i file hi, ?_⟩
    simp only [List.getElem?_map, List.getElem?_enum, hi, Option.map_some']
  · intro i file m hi hm
    rw [getElem?_results env req files hsettle i file hi, hm]
    rfl

/-- C4: for every batch of `N ≥ 1` files whose engine calls all settle, the
array `results` of the response has exactly `N` entries and the entry at each
index `i` carries the original filename of the `i`-th uploaded file. -/
theorem batch_results_follow_files (env : Env) (req : BatchRequest) (files : List MulterFile)
    (hfiles : req.files = some files) (hne : files ≠ [])
    (hsettle : ∀ (i : Nat) (file : MulterFile), files[i]? = some file → engineOutcome env req i file ≠ .pending) :
    ∃ r summary results, batchHandler env req = some r ∧
      r.response.body = .batch true summary results ∧
      results.length = files.length ∧
      ∀ (i : Nat) (file : MulterFile), files[i]? = some file →
        ∃ entry : BatchEntry, results[i]? = some entry ∧ entry.filename = file.originalname := by
  refine ⟨_, _, _, batchHandler_eq env req files hfiles hne hsettle, rfl,
    length_results env req files hsettle, ?_⟩
  intro i file hi
  rw [getElem?_results env req files hsettle i file hi]
  cases ho : engineOutcome env req i file with
  | pending => exact absurd ho (hsettle i file hi)
  | rejected m => exact ⟨_, rfl, rfl⟩
  | resolved v =>
    simp only [batchEntry]
    cases getProp v "transcription" <;> exact ⟨_, rfl, rfl⟩

/-- C5: for every batch request with at least one file whose engine calls all
settle, the response has status 200 and top-level `success: true`, whatever
the outcomes of the items.  `results` has one entry for each file, in the
order of the files, and a failure shows there only: the entry of an item whose
engine call is rejected has `success: false` and the message of the rejection
as `error`, and an entry has `success: false` exactly when the call of its
item was rejected or reading `result.transcription` threw.  When every engine
call fails, `results` is not empty, each of its entries has `success: false`,
and the envelope is still `success: true`. -/
theorem batch_envelope_success (env : Env) (req : BatchRequest) (files : List MulterFile)
    (hfiles : req.files = some files) (hne : files ≠ [])
    (hsettle : ∀ (i : Nat) (file : MulterFile), files[i]? = some file → engineOutcome env req i file ≠ .pending) :
    ∃ r summary results, batchHandler env req = some r ∧
      r.response.status = 200 ∧
      r.response.body = .batch true summary results ∧
      results.length = files.length ∧
      results ≠ [] ∧
      (∀ (i : Nat) (file : MulterFile), files[i]? = some file →
        ∃ entry : BatchEntry, results[i]? = some entry ∧
          entry.filename = file.originalname ∧
          (∀ m : String, engineOutcome env req i file = .rejected m →
            entry.success = false ∧ entry.error = some m ∧ entry.transcription = none) ∧
          (entry.success = false ↔
            (∃ m, engineOutcome env req i file = .rejected m) ∨
            (∃ v m, engineOutcome env req i file = .resolved v ∧
              getProp v "transcription" = .error m)) ∧
          (entry.success = false → ∃ m, entry.error = some m)) ∧
      (∀ entry ∈ results, ∃ (i : Nat) (file : MulterFile),
        files[i]? = some file ∧ results[i]? = some entry) ∧
      ((∀ (i : Nat) (file : MulterFile), files[i]? = some file → (engineOutcome env req i file).isRejected = true) →
        ∀ entry ∈ results, entry.success = false) := by
  have hlen := length_results env req files hsettle
  have hof : ∀ entry ∈ files.enum.filterMap (batchItem env req), ∃ (i : Nat) (file : MulterFile),
      files[i]? = some file ∧ (files.enum.filterMap (batchItem env req))[i]? = some entry := by
    intro entry hentry
    obtain ⟨i, hi⟩ := List.getElem?_of_mem hentry
    have hlt : i < files.length := by
      have := (List.getElem?_eq_some.1 hi).1
      rwa [hlen] at this
    exact ⟨i, files[i], List.getElem?_eq_getElem hlt, hi⟩
  refine ⟨_, _, _, batchHandler_eq env req files hfiles hne hsettle, rfl, rfl, hlen, ?_, ?_,
    hof, ?_⟩
  · intro hnil
    rw [hnil] at hlen
    exact hne (List.length_eq_zero.1 hlen.symm)
  · intro i file hi
    rw [getElem?_results env req files hsettle i file hi]
    cases ho : engineOutcome env req i file with
    | pending => exact absurd ho (hsettle i file hi)
    | rejected m =>
      refine ⟨_, rfl, rfl, ?_, ?_, fun _ => ⟨m, rfl⟩⟩
      · intro m2 hm
        rw [PromiseState.rejected.inj hm]
        exact ⟨rfl, rfl, rfl⟩
      · exact ⟨fun _ => Or.inl ⟨m, rfl⟩, fun _ => rfl⟩
    | resolved v =>
      simp only [batchEntry]
      cases hg : getProp v "transcription" with
      | ok t =>
        refine ⟨_, rfl, rfl, fun m hm => absurd hm (by simp), ?_, fun h => absurd h (by simp)⟩
        constructor
        · intro h; exact absurd h (by simp)
        · rintro (⟨m, hm⟩ | ⟨v2, m, hv, hm⟩)
          · exact absurd hm (by simp)
          · rw [← PromiseState.resolved.inj hv, hg] at hm
            exact absurd hm (by simp)
      | error m =>
        refine ⟨_, rfl, rfl, fun m2 hm => absurd hm (by simp), ?_, fun _ => ⟨m, rfl⟩⟩
        exact ⟨fun _ => Or.inr ⟨v, m, rfl, hg⟩, fun _ => rfl⟩
  · intro hall entry hentry
    obtain ⟨i, file, hfile, hi⟩ := hof entry hentry
    rw [getElem?_results env req files hsettle i _ hfile] at hi
    have hrej := hall i _ hfile
    cases ho : engineOutcome env req i file with
    | pending => rw [ho] at hrej; simp [PromiseState.isRejected] at hrej
    | resolved v => rw [ho] at hrej; simp [PromiseState.isRejected] at hrej
    | rejected m =>
      rw [ho] at hi
      simp only [batchEntry, Option.some.injEq] at hi
      rw [← hi]

theorem batchLoop_congr (env : Env) (langs langs' : List String) :
    ∀ (files : List MulterFile) (i : Nat) (st : BatchLoopState),
      (∀ k, k < files.length → orDefault langs[i + k]? "en" = orDefault langs'[i + k]? "en") →
      batchLoop env langs i files st = batchLoop env langs' i files st := by
  intro files
  induction files with
  | nil => intro i st _; simp [batchLoop]
  | cons file rest ih =>
    intro i st h
    have h0 : orDefault langs[i]? "en" = orDefault langs'[i]? "en" := by
      simpa using h 0 (by simp)
    have hrest : ∀ k, k < rest.length →
        orDefault langs[i + 1 + k]? "en" = orDefault langs'[i + 1 + k]? "en" := by
      intro k hk
      have := h (k + 1) (by simp; omega)
      rwa [show i + (k + 1) = i + 1 + k by omega] at this
    unfold batchLoop
    simp only [h0]
    split
    · rfl
    · exact ih (i + 1) _ hrest

theorem orDefault_batchLanguages (field : FormField) (i : Nat) :
    orDefault (batchLanguages field)[i]? "en" = orDefault (suppliedCodes field)[i]? "en" := by
  cases field with
  | absent => rfl
  | list values => rfl
  | text value =>
    by_cases hv : value = ""
    · subst hv
      cases i <;> simp [batchLanguages, suppliedCodes, orDefault]
    · simp [batchLanguages, suppliedCodes, hv]

theorem pythonArgs_of_ne_empty (env : Env) (audioPath language : String) (h : language ≠ "") :
    pythonArgs env audioPath (some language) = [env.pythonScript, audioPath, language] := by
  simp [pythonArgs, h]

/-- C6 (amended): with `N` files and a supplied list of `M` language codes (a
single value counting as a one-element list, none as the empty list), in a
batch whose engine calls all settle item `i` is transcribed with the `i`-th
supplied code when `i < M` and that code is not the empty string, and with
`'en'` when `i ≥ M` or the `i`-th supplied code is the empty string; the codes
at positions `≥ N` are never used. -/
theorem batch_language_assignment (env : Env) (req : BatchRequest) (files : List MulterFile)
    (hfiles : req.files = some files) (hne : files ≠ [])
    (hsettle : ∀ i file, files[i]? = some file → engineOutcome env req i file ≠ .pending) :
    (∃ r, batchHandler env req = some r ∧
      r.spawned.length = files.length ∧
      (∀ (i : Nat) (file : MulterFile) (code : String), files[i]? = some file →
        (suppliedCodes req.languages)[i]? = some code → code ≠ "" →
        r.spawned[i]? = some [env.pythonScript, file.path, code]) ∧
      (∀ (i : Nat) (file : MulterFile), files[i]? = some file →
        ((suppliedCodes req.languages).length ≤ i ∨
          (suppliedCodes req.languages)[i]? = some "") →
        r.spawned[i]? = some [env.pythonScript, file.path, "en"])) ∧
    (∀ other : BatchRequest, other.files = some files →
      (suppliedCodes other.languages).take files.length =
        (suppliedCodes req.languages).take files.length →
      batchHandler env other = batchHandler env req) := by
  have hargs : ∀ (i : Nat) (file : MulterFile), files[i]? = some file →
      (files.enum.map (fun p => pythonArgs env p.2.path (some (itemLanguage req p.1))))[i]? =
        some (pythonArgs env file.path (some (itemLanguage req i))) := by
    intro i file hi
    simp only [List.getElem?_map, List.getElem?_enum, hi, Option.map_some']
  constructor
  · refine ⟨_, batchHandler_eq env req files hfiles hne hsettle, ?_, ?_, ?_⟩
    · simp [List.enum]
    · intro i file code hi hcode hne'
      have hl : itemLanguage req i = code := by
        unfold itemLanguage
        rw [orDefault_batchLanguages, hcode]
        simp [orDefault, hne']
      rw [hargs i file hi, hl, pythonArgs_of_ne_empty env _ _ hne']
    · intro i file hi hcode
      have hl : itemLanguage req i = "en" := by
        unfold itemLanguage
        rw [orDefault_batchLanguages]
        rcases hcode with hlen | hempty
        · rw [List.getElem?_eq_none hlen]
          rfl
        · rw [hempty]
          rfl
      rw [hargs i file hi, hl, pythonArgs_of_ne_empty env _ _ (by decide)]
  · intro other hother htake
    have hlen : ¬ files.length = 0 := fun h => hne (List.length_eq_zero.1 h)
    unfold batchHandler
    simp only [hfiles, hother, hlen, if_false]
    rw [batchLoop_congr env (batchLanguages other.languages) (batchLanguages req.languages)]
    intro k hk
    rw [orDefault_batchLanguages, orDefault_batchLanguages, Nat.zero_add]
    have h1 := List.getElem?_take_of_lt (l := suppliedCodes other.languages) hk
    have h2 := List.getElem?_take_of_lt (l := suppliedCodes req.languages) hk
    rw [← h1, ← h2, htake]

theorem getProp_ok_of_ne_null (v : JSValue) (key : String) (h1 : v ≠ .null)
    (h2 : v ≠ .undefined) : ∃ t, getProp v key = .ok t := by
  cases v with
  | null => exact absurd rfl h1
  | undefined => exact absurd rfl h2
  | bool b => exact ⟨_, rfl⟩
  | number x => exact ⟨_, rfl⟩
  | string x => exact ⟨_, rfl⟩
  | array xs => exact ⟨_, rfl⟩
  | object props =>
    simp only [getProp]
    cases List.find? (fun kv => decide (kv.1 = key)) props.reverse <;> exact ⟨_, rfl⟩

/-- C7 (amended): in a batch of 3 files where the engine process of item 2
exits with code 1 and standard error `decode error`, and the processes of the
other two exit with code 0 printing a JSON value other than `null`, the
response has summary `{total: 3, successful: 2, failed: 1}` and `results[1]`
is `{filename: item 2's original name, success: false, error: 'Python process
failed: decode error'}`: the error of the item is the captured standard-error
text behind the prefix `Python process failed: `. -/
theorem batch_decode_error_scenario (env : Env) (req : BatchRequest)
    (f1 f2 f3 : MulterFile) (hfiles : req.files = some [f1, f2, f3])
    (pre1 post1 pre2 post2 pre3 post3 : List ProcEvent) (v1 v3 : JSValue)
    (hpre1 : ∀ e ∈ pre1, e.isData = true)
    (hrun1 : env.spawn 0 (pythonArgs env f1.path (some (itemLanguage req 0))) =
      pre1 ++ ProcEvent.close (some 0) :: post1)
    (hout1 : JSONparse (trim (concatChunks (stdoutChunks pre1))) = some v1) (hv1 : v1 ≠ .null)
    (hpre2 : ∀ e ∈ pre2, e.isData = true)
    (hrun2 : env.spawn 1 (pythonArgs env f2.path (some (itemLanguage req 1))) =
      pre2 ++ ProcEvent.close (some 1) :: post2)
    (herr2 : concatChunks (stderrChunks pre2) = "decode error")
    (hpre3 : ∀ e ∈ pre3, e.isData = true)
    (hrun3 : env.spawn 2 (pythonArgs env f3.path (some (itemLanguage req 2))) =
      pre3 ++ ProcEvent.close (some 0) :: post3)
    (hout3 : JSONparse (trim (concatChunks (stdoutChunks pre3))) = some v3) (hv3 : v3 ≠ .null) :
    ∃ r results, batchHandler env req = some r ∧
      r.response.body = .batch true { total := 3, successful := 2, failed := 1 } results ∧
      results[1]? = some { filename := f2.originalname, success := false,
                           transcription := none, language := none,
                           error := some "Python process failed: decode error" } := by
  have ho1 : engineOutcome env req 0 f1 = .resolved v1 := by
    unfold engineOutcome transcribePython
    rw [hrun1, runAdapter_close pre1 post1 (some 0) hpre1]
    simp [closeResult, hout1]
  have ho2 : engineOutcome env req 1 f2 = .rejected "Python process failed: decode error" := by
    unfold engineOutcome transcribePython
    rw [hrun2, runAdapter_close pre2 post2 (some 1) hpre2]
    simp [closeResult, herr2]
  have ho3 : engineOutcome env req 2 f3 = .resolved v3 := by
    unfold engineOutcome transcribePython
    rw [hrun3, runAdapter_close pre3 post3 (some 0) hpre3]
    simp [closeResult, hout3]
  obtain ⟨t1, ht1⟩ := getProp_ok_of_ne_null v1 "transcription" hv1
    (fun h => JSONparse_ne_undefined _ (h ▸ hout1))
  obtain ⟨t3, ht3⟩ := getProp_ok_of_ne_null v3 "transcription" hv3
    (fun h => JSONparse_ne_undefined _ (h ▸ hout3))
  have hsettle : ∀ i file, [f1, f2, f3][i]? = some file →
      engineOutcome env req i file ≠ .pending := by
    intro i file hi
    match i, hi with
    | 0, hi => simp at hi; subst hi; rw [ho1]; simp
    | 1, hi => simp at hi; subst hi; rw [ho2]; simp
    | 2, hi => simp at hi; subst hi; rw [ho3]; simp
    | n + 3, hi => simp at hi
  have hres : [f1, f2, f3].enum.filterMap (batchItem env req) =
      [{ filename := f1.originalname, success := true, transcription := some t1,
         language := some (itemLanguage req 0), error := none },
       { filename := f2.originalname, success := false, transcription := none,
         language := none, error := some "Python process failed: decode error" },
       { filename := f3.originalname, success := true, transcription := some t3,
         language := some (itemLanguage req 2), error := none }] := by
    simp [List.enum, batchItem, ho1, ho2, ho3, batchEntry, ht1, ht3]
  have hh := batchHandler_eq env req [f1, f2, f3] hfiles (by simp) hsettle
  rw [hres] at hh
  exact ⟨_, _, hh, rfl, rfl⟩

/-! ## The properties at the example requests -/

theorem foldl_step_outcome_ne_pending (events : List ProcEvent) :
    ∀ st : AdapterState, (st.outcome ≠ .pending ∨ ∃ e ∈ events, e.isData = false) →
      (events.foldl AdapterState.step st).outcome ≠ .pending := by
  induction events with
  | nil =>
    intro st h
    rcases h with h | ⟨e, he, _⟩
    · exact h
    · simp at he
  | cons e es ih =>
    intro st h
    rw [List.foldl_cons]
    apply ih
    by_cases hst : st.outcome = .pending
    · have hex : ∃ x ∈ e :: es, x.isData = false := h.resolve_left (fun hn => hn hst)
      obtain ⟨x, hx, hdata⟩ := hex
      rcases List.mem_cons.1 hx with rfl | hx'
      · left
        cases x with
        | stdoutData c => simp [ProcEvent.isData] at hdata
        | stderrData c => simp [ProcEvent.isData] at hdata
        | close code =>
          simp only [AdapterState.step, AdapterState.settle, hst]
          exact closeResult_ne_pending _ _
        | error m => simp [AdapterState.step, AdapterState.settle, hst]
      · exact Or.inr ⟨x, hx', hdata⟩
    · left
      cases ho : st.outcome with
      | pending => exact absurd ho hst
      | resolved v => rw [step_outcome_of_resolved st e v ho]; simp
      | rejected m => rw [step_outcome_of_rejected st e m ho]; simp

/-- Every engine call of a batch settles when each process ends with a
`close` or an `error` event. -/
theorem engineOutcome_ne_pending (env : Env) (req : BatchRequest)
    (h : ∀ n args, ∃ e ∈ env.spawn n args, e.isData = false) (i : Nat) (file : MulterFile) :
    engineOutcome env req i file ≠ .pending :=
  foldl_step_outcome_ne_pending _ _ (Or.inr (h i _))

theorem decodeErrorEnv_settles :
    ∀ n args, ∃ e ∈ decodeErrorEnv.spawn n args, e.isData = false := by
  intro n args
  simp only [decodeErrorEnv]
  split_ifs
  · exact ⟨.close (some 1), by simp, rfl⟩
  · exact ⟨.close (some 0), by simp, rfl⟩

theorem nullOutputEnv_settles :
    ∀ n args, ∃ e ∈ nullOutputEnv.spawn n args, e.isData = false :=
  fun _ _ => ⟨.close (some 0), by simp [nullOutputEnv], rfl⟩

theorem unavailableEnv_settles :
    ∀ n args, ∃ e ∈ unavailableEnv.spawn n args, e.isData = false :=
  fun _ _ => ⟨.error "spawn python ENOENT", by simp [unavailableEnv], rfl⟩

/-- C2, as stated, fails: the engine of the only file prints `null` and exits
with code 0, so no engine call fails (`K = 0`), yet the summary is
`{total: 1, successful: 0, failed: 1}`. -/
theorem batch_summary_null_output :
    failedCalls nullOutputEnv oneFile = 0 ∧
    ∃ r, batchHandler nullOutputEnv oneFile = some r ∧
      r.response.body = .batch true { total := 1, successful := 0, failed := 1 }
        [{ filename := "one.wav", success := false, transcription := none, language := none,
           error := some "Cannot read properties of null (reading 'transcription')" }] :=
  ⟨rfl, _, rfl, rfl⟩

/-- C2 (amended) at a batch of three files whose second engine call fails. -/
theorem batch_summary_counts_witness :
    ∃ r summary results, batchHandler decodeErrorEnv threeFiles = some r ∧
      r.response.body = .batch true summary results ∧
      summary.total = threeFiles.fileList.length ∧
      summary.successful =
        threeFiles.fileList.length - failedOrNullCalls decodeErrorEnv threeFiles ∧
      summary.failed = (failedOrNullCalls decodeErrorEnv threeFiles : Int) ∧
      (summary.successful : Int) + summary.failed = (summary.total : Int) ∧
      summary.successful = (results.filter (fun e => e.success)).length :=
  batch_summary_counts decodeErrorEnv threeFiles threeFiles.fileList rfl (List.cons_ne_nil _ _)
    (fun i file _ => engineOutcome_ne_pending _ _ decodeErrorEnv_settles i file)

/-- C3 at a batch of three files whose second engine call fails. -/
theorem batch_item_isolation_witness :
    ∃ r summary results, batchHandler decodeErrorEnv threeFiles = some r ∧
      r.response.body = .batch true summary results ∧
      results.length = threeFiles.fileList.length ∧
      r.spawned.length = threeFiles.fileList.length ∧
      (∀ (i : Nat) (file : MulterFile), threeFiles.fileList[i]? = some file →
        results[i]? = batchEntry file (itemLanguage threeFiles i)
          (engineOutcome decodeErrorEnv threeFiles i file) ∧
        r.spawned[i]? =
          some (pythonArgs decodeErrorEnv file.path (some (itemLanguage threeFiles i)))) ∧
      (∀ (i : Nat) (file : MulterFile) (m : String), threeFiles.fileList[i]? = some file →
        engineOutcome decodeErrorEnv threeFiles i file = .rejected m →
        results[i]? = some { filename := file.originalname, success := false,
                             transcription := none, language := none, error := some m }) :=
  batch_item_isolation decodeErrorEnv threeFiles threeFiles.fileList rfl (List.cons_ne_nil _ _)
    (fun i file _ => engineOutcome_ne_pending _ _ decodeErrorEnv_settles i file)

/-- C4 at a batch of three files whose second engine call fails. -/
theorem batch_results_follow_files_witness :
    ∃ r summary results, batchHandler decodeErrorEnv threeFiles = some r ∧
      r.response.body = .batch true summary results ∧
      results.length = threeFiles.fileList.length ∧
      ∀ (i : Nat) (file : MulterFile), threeFiles.fileList[i]? = some file →
        ∃ entry : BatchEntry, results[i]? = some entry ∧ entry.filename = file.originalname :=
  batch_results_follow_files decodeErrorEnv threeFiles threeFiles.fileList rfl
    (List.cons_ne_nil _ _)
    (fun i file _ => engineOutcome_ne_pending _ _ decodeErrorEnv_settles i file)

/-- C5 at a batch of three files none of whose engine processes can be
started, and at a batch of three files whose second engine call fails: the
envelope is `success: true` with status 200 both times, with three failed
entries in the first batch and one, the second, in the other. -/
theorem batch_envelope_success_witness :
    (∃ r summary results, batchHandler unavailableEnv threeFiles = some r ∧
      r.response.status = 200 ∧
      r.response.body = .batch true summary results ∧
      results.length = threeFiles.fileList.length ∧
      results ≠ [] ∧
      (∀ (i : Nat) (file : MulterFile), threeFiles.fileList[i]? = some file →
        ∃ entry : BatchEntry, results[i]? = some entry ∧
          entry.filename = file.originalname ∧
          (∀ m : String, engineOutcome unavailableEnv threeFiles i file = .rejected m →
            entry.success = false ∧ entry.error = some m ∧ entry.transcription = none) ∧
          (entry.success = false ↔
            (∃ m, engineOutcome unavailableEnv threeFiles i file = .rejected m) ∨
            (∃ v m, engineOutcome unavailableEnv threeFiles i file = .resolved v ∧
              getProp v "transcription" = .error m)) ∧
          (entry.success = false → ∃ m, entry.error = some m)) ∧
      (∀ entry ∈ results, ∃ (i : Nat) (file : MulterFile),
        threeFiles.fileList[i]? = some file ∧ results[i]? = some entry) ∧
      ((∀ (i : Nat) (file : MulterFile), threeFiles.fileList[i]? = some file →
          (engineOutcome unavailableEnv threeFiles i file).isRejected = true) →
        ∀ entry ∈ results, entry.success = false)) ∧
    (∃ r summary results, batchHandler decodeErrorEnv threeFiles = some r ∧
      r.response.status = 200 ∧
      r.response.body = .batch true summary results ∧
      results.length = threeFiles.fileList.length ∧
      results ≠ [] ∧
      (∀ (i : Nat) (file : MulterFile), threeFiles.fileList[i]? = some file →
        ∃ entry : BatchEntry, results[i]? = some entry ∧
          entry.filename = file.originalname ∧
          (∀ m : String, engineOutcome decodeErrorEnv threeFiles i file = .rejected m →
            entry.success = false ∧ entry.error = some m ∧ entry.transcription = none) ∧
          (entry.success = false ↔
            (∃ m, engineOutcome decodeErrorEnv threeFiles i file = .rejected m) ∨
            (∃ v m, engineOutcome decodeErrorEnv threeFiles i file = .resolved v ∧
              getProp v "transcription" = .error m)) ∧
          (entry.success = false → ∃ m, entry.error = some m)) ∧
      (∀ entry ∈ results, ∃ (i : Nat) (file : MulterFile),
        threeFiles.fileList[i]? = some file ∧ results[i]? = some entry) ∧
      ((∀ (i : Nat) (file : MulterFile), threeFiles.fileList[i]? = some file →
          (engineOutcome decodeErrorEnv threeFiles i file).isRejected = true) →
        ∀ entry ∈ results, entry.success = false)) ∧
    (∃ r summary results, batchHandler unavailableEnv threeFiles = some r ∧
      r.response.status = 200 ∧
      r.response.body = .batch true summary results ∧
      summary = { total := 3, successful := 0, failed := 3 } ∧
      results.map (fun entry => (entry.filename, entry.success, entry.error)) =
        [("one.wav", false, some "Failed to start Python process: spawn python ENOENT"),
         ("two.mp3", false, some "Failed to start Python process: spawn python ENOENT"),
         ("three.ogg", false, some "Failed to start Python process: spawn python ENOENT")]) ∧
    (∃ r summary results, batchHandler decodeErrorEnv threeFiles = some r ∧
      r.response.status = 200 ∧
      r.response.body = .batch true summary results ∧
      summary = { total := 3, successful := 2, failed := 1 } ∧
      results.map (fun entry => (entry.filename, entry.success, entry.error)) =
        [("one.wav", true, none),
         ("two.mp3", false, some "Python process failed: decode error"),
         ("three.ogg", true, none)]) :=
  ⟨batch_envelope_success unavailableEnv threeFiles threeFiles.fileList rfl
      (List.cons_ne_nil _ _)
      (fun i file _ => engineOutcome_ne_pending _ _ unavailableEnv_settles i file),
    batch_envelope_success decodeErrorEnv threeFiles threeFiles.fileList rfl
      (List.cons_ne_nil _ _)
      (fun i file _ => engineOutcome_ne_pending _ _ decodeErrorEnv_settles i file),
    ⟨_, _, _, rfl, rfl, rfl, rfl, rfl⟩, ⟨_, _, _, rfl, rfl, rfl, rfl, rfl⟩⟩

/-- C6, as stated, fails: the first of the two supplied codes is the empty
string, and the first file is transcribed with `'en'`, not with that code. -/
theorem batch_language_empty_code :
    (suppliedCodes emptyCodeRequest.languages)[0]? = some "" ∧
    ∃ r, batchHandler decodeErrorEnv emptyCodeRequest = some r ∧
      r.spawned = [["/srv/backend-api/python/transcribe.py",
                    "uploads/audio-1700000000000-11.wav", "en"],
                   ["/srv/backend-api/python/transcribe.py",
                    "uploads/audio-1700000000000-22.mp3", "hi"]] :=
  ⟨rfl, _, rfl, rfl⟩

/-- C6 (amended) at a batch of three files with two language codes. -/
theorem batch_language_assignment_witness :
    (∃ r, batchHandler decodeErrorEnv threeFiles = some r ∧
      r.spawned.length = threeFiles.fileList.length ∧
      (∀ (i : Nat) (file : MulterFile) (code : String), threeFiles.fileList[i]? = some file →
        (suppliedCodes threeFiles.languages)[i]? = some code → code ≠ "" →
        r.spawned[i]? = some [decodeErrorEnv.pythonScript, file.path, code]) ∧
      (∀ (i : Nat) (file : MulterFile), threeFiles.fileList[i]? = some file →
        ((suppliedCodes threeFiles.languages).length ≤ i ∨
          (suppliedCodes threeFiles.languages)[i]? = some "") →
        r.spawned[i]? = some [decodeErrorEnv.pythonScript, file.path, "en"])) ∧
    (∀ other : BatchRequest, other.files = some threeFiles.fileList →
      (suppliedCodes other.languages).take threeFiles.fileList.length =
        (suppliedCodes threeFiles.languages).take threeFiles.fileList.length →
      batchHandler decodeErrorEnv other = batchHandler decodeErrorEnv threeFiles) :=
  batch_language_assignment decodeErrorEnv threeFiles threeFiles.fileList rfl
    (List.cons_ne_nil _ _)
    (fun i file _ => engineOutcome_ne_pending _ _ decodeErrorEnv_settles i file)

/-- C7, as stated, fails: in the scenario the error of `results[1]` is
`Python process failed: decode error`, not the bare standard-error text
`decode error`. -/
theorem batch_decode_error_message :
    ∃ r results, batchHandler decodeErrorEnv threeFiles = some r ∧
      r.response.body = .batch true { total := 3, successful := 2, failed := 1 } results ∧
      results[1]? = some { filename := "two.mp3", success := false, transcription := none,
                           language := none,
                           error := some "Python process failed: decode error" } ∧
      "Python process failed: decode error" ≠ "decode error" :=
  ⟨_, _, rfl, rfl, rfl, by decide⟩

/-- C7 (amended) at the scenario. -/
theorem batch_decode_error_scenario_witness :
    ∃ r results, batchHandler decodeErrorEnv threeFiles = some r ∧
      r.response.body = .batch true { total := 3, successful := 2, failed := 1 } results ∧
      results[1]? = some { filename := "two.mp3", success := false, transcription := none,
                           language := none,
                           error := some "Python process failed: decode error" } :=
  batch_decode_error_scenario decodeErrorEnv threeFiles
    (sampleFile "one.wav" "uploads/audio-1700000000000-11.wav")
    (sampleFile "two.mp3" "uploads/audio-1700000000000-22.mp3")
    (sampleFile "three.ogg" "uploads/audio-1700000000001-33.ogg") rfl
    [.stdoutData "\x7b\"transcription\": ", .stderrData "loading model\n",
      .stdoutData "\"namaste\"\x7d\n"] []
    [.stderrData "decode ", .stderrData "error"] []
    [.stdoutData "\x7b\"transcription\": ", .stderrData "loading model\n",
      .stdoutData "\"namaste\"\x7d\n"] []
    (.object [("transcription", .string "namaste")])
    (.object [("transcription", .string "namaste")])
    (by decide) rfl rfl (by simp) (by decide) rfl rfl (by decide) rfl rfl (by simp)

/-- C8 at a run printing a transcription in two chunks, with a line on
standard error in between. -/
theorem transcribePython_exit_zero_witness :
    transcribePython decodeErrorEnv 0 "uploads/audio-1700000000000-11.wav" (some "hi") =
      .resolved (.object [("transcription", .string "namaste")]) :=
  (transcribePython_exit_zero decodeErrorEnv 0 "uploads/audio-1700000000000-11.wav" (some "hi")
    [.stdoutData "\x7b\"transcription\": ", .stderrData "loading model\n",
      .stdoutData "\"namaste\"\x7d\n"] [] (by decide) rfl).1 _ rfl

/-- C9 at a run exiting with code 1 after two chunks on standard error. -/
theorem transcribePython_exit_nonzero_witness :
    transcribePython decodeErrorEnv 1 "uploads/audio-1700000000000-22.mp3" (some "mr") =
      .rejected "Python process failed: decode error" :=
  transcribePython_exit_nonzero decodeErrorEnv 1 "uploads/audio-1700000000000-22.mp3"
    (some "mr") [.stderrData "decode ", .stderrData "error"] [] (some 1) (by decide)
    (by decide) rfl

/-- C10 at an engine whose interpreter is missing. -/
theorem transcribePython_spawn_error_witness :
    transcribePython unavailableEnv 0 "uploads/audio-1700000000000-11.wav" (some "en") =
        .rejected "Failed to start Python process: spawn python ENOENT" ∧
    (∀ errorData : String,
        "Failed to start Python process: " ++ "spawn python ENOENT" ≠
          "Python process failed: " ++ errorData) ∧
    (∀ outputData : String,
        "Failed to start Python process: " ++ "spawn python ENOENT" ≠
          "Failed to parse Python output: " ++ outputData) :=
  transcribePython_spawn_error unavailableEnv 0 "uploads/audio-1700000000000-11.wav"
    (some "en") [] [] "spawn python ENOENT" (by simp) rfl

/-! ## The argument list of the engine -/

/-- C12: `transcribePython` spawns the engine with the list `[script,
audioPath, language]` for every provided non-empty language hint, forwarded
unchanged, and with `[script, audioPath, 'en']` when the hint is omitted; the
script is always the first element and the audio path the second, the first
positional argument after the script. -/
theorem transcribePython_argument_list (env : Env) (n : Nat) (audioPath : String) :
    (∀ language : String, language ≠ "" →
      pythonArgs env audioPath (some language) = [env.pythonScript, audioPath, language] ∧
      transcribePython env n audioPath (some language) =
        (runAdapter (env.spawn n [env.pythonScript, audioPath, language])).outcome) ∧
    (pythonArgs env audioPath none = [env.pythonScript, audioPath, "en"] ∧
      transcribePython env n audioPath none =
        (runAdapter (env.spawn n [env.pythonScript, audioPath, "en"])).outcome) ∧
    (∀ language : Option String,
      (pythonArgs env audioPath language)[0]? = some env.pythonScript ∧
      (pythonArgs env audioPath language)[1]? = some audioPath) := by
  refine ⟨?_, ⟨rfl, rfl⟩, ?_⟩
  · intro language h
    have hargs := pythonArgs_of_ne_empty env audioPath language h
    refine ⟨hargs, ?_⟩
    unfold transcribePython
    rw [hargs]
  · intro language
    unfold pythonArgs
    simp only []
    split_ifs <;> exact ⟨rfl, rfl⟩

/-! ## The single-file handler -/

/-- The single-file handler once the engine call is rejected. -/
theorem singleHandler_of_rejected (env : Env) (now : Nat → Int) (req : SingleRequest)
    (file : MulterFile) (m : String) (hfile : req.file = some file)
    (hfail : transcribePython env 0 file.path (some (orDefault req.language "en")) =
      .rejected m) :
    singleHandler env now req =
      some { response := { status := 500, body := .failure false m },
             spawned := [pythonArgs env file.path (some (orDefault req.language "en"))],
             timers := if file.path ≠ "" then [{ delay := 1000, paths := [file.path] }] else [],
             effects :=
               [.spawn (pythonArgs env file.path (some (orDefault req.language "en"))),
                .respond { status := 500, body := .failure false m }] ++
               (if file.path ≠ "" then [{ delay := 1000, paths := [file.path] }]
                 else []).map Effect.setTimeout } := by
  unfold singleHandler
  simp only [hfile, hfail]

/-- The single-file handler once the engine call resolves. -/
theorem singleHandler_of_resolved (env : Env) (now : Nat → Int) (req : SingleRequest)
    (file : MulterFile) (result : JSValue) (hfile : req.file = some file)
    (hres : transcribePython env 0 file.path (some (orDefault req.language "en")) =
      .resolved result) :
    singleHandler env now req =
      some { response :=
               (match getProp result "transcription" with
                | .ok transcription =>
                  { status := 200,
                    body := .single true
                      { transcription := transcription,
                        language := orDefault req.language "en",
                        originalFilename := file.originalname, fileSize := file.size,
                        processingTime := ((now 1 - now 0 : Int) : ℚ) / 1000 } }
                | .error message => { status := 500, body := .failure false message }),
             spawned := [pythonArgs env file.path (some (orDefault req.language "en"))],
             timers := if file.path ≠ "" then [{ delay := 1000, paths := [file.path] }] else [],
             effects :=
               [.spawn (pythonArgs env file.path (some (orDefault req.language "en"))),
                .respond
                  (match getProp result "transcription" with
                   | .ok transcription =>
                     { status := 200,
                       body := .single true
                         { transcription := transcription,
                           language := orDefault req.language "en",
                           originalFilename := file.originalname, fileSize := file.size,
                           processingTime := ((now 1 - now 0 : Int) : ℚ) / 1000 } }
                   | .error message => { status := 500, body := .failure false message })] ++
               (if file.path ≠ "" then [{ delay := 1000, paths := [file.path] }]
                 else []).map Effect.setTimeout } := by
  unfold singleHandler
  simp only [hfile, hres]
  cases getProp result "transcription" <;> rfl

/-- C14: for every accepted upload whose engine call fails with message `m`,
the single-file handler answers with status 500 and the body `{success:
false, error: m}`, which has no `data`. -/
theorem single_engine_failure (env : Env) (now : Nat → Int) (req : SingleRequest)
    (file : MulterFile) (m : String) (hfile : req.file = some file)
    (hfail : transcribePython env 0 file.path (some (orDefault req.language "en")) =
      .rejected m) :
    ∃ r, singleHandler env now req = some r ∧
      r.response.status = 500 ∧ r.response.body = .failure false m :=
  ⟨_, singleHandler_of_rejected env now req file m hfile hfail, rfl, rfl⟩

theorem transcribePython_resolved_ne_undefined (env : Env) (n : Nat) (audioPath : String)
    (language : Option String) (result : JSValue)
    (h : transcribePython env n audioPath language = .resolved result) :
    result ≠ .undefined := by
  intro hu
  exact transcribePython_ne_undefined env n audioPath language (hu ▸ h)

/-- C13 (amended): for every accepted upload whose engine call resolves with a
payload `r` other than `null`, the single-file handler answers with status 200
and `{success: true, data}` where `data.transcription` is `r.transcription`,
`data.language` is the requested language code, or `'en'` when the request has
no language field or an empty one, `data.originalFilename` is the original
name of the upload, `data.fileSize` its byte size and `data.processingTime`
the difference of the two clock readings around the engine call divided by
1000. -/
theorem single_success_response (env : Env) (now : Nat → Int) (req : SingleRequest)
    (file : MulterFile) (r : JSValue) (hfile : req.file = some file)
    (hres : transcribePython env 0 file.path (some (orDefault req.language "en")) =
      .resolved r)
    (hnull : r ≠ .null) :
    ∃ res data t, singleHandler env now req = some res ∧
      res.response = { status := 200, body := .single true data } ∧
      getProp r "transcription" = .ok t ∧
      data.transcription = t ∧
      data.originalFilename = file.originalname ∧
      data.fileSize = file.size ∧
      data.processingTime = ((now 1 - now 0 : Int) : ℚ) / 1000 ∧
      (∀ code : String, req.language = some code → code ≠ "" → data.language = code) ∧
      (req.language = none ∨ req.language = some "" → data.language = "en") := by
  obtain ⟨t, ht⟩ := getProp_ok_of_ne_null r "transcription" hnull
    (transcribePython_resolved_ne_undefined _ _ _ _ _ hres)
  have h := singleHandler_of_resolved env now req file r hfile hres
  simp only [ht] at h
  refine ⟨_, _, t, h, rfl, ht, rfl, rfl, rfl, rfl, ?_, ?_⟩
  · intro code hcode hne
    simp [hcode, orDefault, hne]
  · intro hlang
    rcases hlang with hl | hl <;> simp [hl, orDefault]

/-- C11 (amended): a run of the engine that ends with `close` or `error` is
treated as a success, by the single-file handler (a `success: true` envelope)
and by the body of the batch loop (a `success: true` item), exactly when the
process exits with code 0 and its trimmed standard output is valid JSON other
than `null`; every other run is treated as a failure. -/
theorem engine_run_success_iff (env : Env) (now : Nat → Int) (req : SingleRequest)
    (file : MulterFile) (language : String) (pre post : List ProcEvent) (e : ProcEvent)
    (hfile : req.file = some file)
    (hpre : ∀ x ∈ pre, x.isData = true) (he : e.isData = false)
    (hrun : env.spawn 0 (pythonArgs env file.path (some (orDefault req.language "en"))) =
      pre ++ e :: post) :
    (∃ res, singleHandler env now req = some res ∧
      (res.response.body.success = true ↔
        e = .close (some 0) ∧
          ∃ v, JSONparse (trim (concatChunks (stdoutChunks pre))) = some v ∧ v ≠ .null)) ∧
    (∃ entry, batchEntry file language (runAdapter (pre ++ e :: post)).outcome = some entry ∧
      (entry.success = true ↔
        e = .close (some 0) ∧
          ∃ v, JSONparse (trim (concatChunks (stdoutChunks pre))) = some v ∧ v ≠ .null)) := by
  have hout : transcribePython env 0 file.path (some (orDefault req.language "en")) =
      (runAdapter (pre ++ e :: post)).outcome := by
    unfold transcribePython
    rw [hrun]
  cases e with
  | stdoutData c => simp [ProcEvent.isData] at he
  | stderrData c => simp [ProcEvent.isData] at he
  | error m =>
    have ho := runAdapter_error pre post m hpre
    rw [ho] at hout
    refine ⟨⟨_, singleHandler_of_rejected env now req file _ hfile hout, ?_⟩, ?_⟩
    · simp [ResponseBody.success]
    · rw [ho]
      exact ⟨_, rfl, by simp⟩
  | close code =>
    have ho := runAdapter_close pre post code hpre
    by_cases hcode : code = some 0
    · cases hp : JSONparse (trim (concatChunks (stdoutChunks pre))) with
      | none =>
        have hc : (runAdapter (pre ++ ProcEvent.close code :: post)).outcome =
            .rejected ("Failed to parse Python output: " ++ concatChunks (stdoutChunks pre)) := by
          rw [ho]
          simp [closeResult, hcode, hp]
        rw [hc] at hout
        refine ⟨⟨_, singleHandler_of_rejected env now req file _ hfile hout, ?_⟩, ?_⟩
        · simp [ResponseBody.success]
        · rw [hc]
          exact ⟨_, rfl, by simp⟩
      | some v =>
        have hc : (runAdapter (pre ++ ProcEvent.close code :: post)).outcome = .resolved v := by
          rw [ho]
          simp [closeResult, hcode, hp]
        rw [hc] at hout
        have hu : v ≠ .undefined := fun h => JSONparse_ne_undefined _ (h ▸ hp)
        by_cases hv : v = .null
        · subst hv
          refine ⟨⟨_, singleHandler_of_resolved env now req file _ hfile hout, ?_⟩, ?_⟩
          · simp [getProp, ResponseBody.success]
          · rw [hc]
            exact ⟨_, rfl, by simp [hcode]⟩
        · obtain ⟨t, ht⟩ := getProp_ok_of_ne_null v "transcription" hv hu
          refine ⟨⟨_, singleHandler_of_resolved env now req file _ hfile hout, ?_⟩, ?_⟩
          · simp [ht, ResponseBody.success, hcode, hv]
          · rw [hc]
            simp only [batchEntry, ht]
            exact ⟨_, rfl, by simp [hcode, hv]⟩
    · have hc : (runAdapter (pre ++ ProcEvent.close code :: post)).outcome =
          .rejected ("Python process failed: " ++ concatChunks (stderrChunks pre)) := by
        rw [ho]
        simp [closeResult, hcode]
      rw [hc] at hout
      refine ⟨⟨_, singleHandler_of_rejected env now req file _ hfile hout, ?_⟩, ?_⟩
      · simp [ResponseBody.success, hcode]
      · rw [hc]
        exact ⟨_, rfl, by simp [hcode]⟩

/-- Parts without a filename are skipped by multer. -/
theorem multerParts_of_no_filename (staging : Staging) :
    ∀ (k : Nat) (parts : List FilePart) (stored : List MulterFile),
      (∀ p ∈ parts, p.originalname = "") →
      multerParts staging "audio" k parts stored = .ok stored := by
  intro k parts
  induction parts with
  | nil => intro stored _; rfl
  | cons p rest ih =>
    intro stored hall
    have hp : p.originalname = "" := hall p (List.mem_cons_self _ _)
    unfold multerParts
    rw [if_pos hp]
    exact ih stored (fun q hq => hall q (List.mem_cons_of_mem _ hq))

/-- A request whose body is not multipart, or has no file part with a
filename, reaches the handlers without a file and is answered with status
400 on both routes. -/
theorem routes_of_no_named_part (env : Env) (now : Nat → Int) (staging : Staging)
    (req : UploadRequest)
    (h : req.multipart = false ∨ ∀ p ∈ req.parts, p.originalname = "") :
    (∃ r, postTranscribe env staging now req = some r ∧
      r.response = { status := 400, body := .failure false "No audio file provided" }) ∧
    (∃ r, postTranscribeBatch env staging req = some r ∧
      r.response = { status := 400, body := .failure false "No audio files provided" }) := by
  have hparts := multerParts_of_no_filename staging
  by_cases hm : req.multipart = true
  · have hall : ∀ p ∈ req.parts, p.originalname = "" := by
      rcases h with h | h
      · rw [hm] at h; exact absurd h (by simp)
      · exact h
    have h1 : multerMiddleware staging 1 req = .ok (some []) := by
      unfold multerMiddleware
      rw [if_pos hm, hparts 1 req.parts [] hall]
    have h10 : multerMiddleware staging 10 req = .ok (some []) := by
      unfold multerMiddleware
      rw [if_pos hm, hparts 10 req.parts [] hall]
    constructor
    · unfold postTranscribe
      rw [h1]
      exact ⟨_, rfl, rfl⟩
    · unfold postTranscribeBatch
      rw [h10]
      exact ⟨_, rfl, rfl⟩
  · have h1 : multerMiddleware staging 1 req = .ok none := by
      unfold multerMiddleware
      rw [if_neg hm]
    have h10 : multerMiddleware staging 10 req = .ok none := by
      unfold multerMiddleware
      rw [if_neg hm]
    constructor
    · unfold postTranscribe
      rw [h1]
      exact ⟨_, rfl, rfl⟩
    · unfold postTranscribeBatch
      rw [h10]
      exact ⟨_, rfl, rfl⟩

/-- File parts with a filename none of which is in the field `audio`: multer
ends the upload at the first of them with `LIMIT_UNEXPECTED_FILE`. -/
theorem multerParts_unexpected_field (staging : Staging) :
    ∀ (parts : List FilePart) (k : Nat) (stored : List MulterFile),
      (∀ p ∈ parts, p.originalname ≠ "" → p.fieldname ≠ "audio") →
      (∃ p ∈ parts, p.originalname ≠ "") →
      multerParts staging "audio" k parts stored =
        .error (.multerError "LIMIT_UNEXPECTED_FILE" "Unexpected field") := by
  intro parts
  induction parts with
  | nil => intro k stored _ h; obtain ⟨p, hp, _⟩ := h; simp at hp
  | cons part rest ih =>
    intro k stored hfield hsome
    unfold multerParts
    by_cases hn : part.originalname = ""
    · rw [if_pos hn]
      obtain ⟨p, hp, hname⟩ := hsome
      rcases List.mem_cons.1 hp with rfl | hp'
      · exact absurd hn hname
      · exact ih _ _ (fun q hq => hfield q (List.mem_cons_of_mem _ hq)) ⟨p, hp', hname⟩
    · rw [if_neg hn, if_pos (Or.inl (hfield part (List.mem_cons_self _ _) hn))]

/-- A multipart request with a named file part, but none in the field
`audio`, does not reach the handlers: the error-handling middleware answers
with status 500 on both routes, and no engine call is made. -/
theorem routes_of_unexpected_field (env : Env) (now : Nat → Int) (staging : Staging)
    (req : UploadRequest) (hm : req.multipart = true)
    (hfield : ∀ p ∈ req.parts, p.originalname ≠ "" → p.fieldname ≠ "audio")
    (hsome : ∃ p ∈ req.parts, p.originalname ≠ "") :
    (∃ r, postTranscribe env staging now req = some r ∧
      r.response = { status := 500, body := .failure false "Unexpected field" } ∧
      r.spawned = []) ∧
    (∃ r, postTranscribeBatch env staging req = some r ∧
      r.response = { status := 500, body := .failure false "Unexpected field" } ∧
      r.spawned = []) := by
  have h1 : multerMiddleware staging 1 req =
      .error (.multerError "LIMIT_UNEXPECTED_FILE" "Unexpected field") := by
    unfold multerMiddleware
    rw [if_pos hm, multerParts_unexpected_field staging req.parts 1 [] hfield hsome]
  have h10 : multerMiddleware staging 10 req =
      .error (.multerError "LIMIT_UNEXPECTED_FILE" "Unexpected field") := by
    unfold multerMiddleware
    rw [if_pos hm, multerParts_unexpected_field staging req.parts 10 [] hfield hsome]
  constructor
  · unfold postTranscribe
    rw [h1]
    exact ⟨_, rfl, rfl, rfl⟩
  · unfold postTranscribeBatch
    rw [h10]
    exact ⟨_, rfl, rfl, rfl⟩

/-- C17 fails on the code.  Both handlers answer a request without a file
with status 400 and a `success: false` envelope, `No audio file provided` when
`req.file` is missing and `No audio files provided` when `req.files` is
missing or empty, and so do both routes for a body that is not multipart or
has no file part with a filename.  But a request without a part in the field
`audio` that has a named file part in another field never reaches the
handlers: multer refuses it with `LIMIT_UNEXPECTED_FILE`, and the answer is
status 500 with `{success: false, error: 'Unexpected field'}` on both routes,
as for the upload of one `.wav` file in the field `file`. -/
theorem zero_audio_parts_answer (env : Env) (now : Nat → Int) (language : Option String)
    (languages : FormField) :
    (∃ r, singleHandler env now { file := none, language := language } = some r ∧
      r.response = { status := 400, body := .failure false "No audio file provided" }) ∧
    (∃ r, batchHandler env { files := none, languages := languages } = some r ∧
      r.response = { status := 400, body := .failure false "No audio files provided" }) ∧
    (∃ r, batchHandler env { files := some [], languages := languages } = some r ∧
      r.response = { status := 400, body := .failure false "No audio files provided" }) ∧
    (∀ (staging : Staging) (req : UploadRequest),
      (∀ p ∈ req.parts, p.originalname ≠ "" → p.fieldname ≠ "audio") →
      ((req.multipart = false ∨ ∀ p ∈ req.parts, p.originalname = "") →
        (∃ r, postTranscribe env staging now req = some r ∧
          r.response = { status := 400, body := .failure false "No audio file provided" }) ∧
        (∃ r, postTranscribeBatch env staging req = some r ∧
          r.response =
            { status := 400, body := .failure false "No audio files provided" })) ∧
      ((req.multipart = true ∧ ∃ p ∈ req.parts, p.originalname ≠ "") →
        (∃ r, postTranscribe env staging now req = some r ∧
          r.response = { status := 500, body := .failure false "Unexpected field" } ∧
          r.spawned = []) ∧
        (∃ r, postTranscribeBatch env staging req = some r ∧
          r.response = { status := 500, body := .failure false "Unexpected field" } ∧
          r.spawned = []))) ∧
    ((∀ p ∈ wrongFieldUpload.parts, p.fieldname ≠ "audio") ∧
      (∃ r, postTranscribe hindiEnv sampleStaging sampleClock wrongFieldUpload = some r ∧
        r.response = { status := 500, body := .failure false "Unexpected field" } ∧
        r.response.status ≠ 400 ∧ r.spawned = []) ∧
      (∃ r, postTranscribeBatch hindiEnv sampleStaging wrongFieldUpload = some r ∧
        r.response = { status := 500, body := .failure false "Unexpected field" } ∧
        r.response.status ≠ 400 ∧ r.spawned = [])) := by
  refine ⟨⟨_, rfl, rfl⟩, ⟨_, rfl, rfl⟩, ⟨_, rfl, rfl⟩, ?_, ?_⟩
  · intro staging req hfield
    exact ⟨routes_of_no_named_part env now staging req,
      fun h => routes_of_unexpected_field env now staging req h.1 hfield h.2⟩
  · exact ⟨by decide, ⟨_, rfl, rfl, by decide, rfl⟩, ⟨_, rfl, rfl, by decide, rfl⟩⟩

/-! ## Cleanup -/

/-- One call of `cleanupFile`: it returns normally, leaves the file system as
it is when the path does not exist, logs when the removal fails, and removes
the path otherwise. -/
theorem cleanupFile_ok (st : CleanupState) (filePath : String) :
    ∃ st1, cleanupFile st filePath = .ok st1 ∧
      st1.fs.unlinkError = st.fs.unlinkError ∧
      (∀ p, p ∈ st1.fs.present → p ∈ st.fs.present) ∧
      (st.fs.unlinkError filePath = none → filePath ∉ st1.fs.present) ∧
      (filePath ∉ st.fs.present → st1 = st) ∧
      (∀ m, filePath ∈ st.fs.present → st.fs.unlinkError filePath = some m →
        st1 = { st with logged := st.logged ++ ["Error cleaning up file: " ++ m] }) := by
  unfold cleanupFile existsSync unlinkSync
  by_cases hp : filePath ∈ st.fs.present
  · cases hu : st.fs.unlinkError filePath with
    | some m =>
      simp only [hp, decide_True, if_true, tryCatch]
      refine ⟨_, rfl, rfl, fun p h => h, ?_, fun h => absurd trivial h, ?_⟩
      · intro h; simp at h
      · intro m' _ hm'
        simp only [Option.some.injEq] at hm'
        rw [hm']
    | none =>
      simp only [hp, decide_True, if_true, tryCatch]
      refine ⟨_, rfl, rfl, ?_, ?_, fun h => absurd trivial h, ?_⟩
      · intro p h
        exact (List.mem_filter.1 h).1
      · intro _ h
        have := (List.mem_filter.1 h).2
        simp at this
      · intro m _ hm
        simp at hm
  · simp only [hp, decide_False, tryCatch]
    refine ⟨_, rfl, rfl, fun p h => h, fun _ => hp, fun _ => rfl, fun m h => h.elim⟩

/-- The loop `filePaths.forEach(cleanupFile)` runs to its end. -/
theorem forEachCleanup_ok : ∀ (paths : List String) (st : CleanupState),
    ∃ st1, forEachCleanup paths st = .ok st1 ∧
      st1.fs.unlinkError = st.fs.unlinkError ∧
      (∀ p, p ∈ st1.fs.present → p ∈ st.fs.present) ∧
      (∀ p ∈ paths, st.fs.unlinkError p = none → p ∉ st1.fs.present) := by
  intro paths
  induction paths with
  | nil => intro st; exact ⟨st, rfl, rfl, fun p h => h, fun p hp => absurd hp (by simp)⟩
  | cons filePath rest ih =>
    intro st
    obtain ⟨st1, h1, hu1, hsub1, hrem1, _, _⟩ := cleanupFile_ok st filePath
    obtain ⟨st2, h2, hu2, hsub2, hrem2⟩ := ih st1
    refine ⟨st2, ?_, hu2.trans hu1, fun p h => hsub1 p (hsub2 p h), ?_⟩
    · unfold forEachCleanup
      rw [h1]
      exact h2
    · intro p hp hnone
      rcases List.mem_cons.1 hp with rfl | hp'
      · exact fun h => hrem1 hnone (hsub2 _ h)
      · exact hrem2 p hp' (by rw [hu1]; exact hnone)

/-- C20: `cleanupFile` never raises to its caller: for every path and every
state of the file system it returns normally, without any change when the
path does not exist and with a logged line when the removal fails; so the
callback of a cleanup timer runs over all its paths, and every one of them
whose removal does not fail is gone afterwards, whatever happens to the
others. -/
theorem cleanupFile_never_raises (st : CleanupState) (filePath : String)
    (timer : CleanupTimer) :
    (∃ st1, cleanupFile st filePath = .ok st1 ∧
      (filePath ∉ st.fs.present → st1 = st) ∧
      (∀ m, filePath ∈ st.fs.present → st.fs.unlinkError filePath = some m →
        st1 = { st with logged := st.logged ++ ["Error cleaning up file: " ++ m] })) ∧
    (∃ st2, timer.fire st = .ok st2 ∧
      ∀ p ∈ timer.paths, st.fs.unlinkError p = none → p ∉ st2.fs.present) := by
  obtain ⟨st1, h1, _, _, _, hno, hlog⟩ := cleanupFile_ok st filePath
  obtain ⟨st2, h2, _, _, hrem⟩ := forEachCleanup_ok timer.paths st
  exact ⟨⟨st1, h1, hno, hlog⟩, ⟨st2, h2, hrem⟩⟩

/-! ## The upload routes -/

theorem fileFilter_ne_ok_false (file : MulterFile) : fileFilter file ≠ .ok false := by
  unfold fileFilter
  simp only []
  split_ifs <;> simp

/-- A part that `fileFilter` refuses, or that is larger than the limit, makes
multer end the upload with an error. -/
theorem multerParts_error_of_bad_part (staging : Staging) :
    ∀ (parts : List FilePart) (k : Nat) (stored : List MulterFile),
      (∃ p ∈ parts, p.originalname ≠ "" ∧
        ((∃ m, fileFilter p.toFile = .error m) ∨ fileSizeLimit < p.size)) →
      ∃ err, multerParts staging "audio" k parts stored = .error err := by
  intro parts
  induction parts with
  | nil => intro k stored h; obtain ⟨p, hp, _⟩ := h; simp at hp
  | cons part rest ih =>
    intro k stored h
    obtain ⟨p, hp, hname, hbad⟩ := h
    unfold multerParts
    by_cases hn : part.originalname = ""
    · rw [if_pos hn]
      rcases List.mem_cons.1 hp with rfl | hp'
      · exact absurd hn hname
      · exact ih _ _ ⟨p, hp', hname, hbad⟩
    · rw [if_neg hn]
      by_cases hx : part.fieldname ≠ "audio" ∨ k = 0
      · rw [if_pos hx]
        exact ⟨_, rfl⟩
      · rw [if_neg hx]
        cases hf : fileFilter part.toFile with
        | error m => exact ⟨_, rfl⟩
        | ok b =>
          cases b with
          | false => exact absurd hf (fileFilter_ne_ok_false _)
          | true =>
            simp only []
            by_cases hs : fileSizeLimit < part.size
            · rw [if_pos hs]
              exact ⟨_, rfl⟩
            · rw [if_neg hs]
              rcases List.mem_cons.1 hp with rfl | hp'
              · rcases hbad with ⟨m, hm⟩ | hsize
                · rw [hf] at hm; simp at hm
                · exact absurd hsize hs
              · exact ih _ _ ⟨p, hp', hname, hbad⟩

/-- Multer reports `LIMIT_FILE_SIZE` only for a part larger than the limit. -/
theorem multerParts_limit_file_size (staging : Staging) (message : String) :
    ∀ (parts : List FilePart) (k : Nat) (stored : List MulterFile),
      multerParts staging "audio" k parts stored =
        .error (.multerError "LIMIT_FILE_SIZE" message) →
      ∃ p ∈ parts, fileSizeLimit < p.size := by
  intro parts
  induction parts with
  | nil => intro k stored h; simp [multerParts] at h
  | cons part rest ih =>
    intro k stored h
    unfold multerParts at h
    by_cases hn : part.originalname = ""
    · rw [if_pos hn] at h
      obtain ⟨p, hp, hs⟩ := ih _ _ h
      exact ⟨p, List.mem_cons_of_mem _ hp, hs⟩
    · rw [if_neg hn] at h
      by_cases hx : part.fieldname ≠ "audio" ∨ k = 0
      · rw [if_pos hx] at h
        simp at h
      · rw [if_neg hx] at h
        cases hf : fileFilter part.toFile with
        | error m => rw [hf] at h; simp at h
        | ok b =>
          rw [hf] at h
          cases b with
          | false =>
            obtain ⟨p, hp, hs⟩ := ih _ _ h
            exact ⟨p, List.mem_cons_of_mem _ hp, hs⟩
          | true =>
            simp only [] at h
            by_cases hs : fileSizeLimit < part.size
            · exact ⟨part, List.mem_cons_self _ _, hs⟩
            · rw [if_neg hs] at h
              obtain ⟨p, hp, hs'⟩ := ih _ _ h
              exact ⟨p, List.mem_cons_of_mem _ hp, hs'⟩

/-- C16: the size limit given to multer is `50 * 1024 * 1024 = 52428800`
bytes, and every upload that multer refuses with a `MulterError` of code
`LIMIT_FILE_SIZE`, which it does only when a part is larger than the limit,
is answered with status 400 and the body `{success: false, error: 'File too
large. Maximum size is 50MB.'}` on both routes. -/
theorem file_too_large_rejected (env : Env) (staging : Staging) (now : Nat → Int)
    (req : UploadRequest) (maxCount : Nat) (message : String)
    (h : multerMiddleware staging maxCount req =
      .error (.multerError "LIMIT_FILE_SIZE" message)) :
    fileSizeLimit = 52428800 ∧
    (∃ p ∈ req.parts, 52428800 < p.size) ∧
    errorMiddleware (.multerError "LIMIT_FILE_SIZE" message) =
      { status := 400, body := .failure false "File too large. Maximum size is 50MB." } ∧
    (maxCount = 1 → ∃ r, postTranscribe env staging now req = some r ∧
      r.response =
        { status := 400, body := .failure false "File too large. Maximum size is 50MB." }) ∧
    (maxCount = 10 → ∃ r, postTranscribeBatch env staging req = some r ∧
      r.response =
        { status := 400, body := .failure false "File too large. Maximum size is 50MB." }) := by
  refine ⟨rfl, ?_, rfl, ?_, ?_⟩
  · unfold multerMiddleware at h
    by_cases hm : req.multipart = true
    · rw [if_pos hm] at h
      cases hp : multerParts staging "audio" maxCount req.parts [] with
      | ok files => rw [hp] at h; simp at h
      | error err =>
        rw [hp] at h
        simp only [Except.error.injEq] at h
        rw [h] at hp
        exact multerParts_limit_file_size staging message _ _ _ hp
    · rw [if_neg hm] at h
      simp at h
  · intro h1
    subst h1
    unfold postTranscribe
    rw [h]
    exact ⟨_, rfl, rfl⟩
  · intro h10
    subst h10
    unfold postTranscribeBatch
    rw [h]
    exact ⟨_, rfl, rfl⟩

/-- C18: a request that is refused because it has no file (its body is not
multipart, or no file part has a filename), because `fileFilter` refuses one
of its parts, or because one of its parts is larger than the size limit, is
answered on both routes without any call of `transcribePython`. -/
theorem validation_short_circuits (env : Env) (staging : Staging) (now : Nat → Int)
    (req : UploadRequest)
    (h : req.multipart = false ∨ (∀ p ∈ req.parts, p.originalname = "") ∨
      (∃ p ∈ req.parts, p.originalname ≠ "" ∧
        ((∃ m, fileFilter p.toFile = .error m) ∨ fileSizeLimit < p.size))) :
    (∃ r, postTranscribe env staging now req = some r ∧
      r.spawned = [] ∧ (∀ args, Effect.spawn args ∉ r.effects) ∧
      r.response.body.success = false) ∧
    (∃ r, postTranscribeBatch env staging req = some r ∧
      r.spawned = [] ∧ (∀ args, Effect.spawn args ∉ r.effects) ∧
      r.response.body.success = false) := by
  have hnone : ∀ k, multerMiddleware staging k req = .ok none ∨
      multerMiddleware staging k req = .ok (some []) ∨
      ∃ err, multerMiddleware staging k req = .error err := by
    intro k
    unfold multerMiddleware
    by_cases hm : req.multipart = true
    · rw [if_pos hm]
      rcases h with h | h | h
      · rw [hm] at h; simp at h
      · rw [multerParts_of_no_filename staging k req.parts [] h]
        exact Or.inr (Or.inl rfl)
      · obtain ⟨err, herr⟩ := multerParts_error_of_bad_part staging req.parts k [] h
        rw [herr]
        exact Or.inr (Or.inr ⟨err, rfl⟩)
    · rw [if_neg hm]
      exact Or.inl rfl
  have herror : ∀ err : RequestError, (errorMiddleware err).body.success = false := by
    intro err
    cases err with
    | error m => rfl
    | multerError code m =>
      simp only [errorMiddleware]
      split_ifs <;> rfl
  constructor
  · unfold postTranscribe
    rcases hnone 1 with h1 | h1 | ⟨err, h1⟩
    · rw [h1]
      exact ⟨_, rfl, rfl, by simp, rfl⟩
    · rw [h1]
      exact ⟨_, rfl, rfl, by simp, rfl⟩
    · rw [h1]
      exact ⟨_, rfl, rfl, by simp [errorResult], herror err⟩
  · unfold postTranscribeBatch
    rcases hnone 10 with h1 | h1 | ⟨err, h1⟩
    · rw [h1]
      exact ⟨_, rfl, rfl, by simp, rfl⟩
    · rw [h1]
      exact ⟨_, rfl, rfl, by simp, rfl⟩
    · rw [h1]
      exact ⟨_, rfl, rfl, by simp [errorResult], herror err⟩

/-- C19: a handler that is reached with staged files and runs to its end,
whatever the outcome of its engine calls, sets exactly one cleanup timer, of
1000 ms, after it has sent the response, and the timer covers every staged
path: the path of the file in single mode, the paths of all uploaded files in
batch mode. -/
theorem cleanup_scheduled_on_every_path (env : Env) (now : Nat → Int)
    (single : SingleRequest) (file : MulterFile) (batch : BatchRequest)
    (files : List MulterFile)
    (hfile : single.file = some file) (hpath : file.path ≠ "")
    (hsingle : transcribePython env 0 file.path (some (orDefault single.language "en")) ≠
      .pending)
    (hfiles : batch.files = some files) (hne : files ≠ [])
    (hbatch : ∀ i f, files[i]? = some f → engineOutcome env batch i f ≠ .pending) :
    (∃ r, singleHandler env now single = some r ∧
      r.timers = [{ delay := 1000, paths := [file.path] }] ∧
      r.effects = r.spawned.map Effect.spawn ++
        [.respond r.response, .setTimeout { delay := 1000, paths := [file.path] }]) ∧
    (∃ r, batchHandler env batch = some r ∧
      r.timers = [{ delay := 1000, paths := files.map (fun f => f.path) }] ∧
      r.effects = r.spawned.map Effect.spawn ++
        [.respond r.response,
         .setTimeout { delay := 1000, paths := files.map (fun f => f.path) }]) := by
  constructor
  · cases ho : transcribePython env 0 file.path (some (orDefault single.language "en")) with
    | pending => exact absurd ho hsingle
    | rejected m =>
      refine ⟨_, singleHandler_of_rejected env now single file m hfile ho, ?_, ?_⟩
      · simp [hpath]
      · simp [hpath]
    | resolved result =>
      refine ⟨_, singleHandler_of_resolved env now single file result hfile ho, ?_, ?_⟩
      · simp [hpath]
      · simp [hpath]
  · exact ⟨_, batchHandler_eq env batch files hfiles hne hbatch, rfl, rfl⟩

/-! ## The properties of the single-file handler and of the routes at the example requests -/

/-- Every engine call settles when each process ends with a `close` or an
`error` event. -/
theorem transcribePython_ne_pending (env : Env)
    (h : ∀ n args, ∃ e ∈ env.spawn n args, e.isData = false) (n : Nat) (audioPath : String)
    (language : Option String) : transcribePython env n audioPath language ≠ .pending :=
  foldl_step_outcome_ne_pending _ _ (Or.inr (h n _))

theorem hindiEnv_settles : ∀ n args, ∃ e ∈ hindiEnv.spawn n args, e.isData = false :=
  fun _ _ => ⟨.close (some 0), by simp [hindiEnv], rfl⟩

/-- C11, as stated, fails: the engine prints `{}`, which has no transcription
field, and exits with code 0; the single-file handler answers with status 200
and `success: true`, and the body of the batch loop builds a `success: true`
item. -/
theorem engine_run_empty_object :
    JSONparse (trim "\x7b\x7d\n") = some (.object []) ∧
    (∃ r data, singleHandler emptyObjectEnv sampleClock hindiRequest = some r ∧
      r.response = { status := 200, body := .single true data } ∧
      data.transcription = .undefined) ∧
    (∃ entry, batchEntry (sampleFile "one.wav" "uploads/audio-1700000000000-11.wav") "en"
        (transcribePython emptyObjectEnv 0 "uploads/audio-1700000000000-11.wav" (some "en")) =
        some entry ∧
      entry.success = true ∧ entry.transcription = some .undefined) :=
  ⟨rfl, ⟨_, _, rfl, rfl, rfl⟩, ⟨_, rfl, rfl, rfl⟩⟩

/-- C11 (amended) at a run printing a transcription and exiting with code 0. -/
theorem engine_run_success_iff_witness :
    (∃ res, singleHandler hindiEnv sampleClock hindiRequest = some res ∧
      (res.response.body.success = true ↔
        ProcEvent.close (some 0) = .close (some 0) ∧
          ∃ v, JSONparse (trim (concatChunks (stdoutChunks
            [.stdoutData "\x7b\"transcription\":\"नमस्ते\"\x7d"]))) = some v ∧ v ≠ .null)) ∧
    (∃ entry, batchEntry hindiFile "hi"
        (runAdapter ([.stdoutData "\x7b\"transcription\":\"नमस्ते\"\x7d"] ++
          ProcEvent.close (some 0) :: [])).outcome = some entry ∧
      (entry.success = true ↔
        ProcEvent.close (some 0) = .close (some 0) ∧
          ∃ v, JSONparse (trim (concatChunks (stdoutChunks
            [.stdoutData "\x7b\"transcription\":\"नमस्ते\"\x7d"]))) = some v ∧ v ≠ .null)) :=
  engine_run_success_iff hindiEnv sampleClock hindiRequest
    hindiFile "hi"
    [.stdoutData "\x7b\"transcription\":\"नमस्ते\"\x7d"] [] (.close (some 0))
    rfl (by decide) rfl rfl

/-- C13, as stated, fails: the engine call resolves with the payload `null`
and the handler answers with status 500; and a request whose `language` field
is the empty string is answered with `data.language = 'en'`. -/
theorem single_null_payload :
    transcribePython nullOutputEnv 0 hindiFile.path (some "hi") = .resolved .null ∧
    (∃ r, singleHandler nullOutputEnv sampleClock hindiRequest = some r ∧
      r.response =
        { status := 500,
          body := .failure false "Cannot read properties of null (reading 'transcription')" }) ∧
    (∃ r data, singleHandler hindiEnv sampleClock emptyLanguageRequest = some r ∧
      r.response = { status := 200, body := .single true data } ∧
      emptyLanguageRequest.language = some "" ∧ data.language = "en") :=
  ⟨rfl, ⟨_, rfl, rfl⟩, ⟨_, _, rfl, rfl, rfl, rfl⟩⟩

/-- C13 (amended) at the upload of a 10 MB `.wav` file with language `hi` and
an engine printing a Hindi transcription. -/
theorem single_success_response_witness :
    ∃ res data t, singleHandler hindiEnv sampleClock hindiRequest = some res ∧
      res.response = { status := 200, body := .single true data } ∧
      getProp (.object [("transcription", .string "नमस्ते")]) "transcription" = .ok t ∧
      data.transcription = t ∧
      data.originalFilename = hindiFile.originalname ∧
      data.fileSize = hindiFile.size ∧
      data.processingTime = ((sampleClock 1 - sampleClock 0 : Int) : ℚ) / 1000 ∧
      (∀ code : String, hindiRequest.language = some code → code ≠ "" →
        data.language = code) ∧
      (hindiRequest.language = none ∨ hindiRequest.language = some "" →
        data.language = "en") :=
  single_success_response hindiEnv sampleClock hindiRequest hindiFile
    (.object [("transcription", .string "नमस्ते")]) rfl rfl (by simp)

/-- C14 at an upload whose engine cannot be started. -/
theorem single_engine_failure_witness :
    ∃ r, singleHandler unavailableEnv sampleClock hindiRequest = some r ∧
      r.response.status = 500 ∧
      r.response.body = .failure false "Failed to start Python process: spawn python ENOENT" :=
  single_engine_failure unavailableEnv sampleClock hindiRequest hindiFile
    "Failed to start Python process: spawn python ENOENT" rfl rfl

/-- C15 fails on the code: the upload of `notes.txt` is answered with status
500, not 400, on both routes; the body is `{success: false, error: m}` with
`m` naming the allowed extensions. -/
theorem invalid_type_answered_with_500 :
    (∃ r, postTranscribe hindiEnv sampleStaging sampleClock textUpload = some r ∧
      r.response =
        { status := 500,
          body := .failure false
            "Invalid file type. Allowed: .wav, .mp3, .flac, .m4a, .ogg, .aac" }) ∧
    (∃ r, postTranscribeBatch hindiEnv sampleStaging textUpload = some r ∧
      r.response =
        { status := 500,
          body := .failure false
            "Invalid file type. Allowed: .wav, .mp3, .flac, .m4a, .ogg, .aac" }) :=
  ⟨⟨_, rfl, rfl⟩, ⟨_, rfl, rfl⟩⟩

/-- C16 at the upload of a `.mp3` file of 60 MB. -/
theorem file_too_large_rejected_witness :
    fileSizeLimit = 52428800 ∧
    (∃ p ∈ largeUpload.parts, 52428800 < p.size) ∧
    errorMiddleware (.multerError "LIMIT_FILE_SIZE" "File too large") =
      { status := 400, body := .failure false "File too large. Maximum size is 50MB." } ∧
    (1 = 1 → ∃ r, postTranscribe hindiEnv sampleStaging sampleClock largeUpload = some r ∧
      r.response =
        { status := 400, body := .failure false "File too large. Maximum size is 50MB." }) ∧
    (1 = 10 → ∃ r, postTranscribeBatch hindiEnv sampleStaging largeUpload = some r ∧
      r.response =
        { status := 400, body := .failure false "File too large. Maximum size is 50MB." }) :=
  file_too_large_rejected hindiEnv sampleStaging sampleClock largeUpload 1 "File too large" rfl

/-- C18 at the upload of a text file. -/
theorem validation_short_circuits_witness :
    (∃ r, postTranscribe hindiEnv sampleStaging sampleClock textUpload = some r ∧
      r.spawned = [] ∧ (∀ args, Effect.spawn args ∉ r.effects) ∧
      r.response.body.success = false) ∧
    (∃ r, postTranscribeBatch hindiEnv sampleStaging textUpload = some r ∧
      r.spawned = [] ∧ (∀ args, Effect.spawn args ∉ r.effects) ∧
      r.response.body.success = false) :=
  validation_short_circuits hindiEnv sampleStaging sampleClock textUpload
    (Or.inr (Or.inr ⟨_, List.mem_cons_self _ _, by decide, Or.inl ⟨_, rfl⟩⟩))

/-- C19 at a single upload and at a batch of three files whose second engine
call fails. -/
theorem cleanup_scheduled_on_every_path_witness :
    (∃ r, singleHandler decodeErrorEnv sampleClock hindiRequest = some r ∧
      r.timers = [{ delay := 1000, paths := [hindiFile.path] }] ∧
      r.effects = r.spawned.map Effect.spawn ++
        [.respond r.response, .setTimeout { delay := 1000, paths := [hindiFile.path] }]) ∧
    (∃ r, batchHandler decodeErrorEnv threeFiles = some r ∧
      r.timers = [{ delay := 1000, paths := threeFiles.fileList.map (fun f => f.path) }] ∧
      r.effects = r.spawned.map Effect.spawn ++
        [.respond r.response,
         .setTimeout { delay := 1000, paths := threeFiles.fileList.map (fun f => f.path) }]) :=
  cleanup_scheduled_on_every_path decodeErrorEnv sampleClock hindiRequest hindiFile threeFiles
    threeFiles.fileList rfl (by decide)
    (transcribePython_ne_pending _ decodeErrorEnv_settles _ _ _) rfl (List.cons_ne_nil _ _)
    (fun i file _ => engineOutcome_ne_pending _ _ decodeErrorEnv_settles i file)

/-! ## Static endpoints, envelopes and errors -/

/-- C23: the health endpoint is a constant: whatever the request, and after
any list of earlier requests to any route, it answers with status 200 and the
same payload `{success: true, service, version, status: 'healthy',
supportedFormats, maxFileSize}`; it starts no process and sets no timer, so
it changes nothing. -/
theorem health_is_constant (env : Env) (earlier : List ServerRequest)
    (req other : HttpRequest) :
    healthHandler req = healthHandler other ∧
    (healthHandler req).response =
      { status := 200,
        body := .health true "Audio Transcription Backend" "1.0.0" "healthy"
          [".wav", ".mp3", ".flac", ".m4a", ".ogg", ".aac"] "50MB" } ∧
    (healthHandler req).spawned = [] ∧
    (healthHandler req).timers = [] ∧
    (healthHandler req).effects = [.respond (healthHandler req).response] ∧
    (serveAll env (earlier ++ [.health req])).getLast? = some (some (healthHandler other)) ∧
    (serveAll env (earlier ++ [.health req, .health other])).take earlier.length =
      serveAll env earlier := by
  refine ⟨rfl, rfl, rfl, rfl, rfl, ?_, ?_⟩
  · simp [serveAll, serve, healthHandler]
  · simp [serveAll]

theorem singleHandler_statusMatchesSuccess (env : Env) (now : Nat → Int) (req : SingleRequest)
    (r : HandlerResult) (h : singleHandler env now req = some r) :
    r.response.statusMatchesSuccess := by
  unfold singleHandler at h
  cases hf : req.file with
  | none =>
    simp only [hf, Option.some.injEq] at h
    rw [← h]
    simp [Response.statusMatchesSuccess, ResponseBody.success]
  | some file =>
    simp only [hf] at h
    cases ho : transcribePython env 0 file.path (some (orDefault req.language "en")) with
    | pending => rw [ho] at h; simp at h
    | rejected m =>
      rw [ho] at h
      simp only [Option.some.injEq] at h
      rw [← h]
      simp [Response.statusMatchesSuccess, ResponseBody.success]
    | resolved result =>
      rw [ho] at h
      cases hg : getProp result "transcription" with
      | ok t =>
        simp only [hg, Option.some.injEq] at h
        rw [← h]
        simp [Response.statusMatchesSuccess, ResponseBody.success]
      | error m =>
        simp only [hg, Option.some.injEq] at h
        rw [← h]
        simp [Response.statusMatchesSuccess, ResponseBody.success]

theorem batchHandler_statusMatchesSuccess (env : Env) (req : BatchRequest)
    (r : HandlerResult) (h : batchHandler env req = some r) :
    r.response.statusMatchesSuccess := by
  unfold batchHandler at h
  cases hf : req.files with
  | none =>
    simp only [hf, Option.some.injEq] at h
    rw [← h]
    simp [Response.statusMatchesSuccess, ResponseBody.success]
  | some files =>
    simp only [hf] at h
    split_ifs at h
    · simp only [Option.some.injEq] at h
      rw [← h]
      simp [Response.statusMatchesSuccess, ResponseBody.success]
    · split at h
      · simp at h
      · simp only [Option.some.injEq] at h
        rw [← h]
        simp [Response.statusMatchesSuccess, ResponseBody.success]

theorem errorMiddleware_statusMatchesSuccess (err : RequestError) :
    (errorMiddleware err).statusMatchesSuccess := by
  cases err with
  | error m => simp [errorMiddleware, Response.statusMatchesSuccess, ResponseBody.success]
  | multerError code m =>
    simp only [errorMiddleware]
    split_ifs <;> simp [Response.statusMatchesSuccess, ResponseBody.success]

theorem serve_statusMatchesSuccess (env : Env) (sreq : ServerRequest) (r : HandlerResult)
    (h : serve env sreq = some r) : r.response.statusMatchesSuccess := by
  cases sreq with
  | health req =>
    simp only [serve, Option.some.injEq] at h
    rw [← h]
    simp [healthHandler, Response.statusMatchesSuccess, ResponseBody.success]
  | languages req =>
    simp only [serve, Option.some.injEq] at h
    rw [← h]
    simp [languagesHandler, Response.statusMatchesSuccess, ResponseBody.success]
  | transcribe staging now req =>
    simp only [serve, postTranscribe] at h
    split at h
    · simp only [Option.some.injEq] at h
      rw [← h]
      exact errorMiddleware_statusMatchesSuccess _
    · exact singleHandler_statusMatchesSuccess _ _ _ _ h
    · exact singleHandler_statusMatchesSuccess _ _ _ _ h
  | batch staging req =>
    simp only [serve, postTranscribeBatch] at h
    split at h
    · simp only [Option.some.injEq] at h
      rw [← h]
      exact errorMiddleware_statusMatchesSuccess _
    · exact batchHandler_statusMatchesSuccess _ _ _ h

/-- C24: every response of the server, on the four routes with the upload
middleware and the error-handling middleware, and of either handler and of
either `catch` block taken alone, is an envelope with a boolean `success`
whose status is 200, 400 or 500; `success` is `false` exactly when the status
is 400 or 500 and `true` exactly when it is 200. -/
theorem envelope_success_matches_status (env : Env) :
    (∀ (sreq : ServerRequest) (r : HandlerResult), serve env sreq = some r →
      r.response.statusMatchesSuccess) ∧
    (∀ (now : Nat → Int) (req : SingleRequest) (r : HandlerResult),
      singleHandler env now req = some r → r.response.statusMatchesSuccess) ∧
    (∀ (req : BatchRequest) (r : HandlerResult),
      batchHandler env req = some r → r.response.statusMatchesSuccess) ∧
    (∀ req : HttpRequest, (healthHandler req).response.statusMatchesSuccess ∧
      (languagesHandler req).response.statusMatchesSuccess) ∧
    (∀ err : RequestError, (errorMiddleware err).statusMatchesSuccess) ∧
    (∀ message : String, (catchResponse message).statusMatchesSuccess) := by
  refine ⟨serve_statusMatchesSuccess env, singleHandler_statusMatchesSuccess env,
    batchHandler_statusMatchesSuccess env, ?_, errorMiddleware_statusMatchesSuccess, ?_⟩
  · intro req
    exact ⟨serve_statusMatchesSuccess env (.health req) _ rfl,
      serve_statusMatchesSuccess env (.languages req) _ rfl⟩
  · intro message
    simp [catchResponse, Response.statusMatchesSuccess, ResponseBody.success]

/-- C25: the error-handling middleware answers with status 400 if and only if
the error is a `MulterError` with code `LIMIT_FILE_SIZE`, and every other
error with status 500 and the body `{success: false, error: err.message}`; the
`catch` block of either handler sends that same status and body, with nothing
else, and the single-file handler reaches it for a rejected engine call and
for the `TypeError` of `result.transcription`. -/
theorem unhandled_errors_answered_with_500 (env : Env) (now : Nat → Int)
    (req : SingleRequest) (file : MulterFile) (err : RequestError) :
    ((errorMiddleware err).status = 400 ↔ ∃ m, err = .multerError "LIMIT_FILE_SIZE" m) ∧
    ((¬ ∃ m, err = .multerError "LIMIT_FILE_SIZE" m) →
      errorMiddleware err = { status := 500, body := .failure false err.message }) ∧
    (∀ message : String,
      catchResponse message = { status := 500, body := .failure false message }) ∧
    (∀ m : String, req.file = some file →
      transcribePython env 0 file.path (some (orDefault req.language "en")) = .rejected m →
      ∃ r, singleHandler env now req = some r ∧ r.response = catchResponse m) ∧
    (∀ (result : JSValue) (m : String), req.file = some file →
      transcribePython env 0 file.path (some (orDefault req.language "en")) =
        .resolved result →
      getProp result "transcription" = .error m →
      ∃ r, singleHandler env now req = some r ∧ r.response = catchResponse m) := by
  refine ⟨?_, ?_, fun _ => rfl, ?_, ?_⟩
  · cases err with
    | error m => simp [errorMiddleware]
    | multerError code m =>
      simp only [errorMiddleware]
      split_ifs with hc
      · simp [hc]
      · simp [hc]
  · intro hne
    cases err with
    | error m => rfl
    | multerError code m =>
      simp only [errorMiddleware]
      split_ifs with hc
      · exact absurd ⟨m, by rw [hc]⟩ hne
      · rfl
  · intro m hfile hfail
    exact ⟨_, singleHandler_of_rejected env now req file m hfile hfail, rfl⟩
  · intro result m hfile hres hget
    have h := singleHandler_of_resolved env now req file result hfile hres
    simp only [hget] at h
    exact ⟨_, h, rfl⟩

theorem fileFilter_ok_iff (file : MulterFile) :
    fileFilter file = .ok true ↔ toLowerCase (extname file.originalname) ∈ allowedTypes := by
  unfold fileFilter
  by_cases h : allowedTypes.contains (toLowerCase (extname file.originalname)) = true
  · simp only [h, if_true, true_iff]
    simpa using h
  · simp only [h]
    simp only [Bool.false_eq_true, if_false, false_iff, reduceCtorEq]
    intro hin
    exact h (by simpa using hin)

/-- C29: the list `supportedFormats` of the health endpoint is the list
`allowedTypes` of `fileFilter`, the same six extensions in the same order, so
`fileFilter` accepts a file exactly when its lower-cased extension is in
`supportedFormats`; and the advertised `maxFileSize` is `'50MB'`, the size
limit `50 * 1024 * 1024` in units of `1024 * 1024` bytes. -/
theorem health_agrees_with_enforcement (req : HttpRequest) :
    ∃ formats maxFileSize,
      (healthHandler req).response.body =
        .health true "Audio Transcription Backend" "1.0.0" "healthy" formats maxFileSize ∧
      formats = allowedTypes ∧
      formats = [".wav", ".mp3", ".flac", ".m4a", ".ogg", ".aac"] ∧
      (∀ file : MulterFile,
        fileFilter file = .ok true ↔ toLowerCase (extname file.originalname) ∈ formats) ∧
      maxFileSize = "50MB" ∧
      fileSizeLimit = 50 * 1024 * 1024 ∧
      toString (fileSizeLimit / (1024 * 1024)) ++ "MB" = maxFileSize :=
  ⟨_, _, rfl, rfl, rfl, fileFilter_ok_iff, rfl, rfl, by decide⟩

/-- C27: the promise of `transcribePython` is settled once: in every run, the
outcome is the one determined by the first `close` or `error` event and the
data that came before it, whatever events follow. -/
theorem outcome_settled_once (env : Env) (n : Nat) (audioPath : String)
    (language : Option String) (pre post : List ProcEvent) (e : ProcEvent)
    (hpre : ∀ x ∈ pre, x.isData = true) (he : e.isData = false)
    (hrun : env.spawn n (pythonArgs env audioPath language) = pre ++ e :: post) :
    transcribePython env n audioPath language = (runAdapter (pre ++ [e])).outcome ∧
    transcribePython env n audioPath language ≠ .pending ∧
    (∀ later : List ProcEvent,
      (runAdapter (pre ++ e :: later)).outcome = transcribePython env n audioPath language) ∧
    (∀ m, e = .error m →
      transcribePython env n audioPath language =
        .rejected ("Failed to start Python process: " ++ m)) ∧
    (∀ code, e = .close code →
      transcribePython env n audioPath language =
        closeResult { outputData := concatChunks (stdoutChunks pre),
                      errorData := concatChunks (stderrChunks pre),
                      outcome := .pending } code) := by
  have hout : transcribePython env n audioPath language =
      (runAdapter (pre ++ e :: post)).outcome := by
    unfold transcribePython
    rw [hrun]
  have hany : ∀ later later' : List ProcEvent,
      (runAdapter (pre ++ e :: later)).outcome = (runAdapter (pre ++ e :: later')).outcome := by
    intro later later'
    cases e with
    | stdoutData c => simp [ProcEvent.isData] at he
    | stderrData c => simp [ProcEvent.isData] at he
    | error m => rw [runAdapter_error pre later m hpre, runAdapter_error pre later' m hpre]
    | close code =>
      rw [runAdapter_close pre later code hpre, runAdapter_close pre later' code hpre]
  refine ⟨?_, ?_, ?_, ?_, ?_⟩
  · rw [hout]
    exact hany post []
  · rw [hout]
    exact foldl_step_outcome_ne_pending _ _
      (Or.inr ⟨e, by simp, he⟩)
  · intro later
    rw [hout]
    exact hany later post
  · intro m hm
    subst hm
    rw [hout, runAdapter_error pre post m hpre]
  · intro code hc
    subst hc
    rw [hout, runAdapter_close pre post code hpre]

/-- C27 at a process that cannot be started and then closes with a nonzero
code. -/
theorem outcome_settled_once_witness :
    transcribePython errorThenCloseEnv 0 "uploads/audio-1700000000000-11.wav" (some "en") =
      .rejected "Failed to start Python process: spawn python ENOENT" :=
  (outcome_settled_once errorThenCloseEnv 0 "uploads/audio-1700000000000-11.wav" (some "en")
    [] [.close (some (-2))] (.error "spawn python ENOENT") (by simp) rfl rfl).2.2.2.1 _ rfl

/-! ## Dispatch of the engine calls -/

theorem orDefault_ne_empty (x : Option String) : orDefault x "en" ≠ "" := by
  unfold orDefault
  cases x with
  | none => decide
  | some s =>
    simp only []
    split_ifs with h
    · decide
    · exact h

theorem orDefault_of_empty (x : Option String) (h : x = none ∨ x = some "") :
    orDefault x "en" = "en" := by
  rcases h with h | h <;> simp [h, orDefault]

theorem orDefault_of_code (x : Option String) (code : String) (h : x = some code)
    (hne : code ≠ "") : orDefault x "en" = code := by
  simp [h, orDefault, hne]

/-- The single-file handler once the engine call has settled: one call of
`spawn`, and the language of a success response is the language passed. -/
theorem singleHandler_of_settled (env : Env) (now : Nat → Int) (req : SingleRequest)
    (file : MulterFile) (hfile : req.file = some file)
    (hsettle : transcribePython env 0 file.path (some (orDefault req.language "en")) ≠
      .pending) :
    ∃ r, singleHandler env now req = some r ∧
      r.spawned = [pythonArgs env file.path (some (orDefault req.language "en"))] ∧
      (∀ data, r.response.body = .single true data →
        data.language = orDefault req.language "en") := by
  cases ho : transcribePython env 0 file.path (some (orDefault req.language "en")) with
  | pending => exact absurd ho hsettle
  | rejected m =>
    refine ⟨_, singleHandler_of_rejected env now req file m hfile ho, rfl, ?_⟩
    intro data hd
    simp at hd
  | resolved result =>
    refine ⟨_, singleHandler_of_resolved env now req file result hfile ho, rfl, ?_⟩
    intro data hd
    cases hg : getProp result "transcription" with
    | error m =>
      simp only [hg] at hd
      simp at hd
    | ok t =>
      simp only [hg] at hd
      simp only [ResponseBody.single.injEq, true_and] at hd
      rw [← hd]

theorem batchEntry_language (file : MulterFile) (language : String) (o : PromiseState)
    (entry : BatchEntry) (h : batchEntry file language o = some entry)
    (hs : entry.success = true) : entry.language = some language := by
  cases o with
  | pending => simp [batchEntry] at h
  | rejected m =>
    simp only [batchEntry, Option.some.injEq] at h
    rw [← h] at hs
    simp at hs
  | resolved v =>
    simp only [batchEntry] at h
    cases hg : getProp v "transcription" with
    | error m =>
      simp only [hg, Option.some.injEq] at h
      rw [← h] at hs
      simp at hs
    | ok t =>
      simp only [hg, Option.some.injEq] at h
      rw [← h]

/-- C28: every engine call made by either handler gets a non-empty language:
a language field, or an entry of the batch list, that is missing or the empty
string is replaced by `'en'`, and every other string is passed unchanged,
whether the catalog of `/api/languages` lists it or not; the argument list is
always `[script, path, language]`, and a success response or success item
carries that same language. -/
theorem language_argument_never_empty (env : Env) (now : Nat → Int)
    (single : SingleRequest) (file : MulterFile) (batch : BatchRequest)
    (files : List MulterFile)
    (hfile : single.file = some file)
    (hsingle : transcribePython env 0 file.path (some (orDefault single.language "en")) ≠
      .pending)
    (hfiles : batch.files = some files) (hne : files ≠ [])
    (hbatch : ∀ i f, files[i]? = some f → engineOutcome env batch i f ≠ .pending) :
    (∃ r language, singleHandler env now single = some r ∧
      language ≠ "" ∧
      r.spawned = [[env.pythonScript, file.path, language]] ∧
      (single.language = none ∨ single.language = some "" → language = "en") ∧
      (∀ code : String, single.language = some code → code ≠ "" → language = code) ∧
      (∀ data, r.response.body = .single true data → data.language = language)) ∧
    (∃ r summary results, batchHandler env batch = some r ∧
      r.response.body = .batch true summary results ∧
      ∀ (i : Nat) (f : MulterFile), files[i]? = some f →
        ∃ language : String, language ≠ "" ∧
          r.spawned[i]? = some [env.pythonScript, f.path, language] ∧
          ((suppliedCodes batch.languages)[i]? = none ∨
            (suppliedCodes batch.languages)[i]? = some "" → language = "en") ∧
          (∀ code : String, (suppliedCodes batch.languages)[i]? = some code → code ≠ "" →
            language = code) ∧
          (∀ entry : BatchEntry, results[i]? = some entry → entry.success = true →
            entry.language = some language)) := by
  constructor
  · obtain ⟨r, hr, hsp, hdata⟩ := singleHandler_of_settled env now single file hfile hsingle
    refine ⟨r, orDefault single.language "en", hr, orDefault_ne_empty _, ?_,
      orDefault_of_empty _, fun code h hc => orDefault_of_code _ code h hc, hdata⟩
    rw [hsp, pythonArgs_of_ne_empty env _ _ (orDefault_ne_empty _)]
  · refine ⟨_, _, _, batchHandler_eq env batch files hfiles hne hbatch, rfl, ?_⟩
    intro i f hi
    have hl : itemLanguage batch i = orDefault (suppliedCodes batch.languages)[i]? "en" := by
      unfold itemLanguage
      exact orDefault_batchLanguages _ _
    refine ⟨itemLanguage batch i, ?_, ?_, ?_, ?_, ?_⟩
    · rw [hl]
      exact orDefault_ne_empty _
    · simp only [List.getElem?_map, List.getElem?_enum, hi, Option.map_some']
      rw [pythonArgs_of_ne_empty env _ _ (by rw [hl]; exact orDefault_ne_empty _)]
    · intro h
      rw [hl]
      exact orDefault_of_empty _ h
    · intro code h hc
      rw [hl]
      exact orDefault_of_code _ code h hc
    · intro entry hentry hs
      rw [getElem?_results env batch files hbatch i f hi] at hentry
      exact batchEntry_language _ _ _ _ hentry hs

/-- The calls of `spawn` made by a loop that ends are those of the trace. -/
theorem batchLoop_spawned (env : Env) (languages : List String) :
    ∀ (files : List MulterFile) (i : Nat) (st st1 : BatchLoopState),
      batchLoop env languages i files st = some st1 →
      st1.spawned = st.spawned ++ batchSpawnTrace env languages i files := by
  intro files
  induction files with
  | nil =>
    intro i st st1 h
    simp only [batchLoop, Option.some.injEq] at h
    simp [batchSpawnTrace, h]
  | cons file rest ih =>
    intro i st st1 h
    unfold batchLoop at h
    simp only [] at h
    cases ho : transcribePython env i file.path (some (orDefault languages[i]? "en")) with
    | pending =>
      rw [ho] at h
      simp [batchEntry] at h
    | rejected m =>
      rw [ho] at h
      simp only [batchEntry] at h
      rw [ih _ _ _ h]
      simp [batchSpawnTrace, ho]
    | resolved v =>
      rw [ho] at h
      simp only [batchEntry] at h
      cases hg : getProp v "transcription" with
      | ok t =>
        simp only [hg] at h
        rw [ih _ _ _ h]
        simp [batchSpawnTrace, ho]
      | error m =>
        simp only [hg] at h
        rw [ih _ _ _ h]
        simp [batchSpawnTrace, ho]

/-- The call for an item follows only once the promise of the item before it
has settled. -/
theorem batchSpawnTrace_sequential (env : Env) (languages : List String) :
    ∀ (files : List MulterFile) (i j : Nat) (f : MulterFile),
      files[j]? = some f → j + 1 < (batchSpawnTrace env languages i files).length →
      transcribePython env (i + j) f.path (some (orDefault languages[i + j]? "en")) ≠
        .pending := by
  intro files
  induction files with
  | nil => intro i j f hj; simp at hj
  | cons file rest ih =>
    intro i j f hj hlen
    cases j with
    | zero =>
      simp only [List.getElem?_cons_zero, Option.some.injEq] at hj
      subst hj
      intro hp
      rw [Nat.add_zero] at hp
      unfold batchSpawnTrace at hlen
      simp only [hp, List.length_cons, List.length_nil] at hlen
      omega
    | succ j =>
      simp only [List.getElem?_cons_succ] at hj
      have hrest : j + 1 < (batchSpawnTrace env languages (i + 1) rest).length := by
        unfold batchSpawnTrace at hlen
        simp only [List.length_cons] at hlen
        cases ho : transcribePython env i file.path (some (orDefault languages[i]? "en")) with
        | pending => rw [ho] at hlen; simp at hlen
        | rejected m => rw [ho] at hlen; simp only [] at hlen; omega
        | resolved v => rw [ho] at hlen; simp only [] at hlen; omega
      have := ih (i + 1) j f hj hrest
      rwa [show i + 1 + j = i + (j + 1) by omega] at this

/-- C26: a single-mode request with an accepted file makes exactly one engine
call, whatever its outcome; a batch of `N` files makes exactly `N` engine
calls, one per file, in the order of the files, each with the staged path and
the language of its item; the call for an item is made only when the call for
the item before it has completed, successfully or not, and no call is made a
second time. -/
theorem one_engine_call_per_file (env : Env) (now : Nat → Int)
    (single : SingleRequest) (file : MulterFile) (batch : BatchRequest)
    (files : List MulterFile)
    (hfile : single.file = some file)
    (hsingle : transcribePython env 0 file.path (some (orDefault single.language "en")) ≠
      .pending)
    (hfiles : batch.files = some files) (hne : files ≠ [])
    (hbatch : ∀ i f, files[i]? = some f → engineOutcome env batch i f ≠ .pending) :
    (∃ r, singleHandler env now single = some r ∧
      r.spawned = [pythonArgs env file.path (some (orDefault single.language "en"))]) ∧
    (∃ r, batchHandler env batch = some r ∧
      r.spawned.length = files.length ∧
      r.spawned = batchSpawnTrace env (batchLanguages batch.languages) 0 files ∧
      ∀ (i : Nat) (f : MulterFile), files[i]? = some f →
        r.spawned[i]? = some (pythonArgs env f.path (some (itemLanguage batch i)))) ∧
    (∀ (other : List MulterFile) (j : Nat) (f : MulterFile), other[j]? = some f →
      j + 1 < (batchSpawnTrace env (batchLanguages batch.languages) 0 other).length →
      engineOutcome env batch j f ≠ .pending) := by
  refine ⟨?_, ?_, ?_⟩
  · obtain ⟨r, hr, hsp, _⟩ := singleHandler_of_settled env now single file hfile hsingle
    exact ⟨r, hr, hsp⟩
  · have heq := batchHandler_eq env batch files hfiles hne hbatch
    refine ⟨_, heq, ?_, ?_, ?_⟩
    · simp [List.enum]
    · have hlen : ¬ files.length = 0 := fun h => hne (List.length_eq_zero.1 h)
      have hh := heq
      unfold batchHandler at hh
      simp only [hfiles, hlen, if_false] at hh
      cases hl : batchLoop env (batchLanguages batch.languages) 0 files
          { filePaths := [], results := [], spawned := [] } with
      | none => rw [hl] at hh; simp at hh
      | some st =>
        rw [hl] at hh
        simp only [Option.some.injEq] at hh
        have hsp := batchLoop_spawned env _ files 0 _ st hl
        simp only [List.nil_append] at hsp
        have := congrArg HandlerResult.spawned hh
        simp only [] at this
        rw [← this, hsp]
    · intro i f hi
      simp only [List.getElem?_map, List.getElem?_enum, hi, Option.map_some']
  · intro other j f hj hlen
    have := batchSpawnTrace_sequential env (batchLanguages batch.languages) other 0 j f hj hlen
    simpa [engineOutcome, itemLanguage] using this

/-- C28 at a single upload asking for the language `tlh`, which the catalog
does not list, and at a batch of three files with two language codes. -/
theorem language_argument_never_empty_witness :
    "tlh" ∉ catalogCodes ∧ klingonRequest.language = some "tlh" ∧
    ((∃ r language, singleHandler hindiEnv sampleClock klingonRequest = some r ∧
      language ≠ "" ∧
      r.spawned = [[hindiEnv.pythonScript, hindiFile.path, language]] ∧
      (klingonRequest.language = none ∨ klingonRequest.language = some "" →
        language = "en") ∧
      (∀ code : String, klingonRequest.language = some code → code ≠ "" →
        language = code) ∧
      (∀ data, r.response.body = .single true data → data.language = language)) ∧
    (∃ r summary results, batchHandler hindiEnv threeFiles = some r ∧
      r.response.body = .batch true summary results ∧
      ∀ (i : Nat) (f : MulterFile), threeFiles.fileList[i]? = some f →
        ∃ language : String, language ≠ "" ∧
          r.spawned[i]? = some [hindiEnv.pythonScript, f.path, language] ∧
          ((suppliedCodes threeFiles.languages)[i]? = none ∨
            (suppliedCodes threeFiles.languages)[i]? = some "" → language = "en") ∧
          (∀ code : String, (suppliedCodes threeFiles.languages)[i]? = some code →
            code ≠ "" → language = code) ∧
          (∀ entry : BatchEntry, results[i]? = some entry → entry.success = true →
            entry.language = some language))) :=
  ⟨by decide, rfl,
    language_argument_never_empty hindiEnv sampleClock klingonRequest hindiFile threeFiles
      threeFiles.fileList rfl (transcribePython_ne_pending _ hindiEnv_settles _ _ _) rfl
      (List.cons_ne_nil _ _)
      (fun i f _ => engineOutcome_ne_pending _ _ hindiEnv_settles i f)⟩

/-- C26 at a single upload and at a batch of three files whose second engine
call fails. -/
theorem one_engine_call_per_file_witness :
    (∃ r, singleHandler unavailableEnv sampleClock hindiRequest = some r ∧
      r.spawned =
        [pythonArgs unavailableEnv hindiFile.path
          (some (orDefault hindiRequest.language "en"))]) ∧
    (∃ r, batchHandler decodeErrorEnv threeFiles = some r ∧
      r.spawned.length = threeFiles.fileList.length ∧
      r.spawned =
        batchSpawnTrace decodeErrorEnv (batchLanguages threeFiles.languages) 0
          threeFiles.fileList ∧
      ∀ (i : Nat) (f : MulterFile), threeFiles.fileList[i]? = some f →
        r.spawned[i]? =
          some (pythonArgs decodeErrorEnv f.path (some (itemLanguage threeFiles i)))) :=
  let h := one_engine_call_per_file decodeErrorEnv sampleClock hindiRequest hindiFile
    threeFiles threeFiles.fileList rfl
    (transcribePython_ne_pending _ decodeErrorEnv_settles _ _ _) rfl (List.cons_ne_nil _ _)
    (fun i f _ => engineOutcome_ne_pending _ _ decodeErrorEnv_settles i f)
  ⟨(one_engine_call_per_file unavailableEnv sampleClock hindiRequest hindiFile
      { files := some [hindiFile], languages := .absent } [hindiFile] rfl
      (transcribePython_ne_pending _ unavailableEnv_settles _ _ _) rfl (List.cons_ne_nil _ _)
      (fun i f _ => engineOutcome_ne_pending _ _ unavailableEnv_settles i f)).1,
    h.2.1⟩

/-! ## The state of the disk after the cleanup -/

/-- One call of `cleanupFile` on a disk where the removal succeeds. -/
theorem cleanupFile_of_removable (st : CleanupState) (filePath : String)
    (hok : st.fs.unlinkError filePath = none) :
    cleanupFile st filePath =
      .ok { fs := { present := st.fs.present.filter (fun q => q ≠ filePath),
                    unlinkError := st.fs.unlinkError },
            unlinked := st.unlinked ++ (if filePath ∈ st.fs.present then [filePath] else []),
            logged := st.logged } := by
  unfold cleanupFile existsSync unlinkSync
  by_cases hp : filePath ∈ st.fs.present
  · simp only [hok, hp, decide_True, if_true, tryCatch]
  · have hfilter : st.fs.present.filter (fun q => q ≠ filePath) = st.fs.present := by
      apply List.filter_eq_self.2
      intro q hq
      have : q ≠ filePath := fun h => hp (h ▸ hq)
      simpa using this
    simp only [hp, decide_False, tryCatch, hfilter, if_false, List.append_nil, Bool.false_eq_true]

/-- The loop over the paths of a timer on a disk where every removal
succeeds. -/
theorem forEachCleanup_of_removable : ∀ (paths : List String) (st : CleanupState),
    (∀ p, st.fs.unlinkError p = none) →
    ∃ st1 removed, forEachCleanup paths st = .ok st1 ∧
      st1.unlinked = st.unlinked ++ removed ∧
      removed.Nodup ∧
      (∀ p, p ∈ removed ↔ p ∈ paths ∧ p ∈ st.fs.present) ∧
      st1.fs.present = st.fs.present.filter (fun q => q ∉ paths) ∧
      st1.logged = st.logged := by
  intro paths
  induction paths with
  | nil =>
    intro st _
    exact ⟨st, [], rfl, by simp, List.nodup_nil, by simp, by simp, rfl⟩
  | cons filePath rest ih =>
    intro st hok
    have h1 := cleanupFile_of_removable st filePath (hok filePath)
    obtain ⟨st2, removed, h2, hun, hnd, hmem, hpres, hlog⟩ := ih
      { fs := { present := st.fs.present.filter (fun q => q ≠ filePath),
                unlinkError := st.fs.unlinkError },
        unlinked := st.unlinked ++ (if filePath ∈ st.fs.present then [filePath] else []),
        logged := st.logged } hok
    have hnot : filePath ∉ removed := by
      intro h
      have := ((hmem filePath).1 h).2
      simp at this
    refine ⟨st2, (if filePath ∈ st.fs.present then [filePath] else []) ++ removed, ?_, ?_, ?_,
      ?_, ?_, hlog⟩
    · unfold forEachCleanup
      rw [h1]
      exact h2
    · rw [hun]
      simp only [List.append_assoc]
    · by_cases hp : filePath ∈ st.fs.present
      · simp only [hp, if_true, List.singleton_append]
        exact List.nodup_cons.2 ⟨hnot, hnd⟩
      · simpa [hp] using hnd
    · intro p
      by_cases hp : filePath ∈ st.fs.present
      · simp only [hp, if_true, List.singleton_append, List.mem_cons, hmem, List.mem_filter]
        constructor
        · rintro (rfl | ⟨hr, hpp, _⟩)
          · exact ⟨Or.inl rfl, hp⟩
          · exact ⟨Or.inr hr, hpp⟩
        · rintro ⟨rfl | hr, hpp⟩
          · exact Or.inl rfl
          · by_cases hpe : p = filePath
            · exact Or.inl hpe
            · exact Or.inr ⟨hr, hpp, by simpa using hpe⟩
      · simp only [hp, if_false, List.nil_append, hmem, List.mem_filter, List.mem_cons]
        constructor
        · rintro ⟨hr, hpp, _⟩
          exact ⟨Or.inr hr, hpp⟩
        · rintro ⟨rfl | hr, hpp⟩
          · exact absurd hpp hp
          · exact ⟨hr, hpp, by
              have : p ≠ filePath := fun h => hp (h ▸ hpp)
              simpa using this⟩
    · rw [hpres]
      simp only [List.filter_filter]
      apply List.filter_congr
      intro q _
      simp only [List.mem_cons, not_or, ne_eq, decide_not, Bool.and_eq_true,
        Bool.not_eq_true', decide_eq_false_iff_not, Bool.decide_and]
      by_cases h1 : q = filePath <;> by_cases h2 : q ∈ rest <;> simp [h1, h2]

/-- A valid single upload: multer stores exactly one file. -/
theorem multerParts_single_valid (staging : Staging) (part : FilePart)
    (hname : part.originalname ≠ "") (hfield : part.fieldname = "audio")
    (hfilter : fileFilter part.toFile = .ok true) (hsize : part.size ≤ fileSizeLimit) :
    multerParts staging "audio" 1 [part] [] =
      .ok [{ fieldname := part.fieldname, originalname := part.originalname,
             encoding := part.encoding, mimetype := part.mimetype, size := part.size,
             path := "uploads/" ++
               storageFilename (staging.now 0) (staging.rounded 0)
                 part.fieldname part.originalname }] := by
  unfold multerParts
  rw [if_neg hname, if_neg (by simp [hfield]), hfilter]
  simp only []
  rw [if_neg (Nat.not_lt.2 hsize)]
  simp [multerParts]

theorem uploads_path_ne_empty (name : String) : "uploads/" ++ name ≠ "" := by
  intro h
  have := congrArg String.data h
  simp at this

/-- The timer of the single-file handler once the engine call has settled. -/
theorem singleHandler_timers_of_settled (env : Env) (now : Nat → Int) (req : SingleRequest)
    (file : MulterFile) (hfile : req.file = some file) (hpath : file.path ≠ "")
    (hsettle : transcribePython env 0 file.path (some (orDefault req.language "en")) ≠
      .pending) :
    ∃ r, singleHandler env now req = some r ∧
      r.timers = [{ delay := 1000, paths := [file.path] }] := by
  cases ho : transcribePython env 0 file.path (some (orDefault req.language "en")) with
  | pending => exact absurd ho hsettle
  | rejected m =>
    exact ⟨_, singleHandler_of_rejected env now req file m hfile ho, by simp [hpath]⟩
  | resolved result =>
    exact ⟨_, singleHandler_of_resolved env now req file result hfile ho, by simp [hpath]⟩

/-- C21: on a disk where every removal succeeds, when the cleanup timer of a
request has fired none of its paths exists, each of them was unlinked at most
once, and only if it existed, and the files other than these paths are what
they were, with nothing logged.  For a valid single upload multer stages
exactly one file, the handler sets one timer for its path, and after the
timer has fired that file does not exist. -/
theorem cleanup_removes_staged_paths (timer : CleanupTimer) (st : CleanupState)
    (env : Env) (staging : Staging) (now : Nat → Int) (req : UploadRequest) (part : FilePart)
    (hok : ∀ p, st.fs.unlinkError p = none)
    (hmultipart : req.multipart = true) (hparts : req.parts = [part])
    (hname : part.originalname ≠ "") (hfield : part.fieldname = "audio")
    (hfilter : fileFilter part.toFile = .ok true) (hsize : part.size ≤ fileSizeLimit)
    (hsettle : ∀ n args, ∃ e ∈ env.spawn n args, e.isData = false) :
    (∃ st1 removed, timer.fire st = .ok st1 ∧
      st1.unlinked = st.unlinked ++ removed ∧
      removed.Nodup ∧
      (∀ p, p ∈ removed ↔ p ∈ timer.paths ∧ p ∈ st.fs.present) ∧
      (∀ p ∈ timer.paths, p ∉ st1.fs.present) ∧
      (∀ q, q ∉ timer.paths → (q ∈ st1.fs.present ↔ q ∈ st.fs.present)) ∧
      st1.fs.present = st.fs.present.filter (fun q => q ∉ timer.paths) ∧
      st1.logged = st.logged) ∧
    (∃ file r st1, multerMiddleware staging 1 req = .ok (some [file]) ∧
      postTranscribe env staging now req = some r ∧
      r.timers = [{ delay := 1000, paths := [file.path] }] ∧
      CleanupTimer.fire { delay := 1000, paths := [file.path] } st = .ok st1 ∧
      file.path ∉ st1.fs.present) := by
  have hfire : ∀ t : CleanupTimer, ∃ st1 removed, t.fire st = .ok st1 ∧
      st1.unlinked = st.unlinked ++ removed ∧
      removed.Nodup ∧
      (∀ p, p ∈ removed ↔ p ∈ t.paths ∧ p ∈ st.fs.present) ∧
      (∀ p ∈ t.paths, p ∉ st1.fs.present) ∧
      (∀ q, q ∉ t.paths → (q ∈ st1.fs.present ↔ q ∈ st.fs.present)) ∧
      st1.fs.present = st.fs.present.filter (fun q => q ∉ t.paths) ∧
      st1.logged = st.logged := by
    intro t
    obtain ⟨st1, removed, h1, hun, hnd, hmem, hpres, hlog⟩ :=
      forEachCleanup_of_removable t.paths st hok
    refine ⟨st1, removed, h1, hun, hnd, hmem, ?_, ?_, hpres, hlog⟩
    · intro p hp hin
      rw [hpres] at hin
      have := (List.mem_filter.1 hin).2
      simp at this
      exact this hp
    · intro q hq
      rw [hpres, List.mem_filter]
      constructor
      · exact fun h => h.1
      · exact fun h => ⟨h, by simpa using hq⟩
  refine ⟨hfire timer, ?_⟩
  have key : ∀ file : MulterFile, file.path ≠ "" →
      multerParts staging "audio" 1 [part] [] = .ok [file] →
      ∃ file r st1, multerMiddleware staging 1 req = .ok (some [file]) ∧
        postTranscribe env staging now req = some r ∧
        r.timers = [{ delay := 1000, paths := [file.path] }] ∧
        CleanupTimer.fire { delay := 1000, paths := [file.path] } st = .ok st1 ∧
        file.path ∉ st1.fs.present := by
    intro file hpath hstore
    have hmw : multerMiddleware staging 1 req = .ok (some [file]) := by
      unfold multerMiddleware
      rw [if_pos hmultipart, hparts, hstore]
    obtain ⟨r, hr, htimers⟩ := singleHandler_timers_of_settled env now
      { file := some file, language := req.language } file rfl hpath
      (transcribePython_ne_pending env hsettle _ _ _)
    obtain ⟨st1, _, h1, _, _, _, hgone, _, _, _⟩ :=
      hfire { delay := 1000, paths := [file.path] }
    refine ⟨file, r, st1, hmw, ?_, htimers, h1, hgone _ (by simp)⟩
    unfold postTranscribe
    rw [hmw]
    exact hr
  exact key _ (uploads_path_ne_empty _)
    (multerParts_single_valid staging part hname hfield hfilter hsize)

/-- C21 at the upload of one `.wav` file, on a disk that holds the staged file
and one other file. -/
theorem cleanup_removes_staged_paths_witness :
    (∃ st1 removed,
      CleanupTimer.fire { delay := 1000,
                          paths := ["uploads/audio-1700000000000-123456789.wav"] }
        sampleDisk = .ok st1 ∧
      st1.unlinked = sampleDisk.unlinked ++ removed ∧
      removed.Nodup ∧
      (∀ p, p ∈ removed ↔
        p ∈ ["uploads/audio-1700000000000-123456789.wav"] ∧ p ∈ sampleDisk.fs.present) ∧
      (∀ p ∈ ["uploads/audio-1700000000000-123456789.wav"], p ∉ st1.fs.present) ∧
      (∀ q, q ∉ ["uploads/audio-1700000000000-123456789.wav"] →
        (q ∈ st1.fs.present ↔ q ∈ sampleDisk.fs.present)) ∧
      st1.fs.present = sampleDisk.fs.present.filter
        (fun q => q ∉ ["uploads/audio-1700000000000-123456789.wav"]) ∧
      st1.logged = sampleDisk.logged) ∧
    (∃ file r st1, multerMiddleware sampleStaging 1 wavUpload = .ok (some [file]) ∧
      postTranscribe hindiEnv sampleStaging sampleClock wavUpload = some r ∧
      r.timers = [{ delay := 1000, paths := [file.path] }] ∧
      CleanupTimer.fire { delay := 1000, paths := [file.path] } sampleDisk = .ok st1 ∧
      file.path ∉ st1.fs.present) :=
  cleanup_removes_staged_paths
    { delay := 1000, paths := ["uploads/audio-1700000000000-123456789.wav"] } sampleDisk
    hindiEnv sampleStaging sampleClock wavUpload
    { fieldname := "audio", originalname := "namaste.wav", encoding := "7bit",
      mimetype := "audio/wav", size := 10485760 }
    (fun _ => rfl) rfl rfl (by decide) rfl (by decide) (by decide) hindiEnv_settles

/-! ## Names of the stored files -/

theorem digitChar_toNat (k : Nat) (h : k < 10) : (Nat.digitChar k).toNat - 48 = k := by
  interval_cases k <;> rfl

theorem digitChar_isDigit (k : Nat) (h : k < 10) : (Nat.digitChar k).isDigit = true := by
  interval_cases k <;> rfl

theorem foldl_toDigitsCore : ∀ (fuel n : Nat) (ds : List Char), n < fuel →
    (Nat.toDigitsCore 10 fuel n ds).foldl (fun a c => a * 10 + (c.toNat - 48)) 0 =
      ds.foldl (fun a c => a * 10 + (c.toNat - 48)) n := by
  intro fuel
  induction fuel with
  | zero => intro n ds h; omega
  | succ fuel ih =>
    intro n ds h
    unfold Nat.toDigitsCore
    simp only []
    by_cases h0 : n / 10 = 0
    · rw [if_pos h0]
      simp only [List.foldl_cons, Nat.zero_mul, Nat.zero_add]
      rw [digitChar_toNat _ (Nat.mod_lt _ (by decide))]
      congr 1
      omega
    · rw [if_neg h0]
      rw [ih (n / 10) _ (by omega)]
      simp only [List.foldl_cons]
      rw [digitChar_toNat _ (Nat.mod_lt _ (by decide))]
      congr 1
      omega

theorem toDigits_injective (n m : Nat) (h : Nat.toDigits 10 n = Nat.toDigits 10 m) : n = m := by
  have hn := foldl_toDigitsCore (n + 1) n [] (Nat.lt_succ_self _)
  have hm := foldl_toDigitsCore (m + 1) m [] (Nat.lt_succ_self _)
  unfold Nat.toDigits at h
  rw [h, hm] at hn
  simpa using hn.symm

theorem toDigitsCore_isDigit : ∀ (fuel n : Nat) (ds : List Char) (c : Char),
    c ∈ Nat.toDigitsCore 10 fuel n ds → c ∈ ds ∨ c.isDigit = true := by
  intro fuel
  induction fuel with
  | zero => intro n ds c h; exact Or.inl (by simpa [Nat.toDigitsCore] using h)
  | succ fuel ih =>
    intro n ds c h
    unfold Nat.toDigitsCore at h
    simp only [] at h
    by_cases h0 : n / 10 = 0
    · rw [if_pos h0] at h
      rcases List.mem_cons.1 h with rfl | h
      · exact Or.inr (digitChar_isDigit _ (Nat.mod_lt _ (by decide)))
      · exact Or.inl h
    · rw [if_neg h0] at h
      rcases ih _ _ _ h with h | h
      · rcases List.mem_cons.1 h with rfl | h
        · exact Or.inr (digitChar_isDigit _ (Nat.mod_lt _ (by decide)))
        · exact Or.inl h
      · exact Or.inr h

/-- The characters of the decimal form that `+` gives a number. -/
theorem toString_data (n : Nat) : (toString n).data = Nat.toDigits 10 n := rfl

theorem toString_isDigit (n : Nat) (c : Char) (h : c ∈ (toString n).data) :
    c.isDigit = true := by
  rw [toString_data] at h
  rcases toDigitsCore_isDigit _ _ _ _ h with h | h
  · simp at h
  · exact h

theorem toString_injective (n m : Nat) (h : (toString n).data = (toString m).data) : n = m :=
  toDigits_injective n m h

/-- Two lists that each start with a run of characters satisfying `p`,
followed by nothing or by a character that does not, are equal only if the
runs and the remainders are. -/
theorem append_split {p : Char → Bool} : ∀ (A A' rest rest' : List Char),
    (∀ c ∈ A, p c = true) → (∀ c ∈ A', p c = true) →
    (∀ c t, rest = c :: t → p c = false) → (∀ c t, rest' = c :: t → p c = false) →
    A ++ rest = A' ++ rest' → A = A' ∧ rest = rest' := by
  intro A
  induction A with
  | nil =>
    intro A' rest rest' _ hA' hr _ h
    cases A' with
    | nil => exact ⟨rfl, by simpa using h⟩
    | cons a t =>
      simp only [List.nil_append, List.cons_append] at h
      have := hr a _ h
      rw [hA' a (List.mem_cons_self _ _)] at this
      simp at this
  | cons a A ih =>
    intro A' rest rest' hA hA' hr hr' h
    cases A' with
    | nil =>
      simp only [List.nil_append, List.cons_append] at h
      have := hr' a _ h.symm
      rw [hA a (List.mem_cons_self _ _)] at this
      simp at this
    | cons a' t =>
      simp only [List.cons_append, List.cons.injEq] at h
      obtain ⟨h1, h2⟩ := ih t rest rest' (fun c hc => hA c (List.mem_cons_of_mem _ hc))
        (fun c hc => hA' c (List.mem_cons_of_mem _ hc)) hr hr' h.2
      exact ⟨by rw [h.1, h1], h2⟩

/-- Invariant of the scan of `path.extname`: a recorded dot position holds a
`.` and lies before the recorded end. -/
theorem extnameLoop_dot (path : List Char) :
    ∀ (n : Nat) (st : ExtnameState), n ≤ path.length →
      (st.startDot = -1 ∨ ∃ k : Nat, st.startDot = (k : Int) ∧ k < path.length ∧
        path.getD k ' ' = '.' ∧ (k : Int) + 1 ≤ st.endIdx) →
      (st.endIdx = -1 ∨ (n : Int) + 1 ≤ st.endIdx) →
      ((extnameLoop path n st).startDot = -1 ∨
        ∃ k : Nat, (extnameLoop path n st).startDot = (k : Int) ∧ k < path.length ∧
          path.getD k ' ' = '.' ∧ (k : Int) + 1 ≤ (extnameLoop path n st).endIdx) := by
  intro n
  induction n with
  | zero => intro st _ h _; simpa [extnameLoop] using h
  | succ i ih =>
    intro st hn hdot hend
    unfold extnameLoop
    simp only []
    by_cases hslash : path.getD i ' ' = '/'
    · rw [if_pos hslash]
      by_cases hm : (!st.matchedSlash) = true
      · rw [if_pos hm]; exact hdot
      · rw [if_neg hm]
        refine ih st (by omega) hdot ?_
        rcases hend with h | h
        · exact Or.inl h
        · right; push_cast at h; omega
    · rw [if_neg hslash]
      apply ih _ (by omega)
      · by_cases he : st.endIdx = -1
        · rw [if_pos he]
          by_cases hc : path.getD i ' ' = '.'
          · rw [if_pos hc]
            rcases hdot with h | ⟨k, hk, _, _, hle⟩
            · rw [if_pos (by simpa using h)]
              exact Or.inr ⟨i, rfl, by omega, hc, by simp⟩
            · omega
          · rw [if_neg hc]
            rcases hdot with h | ⟨k, hk, _, _, hle⟩
            · rw [if_neg (by simpa using h)]
              exact Or.inl h
            · omega
        · rw [if_neg he]
          have hge : (i : Int) + 2 ≤ st.endIdx := by
            rcases hend with h | h
            · exact absurd h he
            · push_cast at h; omega
          by_cases hc : path.getD i ' ' = '.'
          · rw [if_pos hc]
            by_cases hs : st.startDot = -1
            · rw [if_pos hs]
              exact Or.inr ⟨i, rfl, by omega, hc, by simp; omega⟩
            · rw [if_neg hs]
              split_ifs <;> exact hdot
          · rw [if_neg hc]
            split_ifs <;> exact hdot
      · right
        by_cases he : st.endIdx = -1
        · rw [if_pos he]
          split_ifs <;> simp
        · rw [if_neg he]
          have hge : (i : Int) + 2 ≤ st.endIdx := by
            rcases hend with h | h
            · exact absurd h he
            · push_cast at h; omega
          split_ifs <;> simp <;> omega

/-- A result of `path.extname` is empty or starts with a `.`. -/
theorem extnameChars_shape (path : List Char) :
    ∀ c t, extnameChars path = c :: t → c = '.' := by
  intro c t h
  unfold extnameChars at h
  simp only [] at h
  split_ifs at h with hcond
  push_neg at hcond
  rcases extnameLoop_dot path path.length ExtnameState.init (Nat.le_refl _) (Or.inl rfl)
    (Or.inl rfl) with h1 | ⟨k, hk, hlt, hget, hle⟩
  · exact absurd h1 hcond.1
  · rw [hk] at h
    rw [Int.toNat_ofNat, List.drop_eq_getElem_cons hlt] at h
    rw [List.getD_eq_getElem _ _ hlt] at hget
    have hpos : ∃ m,
        (extnameLoop path path.length ExtnameState.init).endIdx.toNat - k = m + 1 := by
      refine ⟨(extnameLoop path path.length ExtnameState.init).endIdx.toNat - k - 1, ?_⟩
      omega
    obtain ⟨m, hm⟩ := hpos
    rw [hm, List.take_succ_cons] at h
    rw [← hget]
    exact (List.cons.inj h).1.symm

theorem storageFilename_data (now rounded : Nat) (fieldname originalname : String) :
    (storageFilename now rounded fieldname originalname).data =
      fieldname.data ++ '-' :: ((toString now).data ++ '-' ::
        ((toString rounded).data ++ (extname originalname).data)) := by
  simp [storageFilename, String.data_append]

/-- Two names given by `filename` to files of the same field are equal exactly
when the time stamps, the random integers and the extensions are. -/
theorem storageFilename_eq_iff (now rounded now' rounded' : Nat)
    (fieldname originalname originalname' : String) :
    storageFilename now rounded fieldname originalname =
        storageFilename now' rounded' fieldname originalname' ↔
      now = now' ∧ rounded = rounded' ∧ extname originalname = extname originalname' := by
  constructor
  · intro h
    have hd := congrArg String.data h
    rw [storageFilename_data, storageFilename_data] at hd
    have h1 := List.cons.inj (List.append_cancel_left hd)
    obtain ⟨hnow, hrest⟩ := append_split (p := Char.isDigit) _ _ _ _
      (toString_isDigit now) (toString_isDigit now')
      (fun c t hc => by rw [← (List.cons.inj hc).1]; rfl)
      (fun c t hc => by rw [← (List.cons.inj hc).1]; rfl) h1.2
    obtain ⟨hrnd, hext⟩ := append_split (p := Char.isDigit) _ _ _ _
      (toString_isDigit rounded) (toString_isDigit rounded')
      (fun c t hc => by rw [extnameChars_shape _ c t hc]; rfl)
      (fun c t hc => by rw [extnameChars_shape _ c t hc]; rfl) (List.cons.inj hrest).2
    exact ⟨toString_injective _ _ hnow, toString_injective _ _ hrnd, String.ext hext⟩
  · rintro ⟨h1, h2, h3⟩
    unfold storageFilename
    rw [h1, h2, h3]

theorem uploads_path_eq_iff (a b : String) : "uploads/" ++ a = "uploads/" ++ b ↔ a = b := by
  constructor
  · intro h
    have hd := congrArg String.data h
    rw [String.data_append, String.data_append] at hd
    exact String.ext (List.append_cancel_left hd)
  · intro h; rw [h]

/-- The files that multer adds to the stored ones: each comes from a part
that `fileFilter` accepted, is in the expected field, and lies in `uploads/`
under the name that `filename` gives it at its position. -/
theorem multerParts_stored (staging : Staging) (fieldName : String) :
    ∀ (parts : List FilePart) (filesLeft : Nat) (stored files : List MulterFile),
      multerParts staging fieldName filesLeft parts stored = .ok files →
      ∃ added, files = stored ++ added ∧
        ∀ (j : Nat) (f : MulterFile), added[j]? = some f →
          (∃ part ∈ parts, fileFilter part.toFile = .ok true ∧
            f.fieldname = part.fieldname ∧ f.originalname = part.originalname) ∧
          f.fieldname = fieldName ∧
          f.path = "uploads/" ++ storageFilename (staging.now (stored.length + j))
            (staging.rounded (stored.length + j)) f.fieldname f.originalname := by
  intro parts
  induction parts with
  | nil =>
    intro filesLeft stored files h
    unfold multerParts at h
    exact ⟨[], by rw [← Except.ok.inj h, List.append_nil], fun j f hj => by simp at hj⟩
  | cons part rest ih =>
    intro filesLeft stored files h
    have lift : ∀ (left : Nat), multerParts staging fieldName left rest stored = .ok files →
        ∃ added, files = stored ++ added ∧
        ∀ (j : Nat) (f : MulterFile), added[j]? = some f →
          (∃ q ∈ part :: rest, fileFilter q.toFile = .ok true ∧
            f.fieldname = q.fieldname ∧ f.originalname = q.originalname) ∧
          f.fieldname = fieldName ∧
          f.path = "uploads/" ++ storageFilename (staging.now (stored.length + j))
            (staging.rounded (stored.length + j)) f.fieldname f.originalname := by
      intro left hl
      obtain ⟨added, hfiles, hall⟩ := ih left stored files hl
      refine ⟨added, hfiles, fun j f hj => ?_⟩
      obtain ⟨⟨q, hq, hrest⟩, h2, h3⟩ := hall j f hj
      exact ⟨⟨q, List.mem_cons_of_mem _ hq, hrest⟩, h2, h3⟩
    unfold multerParts at h
    by_cases hname : part.originalname = ""
    · rw [if_pos hname] at h
      exact lift _ h
    · rw [if_neg hname] at h
      by_cases hbad : part.fieldname ≠ fieldName ∨ filesLeft = 0
      · rw [if_pos hbad] at h
        exact absurd h (by simp)
      · rw [if_neg hbad] at h
        have hfield : part.fieldname = fieldName := by
          by_contra hc
          exact hbad (Or.inl hc)
        cases hf : fileFilter part.toFile with
        | error m => rw [hf] at h; exact absurd h (by simp)
        | ok b =>
          rw [hf] at h
          cases b with
          | false => exact lift _ h
          | true =>
            simp only [] at h
            by_cases hsize : fileSizeLimit < part.size
            · rw [if_pos hsize] at h
              exact absurd h (by simp)
            · rw [if_neg hsize] at h
              obtain ⟨added, hfiles, hall⟩ := ih _ _ files h
              refine ⟨_ :: added, by rw [hfiles, List.append_assoc]; rfl, fun j f hj => ?_⟩
              cases j with
              | zero =>
                simp only [List.getElem?_cons_zero, Option.some.injEq] at hj
                subst hj
                exact ⟨⟨part, List.mem_cons_self _ _, hf, rfl, rfl⟩, hfield, rfl⟩
              | succ j =>
                simp only [List.getElem?_cons_succ] at hj
                obtain ⟨⟨q, hq, hrest⟩, h2, h3⟩ := hall j f hj
                refine ⟨⟨q, List.mem_cons_of_mem _ hq, hrest⟩, h2, ?_⟩
                rw [h3]
                simp only [List.length_append, List.length_singleton]
                rw [show stored.length + 1 + j = stored.length + (j + 1) by omega]

theorem multerMiddleware_stored (staging : Staging) (maxCount : Nat) (req : UploadRequest)
    (files : List MulterFile) (h : multerMiddleware staging maxCount req = .ok (some files)) :
    ∀ (j : Nat) (f : MulterFile), files[j]? = some f →
      (∃ part ∈ req.parts, fileFilter part.toFile = .ok true ∧
        f.fieldname = part.fieldname ∧ f.originalname = part.originalname) ∧
      f.fieldname = "audio" ∧
      f.path = "uploads/" ++ storageFilename (staging.now j) (staging.rounded j)
        f.fieldname f.originalname := by
  unfold multerMiddleware at h
  by_cases hm : req.multipart = true
  · rw [if_pos hm] at h
    cases hp : multerParts staging "audio" maxCount req.parts [] with
    | error e => rw [hp] at h; exact absurd h (by simp)
    | ok stored =>
      rw [hp] at h
      simp only [Except.ok.injEq, Option.some.injEq] at h
      subst h
      obtain ⟨added, hfiles, hall⟩ := multerParts_stored staging "audio" _ _ _ _ hp
      rw [List.nil_append] at hfiles
      subst hfiles
      intro j f hj
      have := hall j f hj
      simpa using this
  · rw [if_neg hm] at h
    exact absurd h (by simp)

/-- C22, counterexample: two different files accepted in one batch, named
within the same millisecond with the same random integer, are stored under
one and the same name. -/
theorem same_instant_uploads_collide :
    multerMiddleware sameInstantStaging 10 twoWavUpload =
      .ok (some [namasteStored, dhanyavaadStored]) ∧
    namasteStored ≠ dhanyavaadStored ∧
    namasteStored.originalname ≠ dhanyavaadStored.originalname ∧
    namasteStored.path = dhanyavaadStored.path :=
  ⟨by decide, by decide, by decide, rfl⟩

/-- C22, amended: each file that the upload middleware stores comes from an
accepted part and lies in `uploads/` under the name `fieldname + '-' +
Date.now() + '-' + Math.round(Math.random() * 1E9) + path.extname(originalname)`;
two stored files, of one request or of two, have the same name exactly when
their time stamps, their random integers and their extensions are the same. -/
theorem storage_name_format (staging staging' : Staging) (maxCount maxCount' : Nat)
    (req req' : UploadRequest) (files files' : List MulterFile)
    (h : multerMiddleware staging maxCount req = .ok (some files))
    (h' : multerMiddleware staging' maxCount' req' = .ok (some files')) :
    (∀ (i : Nat) (f : MulterFile), files[i]? = some f →
      (∃ part ∈ req.parts, fileFilter part.toFile = .ok true ∧
        f.fieldname = part.fieldname ∧ f.originalname = part.originalname) ∧
      f.path = "uploads/" ++ (f.fieldname ++ "-" ++
        (toString (staging.now i) ++ "-" ++ toString (staging.rounded i)) ++
        extname f.originalname)) ∧
    (∀ (i j : Nat) (f g : MulterFile), files[i]? = some f → files'[j]? = some g →
      (f.path = g.path ↔
        staging.now i = staging'.now j ∧ staging.rounded i = staging'.rounded j ∧
        extname f.originalname = extname g.originalname)) := by
  refine ⟨fun i f hf => ?_, fun i j f g hf hg => ?_⟩
  · obtain ⟨hpart, _, hpath⟩ := multerMiddleware_stored staging maxCount req files h i f hf
    exact ⟨hpart, hpath⟩
  · obtain ⟨_, hfield, hpath⟩ := multerMiddleware_stored staging maxCount req files h i f hf
    obtain ⟨_, hfield', hpath'⟩ :=
      multerMiddleware_stored staging' maxCount' req' files' h' j g hg
    rw [hpath, hpath', hfield, hfield', uploads_path_eq_iff, storageFilename_eq_iff]

/-- C22 at the upload of one `.wav` file and a batch of two `.wav` files. -/
theorem storage_name_format_witness :
    multerMiddleware sampleStaging 1 wavUpload = .ok (some [namasteStored]) ∧
    multerMiddleware sameInstantStaging 10 twoWavUpload =
      .ok (some [namasteStored, dhanyavaadStored]) ∧
    ((∀ (i : Nat) (f : MulterFile), [namasteStored][i]? = some f →
      (∃ part ∈ wavUpload.parts, fileFilter part.toFile = .ok true ∧
        f.fieldname = part.fieldname ∧ f.originalname = part.originalname) ∧
      f.path = "uploads/" ++ (f.fieldname ++ "-" ++
        (toString (sampleStaging.now i) ++ "-" ++ toString (sampleStaging.rounded i)) ++
        extname f.originalname)) ∧
    (∀ (i j : Nat) (f g : MulterFile), [namasteStored][i]? = some f →
      [namasteStored, dhanyavaadStored][j]? = some g →
      (f.path = g.path ↔
        sampleStaging.now i = sameInstantStaging.now j ∧
        sampleStaging.rounded i = sameInstantStaging.rounded j ∧
        extname f.originalname = extname g.originalname))) :=
  ⟨by decide, by decide,
    storage_name_format sampleStaging sameInstantStaging 1 10 wavUpload twoWavUpload
      [namasteStored] [namasteStored, dhanyavaadStored] (by decide) (by decide)⟩

/-! ## The client hook -/

/-- When `transcribeAudio` has finished, `isLoading` is `false`, and `error`
is the message thrown, or `null` if a value was returned. -/
theorem transcribeAudio_state (fetch : FetchCall → FetchOutcome) (audioFile : String)
    (language : Option String) (before : HookState) (run : HookRun)
    (h : transcribeAudio fetch audioFile language = some run) :
    (before.after run.calls).isLoading = false ∧
    (∀ message, run.outcome = .error message →
      (before.after run.calls).error = some message) ∧
    (∀ value, run.outcome = .ok value → (before.after run.calls).error = none) := by
  unfold transcribeAudio at h
  have hcalls : ∀ calls : List HookCall,
      (∀ c ∈ calls, (∃ r, c = .fetch r) ∨ c = .json) →
      ∀ s : HookState, s.after calls = s := by
    intro calls
    induction calls with
    | nil => intro _ s; rfl
    | cons c rest ih =>
      intro hc s
      have hrest := ih (fun c hcr => hc c (List.mem_cons_of_mem _ hcr))
      unfold HookState.after at hrest ⊢
      rw [List.foldl_cons]
      rcases hc c (List.mem_cons_self _ _) with ⟨r, rfl⟩ | rfl
      · exact hrest s
      · exact hrest s
  have htry : ∀ out calls, tryBlock fetch (transcribeRequest audioFile language) =
      some (out, calls) → ∀ c ∈ calls, (∃ r, c = .fetch r) ∨ c = .json := by
    intro out calls ht
    unfold tryBlock at ht
    split at ht
    · exact absurd ht (by simp)
    · have := (Prod.mk.inj (Option.some.inj ht)).2
      subst this
      intro c hc
      simp at hc
      exact Or.inl ⟨_, hc⟩
    · have key : ∀ c ∈ [HookCall.fetch (transcribeRequest audioFile language), HookCall.json],
          (∃ r, c = HookCall.fetch r) ∨ c = HookCall.json := by
        intro c hc
        simp at hc
        rcases hc with rfl | rfl
        · exact Or.inl ⟨_, rfl⟩
        · exact Or.inr rfl
      split at ht
      · have := (Prod.mk.inj (Option.some.inj ht)).2
        subst this
        intro c hc
        simp at hc
        exact Or.inl ⟨_, hc⟩
      · split at ht
        · exact absurd ht (by simp)
        · have := (Prod.mk.inj (Option.some.inj ht)).2
          subst this; exact key
        · split at ht
          · have := (Prod.mk.inj (Option.some.inj ht)).2
            subst this; exact key
          · split at ht
            · split at ht
              · have := (Prod.mk.inj (Option.some.inj ht)).2
                subst this; exact key
              · have := (Prod.mk.inj (Option.some.inj ht)).2
                subst this; exact key
            · split at ht
              · have := (Prod.mk.inj (Option.some.inj ht)).2
                subst this; exact key
              · have := (Prod.mk.inj (Option.some.inj ht)).2
                subst this; exact key
  cases ht : tryBlock fetch (transcribeRequest audioFile language) with
  | none => rw [ht] at h; exact absurd h (by simp)
  | some p =>
    obtain ⟨out, calls⟩ := p
    rw [ht] at h
    have hsame := hcalls calls (htry out calls ht)
    cases out with
    | ok data =>
      simp only [Option.some.injEq] at h
      subst h
      simp only [HookState.after] at hsame
      simp [HookState.after, List.foldl_append, HookState.apply, hsame]
    | error message =>
      simp only [Option.some.injEq] at h
      subst h
      simp only [HookState.after] at hsame
      simp [HookState.after, List.foldl_append, HookState.apply, hsame]

/-- A response whose status is not OK makes `transcribeAudio` throw the
status, whatever the body is, and the body is not read. -/
theorem transcribeAudio_of_not_ok (fetch : FetchCall → FetchOutcome) (audioFile : String)
    (language : Option String) (response : FetchResponse)
    (hfetch : fetch (transcribeRequest audioFile language) = .resolved response)
    (hok : response.ok = false) :
    transcribeAudio fetch audioFile language =
      some { outcome := .error (.text ("HTTP error! status: " ++ toString response.status)),
             calls := [.setIsLoading true, .setError none,
               .fetch (transcribeRequest audioFile language),
               .setError (some (.text ("HTTP error! status: " ++ toString response.status))),
               .setIsLoading false] } := by
  unfold transcribeAudio tryBlock
  rw [hfetch]
  simp only [hok]
  rfl

/-- A response whose status is OK and whose body is an object with a boolean
`success`: `transcribeAudio` returns `data` if `success` is `true` and throws
`new Error(result.error)` if it is `false`. -/
theorem transcribeAudio_of_ok (fetch : FetchCall → FetchOutcome) (audioFile : String)
    (language : Option String) (response : FetchResponse) (result data error : JSValue)
    (success : Bool)
    (hfetch : fetch (transcribeRequest audioFile language) = .resolved response)
    (hok : response.ok = true)
    (hjson : response.json = .resolved result)
    (hsuccess : getProp result "success" = .ok (.bool success))
    (hdata : getProp result "data" = .ok data)
    (herror : getProp result "error" = .ok error) :
    transcribeAudio fetch audioFile language =
      some (if success then
        { outcome := .ok data,
          calls := [.setIsLoading true, .setError none,
            .fetch (transcribeRequest audioFile language), .json, .setIsLoading false] }
      else
        { outcome := .error (newError error),
          calls := [.setIsLoading true, .setError none,
            .fetch (transcribeRequest audioFile language), .json,
            .setError (some (newError error)), .setIsLoading false] }) := by
  unfold transcribeAudio tryBlock
  rw [hfetch]
  simp only [hok, hjson, hsuccess, hdata, herror, truthy]
  cases success <;> rfl

/-- C30: for a response whose body is an object with a boolean `success`,
`transcribeAudio` returns a value if and only if the status is OK and
`success` is `true`, and the value is then the `data` of the body; for a
status that is not OK it throws `HTTP error! status: <status>` and does not
call `response.json()`, whatever the body is; for an OK status with `success`
`false` it throws an error made from the `error` of the body, whose message
is that `error` when it is a string.  Whenever the function has finished,
`isLoading` is `false`, and `error` is the message thrown or, if a value was
returned, `null`. -/
theorem hook_returns_data_iff_ok_and_success (fetch : FetchCall → FetchOutcome)
    (audioFile : String) (language : Option String) (before : HookState)
    (response : FetchResponse) (result data error : JSValue) (success : Bool)
    (hfetch : fetch (transcribeRequest audioFile language) = .resolved response)
    (hjson : response.json = .resolved result)
    (hsuccess : getProp result "success" = .ok (.bool success))
    (hdata : getProp result "data" = .ok data)
    (herror : getProp result "error" = .ok error) :
    (∃ run, transcribeAudio fetch audioFile language = some run ∧
      ((∃ value, run.outcome = .ok value) ↔ response.ok = true ∧ success = true) ∧
      (response.ok = true → success = true → run.outcome = .ok data) ∧
      (response.ok = false →
        run.outcome = .error (.text ("HTTP error! status: " ++ toString response.status)) ∧
        HookCall.json ∉ run.calls) ∧
      (response.ok = true → success = false →
        run.outcome = .error (newError error) ∧
        ∀ text, error = .string text → run.outcome = .error (.text text)) ∧
      (before.after run.calls).isLoading = false ∧
      (∀ message, run.outcome = .error message →
        (before.after run.calls).error = some message) ∧
      (∀ value, run.outcome = .ok value → (before.after run.calls).error = none)) ∧
    (∀ (anyFetch : FetchCall → FetchOutcome) (anyResponse : FetchResponse),
      anyFetch (transcribeRequest audioFile language) = .resolved anyResponse →
      anyResponse.ok = false →
      ∃ run, transcribeAudio anyFetch audioFile language = some run ∧
        run.outcome =
          .error (.text ("HTTP error! status: " ++ toString anyResponse.status)) ∧
        HookCall.json ∉ run.calls) ∧
    (∀ (anyFetch : FetchCall → FetchOutcome) (run : HookRun),
      transcribeAudio anyFetch audioFile language = some run →
      (before.after run.calls).isLoading = false ∧
      (∀ message, run.outcome = .error message →
        (before.after run.calls).error = some message) ∧
      (∀ value, run.outcome = .ok value → (before.after run.calls).error = none)) := by
  have hnot : ∀ (anyFetch : FetchCall → FetchOutcome) (anyResponse : FetchResponse),
      anyFetch (transcribeRequest audioFile language) = .resolved anyResponse →
      anyResponse.ok = false →
      ∃ run, transcribeAudio anyFetch audioFile language = some run ∧
        run.outcome =
          .error (.text ("HTTP error! status: " ++ toString anyResponse.status)) ∧
        HookCall.json ∉ run.calls := by
    intro anyFetch anyResponse hf hok
    refine ⟨_, transcribeAudio_of_not_ok anyFetch audioFile language anyResponse hf hok,
      rfl, ?_⟩
    simp
  refine ⟨?_, hnot, fun anyFetch run h =>
    transcribeAudio_state anyFetch audioFile language before run h⟩
  cases hok : response.ok with
  | false =>
    obtain ⟨run, hrun, hout, hcalls⟩ := hnot fetch response hfetch hok
    obtain ⟨h1, h2, h3⟩ := transcribeAudio_state fetch audioFile language before run hrun
    refine ⟨run, hrun, ?_, ?_, fun _ => ⟨hout, hcalls⟩, ?_, h1, h2, h3⟩
    · rw [hout]; simp
    · intro h; exact absurd h (by simp)
    · intro h; exact absurd h (by simp)
  | true =>
    have hrun := transcribeAudio_of_ok fetch audioFile language response result data error
      success hfetch hok hjson hsuccess hdata herror
    obtain ⟨h1, h2, h3⟩ := transcribeAudio_state fetch audioFile language before _ hrun
    refine ⟨_, hrun, ?_, ?_, fun h => absurd h (by simp), ?_, h1, h2, h3⟩
    · cases success <;> simp
    · intro _ hs; rw [hs]; rfl
    · intro _ hs
      rw [hs]
      exact ⟨rfl, fun text ht => by rw [ht]; rfl⟩

/-- C30 at a request answered with status 500 and the envelope of a failed
transcription: the hook throws `HTTP error! status: 500`. -/
theorem hook_returns_data_iff_ok_and_success_witness :
    (∃ run, transcribeAudio serverErrorFetch "namaste.wav" (some "hi") = some run ∧
      ((∃ value, run.outcome = .ok value) ↔ serverErrorResponse.ok = true ∧ false = true) ∧
      (serverErrorResponse.ok = true → false = true → run.outcome = .ok JSValue.undefined) ∧
      (serverErrorResponse.ok = false →
        run.outcome = .error (.text ("HTTP error! status: " ++ toString serverErrorResponse.status)) ∧
        HookCall.json ∉ run.calls) ∧
      (serverErrorResponse.ok = true → false = false →
        run.outcome = .error (newError (JSValue.string "Transcription failed: Python process failed with code 1: ")) ∧
        ∀ text, (JSValue.string "Transcription failed: Python process failed with code 1: ") = .string text → run.outcome = .error (.text text)) ∧
      (staleState.after run.calls).isLoading = false ∧
      (∀ message, run.outcome = .error message →
        (staleState.after run.calls).error = some message) ∧
      (∀ value, run.outcome = .ok value → (staleState.after run.calls).error = none)) ∧
    (∀ (anyFetch : FetchCall → FetchOutcome) (anyResponse : FetchResponse),
      anyFetch (transcribeRequest "namaste.wav" (some "hi")) = .resolved anyResponse →
      anyResponse.ok = false →
      ∃ run, transcribeAudio anyFetch "namaste.wav" (some "hi") = some run ∧
        run.outcome =
          .error (.text ("HTTP error! status: " ++ toString anyResponse.status)) ∧
        HookCall.json ∉ run.calls) ∧
    (∀ (anyFetch : FetchCall → FetchOutcome) (run : HookRun),
      transcribeAudio anyFetch "namaste.wav" (some "hi") = some run →
      (staleState.after run.calls).isLoading = false ∧
      (∀ message, run.outcome = .error message →
        (staleState.after run.calls).error = some message) ∧
      (∀ value, run.outcome = .ok value → (staleState.after run.calls).error = none)) :=
  hook_returns_data_iff_ok_and_success serverErrorFetch "namaste.wav" (some "hi") staleState
    serverErrorResponse failureEnvelope .undefined
    (.string "Transcription failed: Python process failed with code 1: ") false
    rfl rfl rfl rfl rfl

end LokSanskriti
